import Mathlib

/-!
# MacMidi input stream engine

A shallow embedding of the input side of `MacMidi.cpp` / `MacMidi.h`:
the ring queue `MidiInApi::MidiQueue`, the dispatch operations of
`MidiInApi` (`setCallback`, `cancelCallback`, `ignoreTypes`, `getMessage`),
the error reporter `MidiApi::error`, and the CoreMIDI packet parser
`midiInputCallback`.

Conventions.
* `unsigned char`, `unsigned short`, `unsigned int`, `unsigned long long`
  are natural numbers; every operation that can wrap is written with an
  explicit modulus (`USHORT`, `UINT`, `ULLONG`).
* Pointers (`void *userData`, function pointers) are natural numbers, `0`
  being the null pointer.
* A `double` time stamp is only ever written as the literal `0.0` or as
  `time * 0.000000001` for a 64-bit integer `time`; it is represented by
  that integer number of nanoseconds, so `0.0` is `0` and every other
  value is non-zero.
* Code that can leave defined behaviour, throw, or loop returns
  `Except Failure _`.
-/

namespace MacMidi

/-! ## Machine arithmetic -/

/-- Modulus of `unsigned short` (the type of `nBytes`, `iByte`, `size`). -/
def USHORT : Nat := 65536

/-- Modulus of `unsigned int` (the type of the queue indices). -/
def UINT : Nat := 4294967296

/-- Modulus of `unsigned long long` (the type of host time values). -/
def ULLONG : Nat := 18446744073709551616

/-- Subtraction `a - b` of two unsigned values below the modulus `m`,
wrapping around when `a < b`: the value `(a + m - b) % m`. -/
def wrapSub (m a b : Nat) : Nat := if b ≤ a then a - b else m - (b - a)

/-- The values of `MacMidiError::Type`, in declaration order. -/
inductive ErrorType where
  | WARNING
  | DEBUG_WARNING
  | UNSPECIFIED
  | NO_DEVICES_FOUND
  | INVALID_DEVICE
  | MEMORY_ERROR
  | INVALID_PARAMETER
  | INVALID_USE
  | DRIVER_ERROR
  | SYSTEM_ERROR
  | THREAD_ERROR
  deriving DecidableEq, Repr

/-- Ways in which a call does not return normally. -/
inductive Failure where
  /-- A `MacMidiError` exception propagates to the caller. -/
  | thrown (type : ErrorType) (message : String)
  /-- An array (the ring, the packet bytes) is accessed outside its bounds. -/
  | outOfBounds
  /-- The right operand of `%` is zero. -/
  | divByZero
  /-- A loop did not finish within the given number of iterations. -/
  | outOfFuel
  deriving DecidableEq, Repr

/-- Equality of results is decidable, so that calls can be evaluated. -/
instance instDecidableEqExcept {ε α : Type} [DecidableEq ε] [DecidableEq α] :
    DecidableEq (Except ε α) := fun x y =>
  match x, y with
  | .ok a, .ok b => if h : a = b then isTrue (by rw [h]) else isFalse (fun h1 => h (Except.ok.inj h1))
  | .error a, .error b =>
    if h : a = b then isTrue (by rw [h]) else isFalse (fun h1 => h (Except.error.inj h1))
  | .ok _, .error _ => isFalse (fun h => by cases h)
  | .error _, .ok _ => isFalse (fun h => by cases h)

/-! ## Messages and the ring queue -/

/-- The struct `MidiInApi::MidiMessage`. -/
structure MidiMessage where
  bytes : List Nat
  timeStamp : Nat
  deriving DecidableEq, Repr

/-- The default constructor `MidiMessage() : bytes(0), timeStamp(0.0)`. -/
def MidiMessage.new : MidiMessage := { bytes := [], timeStamp := 0 }

/-- The struct `MidiInApi::MidiQueue`; `ring` is the allocated array
(empty for the null pointer). -/
structure MidiQueue where
  front : Nat
  back : Nat
  ringSize : Nat
  ring : List MidiMessage
  deriving DecidableEq, Repr

/-- The default constructor `MidiQueue() : front(0), back(0), ringSize(0), ring(0)`. -/
def MidiQueue.new : MidiQueue := { front := 0, back := 0, ringSize := 0, ring := [] }

/-- The queue set up by the constructor `MidiInApi::MidiInApi(queueSizeLimit)`:
`ringSize = queueSizeLimit`, and the ring is allocated only when it is positive. -/
def MidiQueue.alloc (queueSizeLimit : Nat) : MidiQueue :=
  { MidiQueue.new with
    ringSize := queueSizeLimit
    ring := if queueSizeLimit > 0 then List.replicate queueSizeLimit MidiMessage.new else [] }

/-- The value returned by `MidiQueue::size`; the copies `_back`, `_front`
it hands back are `q.back` and `q.front`. -/
def MidiQueue.size (q : MidiQueue) : Nat :=
  if q.back ≥ q.front then q.back - q.front
  else (wrapSub UINT q.ringSize q.front + q.back) % UINT

/-- The method `MidiQueue::push`: the returned flag and the queue after the call. -/
def MidiQueue.push (q : MidiQueue) (msg : MidiMessage) : Except Failure (Bool × MidiQueue) :=
  let _back := q.back
  let _size := q.size
  if _size < wrapSub UINT q.ringSize 1 then
    -- ring[_back] = msg;
    if _back < q.ring.length then
      -- back = (back + 1) % ringSize;
      if q.ringSize = 0 then .error .divByZero
      else .ok (true, { q with ring := q.ring.set _back msg
                               back := ((q.back + 1) % UINT) % q.ringSize })
    else .error .outOfBounds
  else .ok (false, q)

/-- The method `MidiQueue::pop`: `none` when it returns false (the two
output arguments are not written), `some m` when it returns true after
writing `m.bytes` to `*msg` and `m.timeStamp` to `*timeStamp`. -/
def MidiQueue.pop (q : MidiQueue) : Except Failure (Option MidiMessage × MidiQueue) :=
  let _front := q.front
  let _size := q.size
  if _size = 0 then .ok (none, q)
  else
    match q.ring[_front]? with
    | none => .error .outOfBounds
    | some m =>
      if q.ringSize = 0 then .error .divByZero
      else .ok (some m, { q with front := ((q.front + 1) % UINT) % q.ringSize })

/-- Pushes the messages one by one; the flags returned, in order, and the final queue. -/
def MidiQueue.pushAll (q : MidiQueue) : List MidiMessage → Except Failure (List Bool × MidiQueue)
  | [] => .ok ([], q)
  | m :: ms =>
    match q.push m with
    | .error e => .error e
    | .ok (b, q1) =>
      match MidiQueue.pushAll q1 ms with
      | .error e => .error e
      | .ok (bs, q2) => .ok (b :: bs, q2)

/-- Pops `n` times; the results, in order, and the final queue. -/
def MidiQueue.popN (q : MidiQueue) : Nat → Except Failure (List (Option MidiMessage) × MidiQueue)
  | 0 => .ok ([], q)
  | n + 1 =>
    match q.pop with
    | .error e => .error e
    | .ok (r, q1) =>
      match MidiQueue.popN q1 n with
      | .error e => .error e
      | .ok (rs, q2) => .ok (r :: rs, q2)

/-! ## Stream state -/

/-- The fields of the struct `CoreMidiData` the parser uses (the client,
port and endpoint handles are left out). -/
structure CoreMidiData where
  lastTime : Nat
  deriving DecidableEq, Repr

/-- The struct `MidiInApi::MacMidiInData`; `apiData` is the `CoreMidiData`
it points to. -/
structure MacMidiInData where
  queue : MidiQueue
  message : MidiMessage
  ignoreFlags : Nat
  doInput : Bool
  firstMessage : Bool
  apiData : CoreMidiData
  usingCallback : Bool
  userCallback : Nat
  userData : Nat
  continueSysex : Bool
  bufferSize : Nat
  bufferCount : Nat
  deriving DecidableEq, Repr

/-- The default constructor of `MacMidiInData` followed by the body of
`MidiInApi::MidiInApi(queueSizeLimit)`. `MidiInCore` points `apiData` to a
`CoreMidiData` whose `lastTime` it never writes: `lastTime` is that
indeterminate value. -/
def MacMidiInData.new (queueSizeLimit lastTime : Nat) : MacMidiInData :=
  { queue := MidiQueue.alloc queueSizeLimit
    message := MidiMessage.new
    ignoreFlags := 7
    doInput := false
    firstMessage := true
    apiData := { lastTime := lastTime }
    usingCallback := false
    userCallback := 0
    userData := 0
    continueSysex := false
    bufferSize := 1024
    bufferCount := 4 }

/-- The members of `MidiApi` and `MidiInApi` used by the input operations. -/
structure MidiInApi where
  connected_ : Bool
  errorString_ : String
  errorCallback_ : Nat
  firstErrorOccurred_ : Bool
  errorCallbackUserData_ : Nat
  inputData_ : MacMidiInData
  deriving DecidableEq, Repr

/-- The constructors `MidiApi::MidiApi()` and `MidiInApi::MidiInApi(queueSizeLimit)`. -/
def MidiInApi.new (queueSizeLimit lastTime : Nat) : MidiInApi :=
  { connected_ := false
    errorString_ := ""
    errorCallback_ := 0
    firstErrorOccurred_ := false
    errorCallbackUserData_ := 0
    inputData_ := MacMidiInData.new queueSizeLimit lastTime }

/-- What a call makes visible outside the object, in order. -/
inductive Output where
  /-- Text written to `std::cerr`. -/
  | cerr (text : String)
  /-- One invocation `errorCallback_(type, errorMessage, errorCallbackUserData_)`. -/
  | errorCallback (fn : Nat) (type : ErrorType) (errorMessage : String) (userData : Nat)
  deriving DecidableEq, Repr

/-! ## Error reporting and dispatch operations -/

/-- The method `MidiApi::error`, built without `__MACMIDI_DEBUG__`. The user
handler is taken to return normally without calling back into the object. -/
def MidiInApi.error (api : MidiInApi) (type : ErrorType) (errorString : String) :
    Except Failure (MidiInApi × List Output) :=
  if api.errorCallback_ ≠ 0 then
    if api.firstErrorOccurred_ then .ok (api, [])
    else
      let api1 := { api with firstErrorOccurred_ := true }
      let errorMessage := errorString
      let out := [Output.errorCallback api1.errorCallback_ type errorMessage api1.errorCallbackUserData_]
      .ok ({ api1 with firstErrorOccurred_ := false }, out)
  else if type = ErrorType.WARNING then
    .ok (api, [Output.cerr ("\n" ++ errorString ++ "\n\n")])
  else if type = ErrorType.DEBUG_WARNING then
    .ok (api, [])
  else
    .error (Failure.thrown type errorString)

/-- The method `MidiInApi::setCallback`. -/
def MidiInApi.setCallback (api : MidiInApi) (callback userData : Nat) :
    Except Failure (MidiInApi × List Output) :=
  if api.inputData_.usingCallback then
    let api1 := { api with errorString_ := "MidiInApi::setCallback: a callback function is already set!" }
    api1.error ErrorType.WARNING api1.errorString_
  else if callback = 0 then
    let api1 := { api with errorString_ := "MacMidiIn::setCallback: callback function value is invalid!" }
    api1.error ErrorType.WARNING api1.errorString_
  else
    .ok ({ api with inputData_ := { api.inputData_ with
              userCallback := callback, userData := userData, usingCallback := true } }, [])

/-- The method `MidiInApi::cancelCallback`. -/
def MidiInApi.cancelCallback (api : MidiInApi) : Except Failure (MidiInApi × List Output) :=
  if !api.inputData_.usingCallback then
    let api1 := { api with errorString_ := "MacMidiIn::cancelCallback: no callback function was set!" }
    api1.error ErrorType.WARNING api1.errorString_
  else
    .ok ({ api with inputData_ := { api.inputData_ with
              userCallback := 0, userData := 0, usingCallback := false } }, [])

/-- The method `MidiInApi::ignoreTypes`. -/
def MidiInApi.ignoreTypes (api : MidiInApi) (midiSysex midiTime midiSense : Bool) : MidiInApi :=
  let f0 := 0
  let f1 := if midiSysex then 0x01 else f0
  let f2 := if midiTime then f1 ||| 0x02 else f1
  let f3 := if midiSense then f2 ||| 0x04 else f2
  { api with inputData_ := { api.inputData_ with ignoreFlags := f3 } }

/-- The method `MidiInApi::getMessage`: the returned time stamp, the content
of `*message` after the call, the object and its outputs. -/
def MidiInApi.getMessage (api : MidiInApi) :
    Except Failure (Nat × List Nat × MidiInApi × List Output) :=
  -- message->clear();
  let message : List Nat := []
  if api.inputData_.usingCallback then
    let api1 := { api with errorString_ :=
      "MacMidiIn::getNextMessage: a user callback is currently set for this port." }
    match api1.error ErrorType.WARNING api1.errorString_ with
    | .error e => .error e
    | .ok (api2, out) => .ok (0, message, api2, out)
  else
    match api.inputData_.queue.pop with
    | .error e => .error e
    | .ok (none, _) => .ok (0, message, api, [])
    | .ok (some m, q) =>
      .ok (m.timeStamp, m.bytes, { api with inputData_ := { api.inputData_ with queue := q } }, [])

/-! ## The CoreMIDI packet parser -/

/-- One `MIDIPacket`: its `timeStamp` and its `length` data bytes. The field
`length` is a `UInt16`, so a packet holds fewer than `USHORT` bytes. -/
structure MIDIPacket where
  timeStamp : Nat
  data : List Nat
  deriving DecidableEq, Repr

/-- The host clock services the parser calls: the value read by
`AudioGetCurrentHostTime()` while the packet list is processed, and
`AudioConvertHostTimeToNanos`. -/
structure Host where
  now : Nat
  toNanos : Nat → Nat

/-- One invocation `callback(message.timeStamp, &message.bytes, data->userData)`
of the user callback `callback`. -/
structure CallbackCall where
  callback : Nat
  timeStamp : Nat
  bytes : List Nat
  userData : Nat
  deriving DecidableEq, Repr

/-- The block both branches of the parser run on a finished message: invoke
the user callback if one is in use, then `message.bytes.clear()`. The
callback is taken to return without touching the stream. -/
def deliver (data : MacMidiInData) (calls : List CallbackCall) :
    MacMidiInData × List CallbackCall :=
  let calls1 :=
    if data.usingCallback then
      calls ++ [{ callback := data.userCallback, timeStamp := data.message.timeStamp,
                  bytes := data.message.bytes, userData := data.userData }]
    else calls
  ({ data with message := { data.message with bytes := [] } }, calls1)

/-- The if/else chain of the scan loop that determines the number of bytes
in the message starting with `status`: the resulting `size`, `iByte` and
`continueSysex`. -/
def classify (packet : MIDIPacket) (nBytes iByte ignoreFlags : Nat) (continueSysex : Bool)
    (status : Nat) : Except Failure (Nat × Nat × Bool) :=
  if status < 0xC0 then .ok (3, iByte, continueSysex)
  else if status < 0xE0 then .ok (2, iByte, continueSysex)
  else if status < 0xF0 then .ok (3, iByte, continueSysex)
  else if status = 0xF0 then
    -- A MIDI sysex
    match packet.data[nBytes - 1]? with
    | none => .error .outOfBounds
    | some last =>
      if ignoreFlags &&& 0x01 ≠ 0 then .ok (0, nBytes, last != 0xF7)
      else .ok (wrapSub USHORT nBytes iByte, iByte, last != 0xF7)
  else if status = 0xF1 then
    -- A MIDI time code message
    if ignoreFlags &&& 0x02 ≠ 0 then .ok (0, (iByte + 2) % USHORT, continueSysex)
    else .ok (2, iByte, continueSysex)
  else if status = 0xF2 then .ok (3, iByte, continueSysex)
  else if status = 0xF3 then .ok (2, iByte, continueSysex)
  else if status = 0xF8 ∧ ignoreFlags &&& 0x02 ≠ 0 then
    -- A MIDI timing tick message and we are ignoring it.
    .ok (0, (iByte + 1) % USHORT, continueSysex)
  else if status = 0xFE ∧ ignoreFlags &&& 0x04 ≠ 0 then
    -- A MIDI active sensing message and we are ignoring it.
    .ok (0, (iByte + 1) % USHORT, continueSysex)
  else .ok (1, iByte, continueSysex)

/-- The variables the scan loop of `midiInputCallback` works on, with the
callback invocations made so far. -/
structure Scan where
  iByte : Nat
  data : MacMidiInData
  foundNonFiltered : Bool
  calls : List CallbackCall
  deriving DecidableEq, Repr

/-- The loop `while (iByte < nBytes)` of `midiInputCallback`, run for at most
`fuel` evaluations of its condition. -/
def scan (packet : MIDIPacket) (nBytes : Nat) : Nat → Scan → Except Failure Scan
  | 0, _ => .error .outOfFuel
  | fuel + 1, s =>
    if s.iByte < nBytes then
      -- We are expecting that the next byte in the packet is a status byte.
      match packet.data[s.iByte]? with
      | none => .error .outOfBounds
      | some status =>
        if status &&& 0x80 = 0 then .ok s
        else
          match classify packet nBytes s.iByte s.data.ignoreFlags s.data.continueSysex status with
          | .error e => .error e
          | .ok (size, iByte, continueSysex) =>
            let data1 := { s.data with continueSysex := continueSysex }
            -- Copy the MIDI data to our vector.
            if size ≠ 0 then
              if iByte + size ≤ packet.data.length then
                let data2 := { data1 with message :=
                  { data1.message with bytes := (packet.data.drop iByte).take size } }
                let r := if !data2.continueSysex then deliver data2 s.calls else (data2, s.calls)
                scan packet nBytes fuel
                  { iByte := (iByte + size) % USHORT, data := r.1,
                    foundNonFiltered := true, calls := r.2 }
              else .error .outOfBounds
            else
              scan packet nBytes fuel { s with iByte := iByte, data := data1 }
    else .ok s

/-- The block "Calculate time stamp" at the start of the loop body of
`midiInputCallback`, for a non-empty packet. -/
def calcTimeStamp (host : Host) (data : MacMidiInData) (packet : MIDIPacket) : MacMidiInData :=
  if data.firstMessage then
    { data with message := { data.message with timeStamp := 0 }, firstMessage := false }
  else
    let time := if packet.timeStamp = 0 then host.now else packet.timeStamp
    let time := wrapSub ULLONG time data.apiData.lastTime
    let time := host.toNanos time
    if !data.continueSysex then
      { data with message := { data.message with timeStamp := time } }
    else data

/-- The body of the loop over the packets of `midiInputCallback`: the stream
after the packet and the callback invocations made for it. -/
def handlePacket (fuel : Nat) (host : Host) (data : MacMidiInData) (packet : MIDIPacket) :
    Except Failure (MacMidiInData × List CallbackCall) :=
  let nBytes := packet.data.length
  if nBytes = 0 then .ok (data, [])
  else
    let data1 := calcTimeStamp host data packet
    if data1.continueSysex then
      -- We have a continuing, segmented sysex message.
      let data2 :=
        if data1.ignoreFlags &&& 0x01 = 0 then
          { data1 with message := { data1.message with bytes := data1.message.bytes ++ packet.data } }
        else data1
      match packet.data[nBytes - 1]? with
      | none => .error .outOfBounds
      | some last =>
        let data3 := { data2 with continueSysex := last != 0xF7 }
        if data3.ignoreFlags &&& 0x01 = 0 ∧ !data3.continueSysex then .ok (deliver data3 [])
        else .ok (data3, [])
    else
      match scan packet nBytes fuel { iByte := 0, data := data1, foundNonFiltered := false, calls := [] } with
      | .error e => .error e
      | .ok s =>
        -- Save the time of the last non-filtered message
        if s.foundNonFiltered then
          let lastTime := if packet.timeStamp = 0 then host.now else packet.timeStamp
          .ok ({ s.data with apiData := { s.data.apiData with lastTime := lastTime } }, s.calls)
        else .ok (s.data, s.calls)

/-- The function `midiInputCallback` on a packet list: the stream after the
list and all callback invocations, in order. Each scan loop gets `fuel`. -/
def midiInputCallback (fuel : Nat) (host : Host) (data : MacMidiInData) :
    List MIDIPacket → Except Failure (MacMidiInData × List CallbackCall)
  | [] => .ok (data, [])
  | packet :: rest =>
    match handlePacket fuel host data packet with
    | .error e => .error e
    | .ok (data1, calls1) =>
      match midiInputCallback fuel host data1 rest with
      | .error e => .error e
      | .ok (data2, calls2) => .ok (data2, calls1 ++ calls2)

/-- A host whose clock ticks are nanoseconds. -/
def Host.plain (now : Nat) : Host := { now := now, toNanos := fun t => t }

/-! ## Vocabulary of the statements about the parser -/

/-- Length in bytes of the non-sysex MIDI message that starts with `status`,
as listed in the message table of the parser's specification. -/
def statusLength (status : Nat) : Nat :=
  if 0x80 ≤ status ∧ status ≤ 0xBF then 3
  else if 0xC0 ≤ status ∧ status ≤ 0xDF then 2
  else if 0xE0 ≤ status ∧ status ≤ 0xEF then 3
  else if status = 0xF1 then 2
  else if status = 0xF2 then 3
  else if status = 0xF3 then 2
  else 1

/-- Whether the ignore mask asks to drop the message type of `status`:
sysex (bit 0), time code and timing tick (bit 1), active sensing (bit 2). -/
def filtered (ignoreFlags status : Nat) : Bool :=
  decide ((status = 0xF0 ∧ ignoreFlags &&& 0x01 ≠ 0) ∨
    ((status = 0xF1 ∨ status = 0xF8) ∧ ignoreFlags &&& 0x02 ≠ 0) ∨
    (status = 0xFE ∧ ignoreFlags &&& 0x04 ≠ 0))

/-- A complete, unfiltered, non-sysex message: a status byte other than
0xF0 followed by as many bytes as its type takes. -/
def completeMessage (ignoreFlags : Nat) (m : List Nat) : Bool :=
  match m with
  | [] => false
  | status :: _ =>
    decide (0x80 ≤ status ∧ status ≤ 0xFF ∧ status ≠ 0xF0 ∧ m.length = statusLength status) &&
      !filtered ignoreFlags status

/-- The stream is in the middle of a sysex it is not ignoring: the
continuation flag is set, `bytes` have been collected under the time stamp
`stamp`, and the callback in use is `cb` with user data `ud`. -/
def Collecting (cb ud stamp : Nat) (bytes : List Nat) (d : MacMidiInData) : Prop :=
  d.continueSysex = true ∧ d.firstMessage = false ∧ d.ignoreFlags &&& 0x01 = 0 ∧
  d.usingCallback = true ∧ d.userCallback = cb ∧ d.userData = ud ∧
  d.message = { bytes := bytes, timeStamp := stamp }

/-! ## The base class `MidiApi` and re-entrant error reporting -/

/-- The data members of the base class `MidiApi` (`apiData_` is kept by the
subclasses). -/
structure MidiApi where
  connected_ : Bool
  errorString_ : String
  errorCallback_ : Nat
  firstErrorOccurred_ : Bool
  errorCallbackUserData_ : Nat
  deriving DecidableEq, Repr

/-- The constructor `MidiApi::MidiApi()`. -/
def MidiApi.new : MidiApi :=
  { connected_ := false
    errorString_ := ""
    errorCallback_ := 0
    firstErrorOccurred_ := false
    errorCallbackUserData_ := 0 }

/-- The method `MidiApi::setErrorCallback`. -/
def MidiApi.setErrorCallback (api : MidiApi) (errorCallback userData : Nat) : MidiApi :=
  { api with errorCallback_ := errorCallback, errorCallbackUserData_ := userData }

/-- The base-class part of a `MidiInApi` object. -/
def MidiInApi.toMidiApi (api : MidiInApi) : MidiApi :=
  { connected_ := api.connected_
    errorString_ := api.errorString_
    errorCallback_ := api.errorCallback_
    firstErrorOccurred_ := api.firstErrorOccurred_
    errorCallbackUserData_ := api.errorCallbackUserData_ }

/-- The method `MidiApi::error`, built without `__MACMIDI_DEBUG__`; `run` is
what the call `errorCallback_(type, errorMessage, errorCallbackUserData_)`
does to the object while the user handler runs, with the outputs it causes. -/
def MidiApi.errorWith (run : MidiApi → Except Failure (MidiApi × List Output))
    (api : MidiApi) (type : ErrorType) (errorString : String) :
    Except Failure (MidiApi × List Output) :=
  if api.errorCallback_ ≠ 0 then
    if api.firstErrorOccurred_ then .ok (api, [])
    else
      let api1 := { api with firstErrorOccurred_ := true }
      let errorMessage := errorString
      match run api1 with
      | .error e => .error e
      | .ok (api2, out) =>
        .ok ({ api2 with firstErrorOccurred_ := false },
             Output.errorCallback api1.errorCallback_ type errorMessage
               api1.errorCallbackUserData_ :: out)
  else if type = ErrorType.WARNING then
    .ok (api, [Output.cerr ("\n" ++ errorString ++ "\n\n")])
  else if type = ErrorType.DEBUG_WARNING then
    .ok (api, [])
  else
    .error (Failure.thrown type errorString)

/-- What a user error handler does to the object while it runs: the calls
`error(type, errorString)` it makes on it, in order. Each call comes with
`inner`, what the handler would do if that call invoked it again; `next` is
the rest of the run. The handler is taken to raise nothing of its own and
to leave the registration of the handler as it is. -/
inductive HandlerBody where
  | done
  | call (type : ErrorType) (errorString : String) (inner : HandlerBody) (next : HandlerBody)
  deriving Repr

/-- The run of a user error handler: its calls of `error`, one after the
other, an exception raised by one of them ending the run. -/
def HandlerBody.run : HandlerBody → MidiApi → Except Failure (MidiApi × List Output)
  | .done, api => .ok (api, [])
  | .call type errorString inner next, api =>
    match MidiApi.errorWith (HandlerBody.run inner) api type errorString with
    | .error e => .error e
    | .ok (api1, out1) =>
      match HandlerBody.run next api1 with
      | .error e => .error e
      | .ok (api2, out2) => .ok (api2, out1 ++ out2)

/-- The method `MidiApi::error` when the registered handler behaves as
`handler`. -/
def MidiApi.error (api : MidiApi) (type : ErrorType) (errorString : String)
    (handler : HandlerBody) : Except Failure (MidiApi × List Output) :=
  MidiApi.errorWith handler.run api type errorString

/-! ## API names -/

/-- The enumerators of `MacMidi::Api`, as their integer values. -/
def Api.UNSPECIFIED : Int := 0

/-- See `Api.UNSPECIFIED`. -/
def Api.MACOSX_CORE : Int := 1

/-- See `Api.UNSPECIFIED`. -/
def Api.LINUX_ALSA : Int := 2

/-- See `Api.UNSPECIFIED`. -/
def Api.UNIX_JACK : Int := 3

/-- See `Api.UNSPECIFIED`. -/
def Api.WINDOWS_MM : Int := 4

/-- See `Api.UNSPECIFIED`. -/
def Api.MACMIDI_DUMMY : Int := 5

/-- See `Api.UNSPECIFIED`. -/
def Api.WEB_MIDI_API : Int := 6

/-- See `Api.UNSPECIFIED`. -/
def Api.WINDOWS_UWP : Int := 7

/-- See `Api.UNSPECIFIED`. -/
def Api.ANDROID_AMIDI : Int := 8

/-- The enumerator that counts the values of `MacMidi::Api`. -/
def Api.NUM_APIS : Int := 9

/-- The table `macmidi_api_names`: short name and display name, in the
order of the enum. -/
def macmidi_api_names : List (String × String) :=
  [("unspecified", "Unknown"),
   ("core", "CoreMidi"),
   ("alsa", "ALSA"),
   ("jack", "Jack"),
   ("winmm", "Windows MultiMedia"),
   ("dummy", "Dummy"),
   ("web", "Web MIDI API"),
   ("winuwp", "Windows UWP"),
   ("amidi", "Android MIDI API")]

/-- The entries of `macmidi_compiled_apis` before its closing `UNSPECIFIED`
when the library is built with `__MACOSX_CORE__`, the only backend this
repository implements. -/
def macmidi_compiled_apis_core : List Int := [Api.MACOSX_CORE]

/-- The function `MacMidi::getApiName`. -/
def getApiName (api : Int) : String :=
  if api < Api.UNSPECIFIED ∨ api ≥ Api.NUM_APIS then ""
  else (macmidi_api_names.getD api.toNat ("", "")).1

/-- The function `MacMidi::getApiDisplayName`. -/
def getApiDisplayName (api : Int) : String :=
  if api < Api.UNSPECIFIED ∨ api ≥ Api.NUM_APIS then "Unknown"
  else (macmidi_api_names.getD api.toNat ("", "")).2

/-- The function `MacMidi::getCompiledApiByName`; the list holds the first
`macmidi_num_compiled_apis` entries of `macmidi_compiled_apis`, which
depend on the preprocessor symbols of the build. -/
def getCompiledApiByName (macmidi_compiled_apis : List Int) (name : String) : Int :=
  match macmidi_compiled_apis with
  | [] => Api.UNSPECIFIED
  | api :: rest =>
    if name = (macmidi_api_names.getD api.toNat ("", "")).1 then api
    else getCompiledApiByName rest name

/-! ## Reachable queue states -/

/-- The states a queue of capacity `C` can be in: the queue as allocated by
the constructor, and every state a call of push or pop returns from. -/
inductive MidiQueue.Reachable (C : Nat) : MidiQueue → Prop where
  | alloc : MidiQueue.Reachable C (MidiQueue.alloc C)
  | push (q q1 : MidiQueue) (msg : MidiMessage) (r : Bool) :
      MidiQueue.Reachable C q → q.push msg = .ok (r, q1) → MidiQueue.Reachable C q1
  | pop (q q1 : MidiQueue) (r : Option MidiMessage) :
      MidiQueue.Reachable C q → q.pop = .ok (r, q1) → MidiQueue.Reachable C q1

/-! ## Output: `MidiOutCore::sendMessage` -/

/-- The fields of the struct `CoreMidiData` that `MidiOutCore::sendMessage`
reads; a handle is `0` when it is not set. -/
structure CoreMidiOutData where
  port : Nat
  endpoint : Nat
  destinationId : Nat
  deriving DecidableEq, Repr

/-- The members of a `MidiOutCore` object: those of `MidiApi` and the
`CoreMidiData` that `apiData_` points to. -/
structure MidiOutCore extends MidiApi where
  apiData_ : CoreMidiOutData
  deriving DecidableEq, Repr

/-- The CoreMIDI services `sendMessage` calls: the value read by
`AudioGetCurrentHostTime()`, whether `MIDIPacketListAdd` returns a packet,
and the `OSStatus` returned by `MIDIReceived` and by `MIDISend` (`0` is
`noErr`), each for the chunk that starts at the given offset of the message. -/
structure OutHost where
  now : Nat
  packetListAdd : Nat → Bool
  received : Nat → Nat
  send : Nat → Nat

/-- One call that hands a packet list to CoreMIDI: `MIDIReceived(endpoint,
packetList)` or `MIDISend(port, destinationId, packetList)`, the list
holding one packet with the given time stamp and bytes. -/
inductive SinkCall where
  | received (endpoint : Nat) (timeStamp : Nat) (bytes : List Nat)
  | send (port destinationId : Nat) (timeStamp : Nat) (bytes : List Nat)
  deriving DecidableEq, Repr

/-- The statements `errorString_ = text; error(type, errorString_);`. What
the user handler does while it runs does not show in the result (see
`MidiApi.error_invokes`), so it is taken to make no call. -/
def MidiOutCore.report (api : MidiOutCore) (type : ErrorType) (text : String) :
    Except Failure (MidiOutCore × List Output) :=
  let api1 : MidiOutCore := { api with errorString_ := text }
  match api1.toMidiApi.error type api1.errorString_ HandlerBody.done with
  | .error e => .error e
  | .ok (base, out) => .ok ({ api1 with toMidiApi := base }, out)

/-- The loop `while (remainingBytes)` of `sendMessage`, run for at most
`fuel` evaluations of its condition: the object, the calls to CoreMIDI and
the error outputs so far, extended by those of the remaining chunks. -/
def MidiOutCore.sendLoop (host : OutHost) (message : List Nat) (nBytes timeStamp : Nat) :
    Nat → Nat → MidiOutCore → List SinkCall → List Output →
    Except Failure (MidiOutCore × List SinkCall × List Output)
  | 0, _, _, _, _ => .error .outOfFuel
  | fuel + 1, remainingBytes, api, calls, out =>
    if remainingBytes ≠ 0 then
      let bytesForPacket := if remainingBytes > 65535 then 65535 else remainingBytes
      let start := nBytes - remainingBytes
      -- MIDIPacketListAdd copies bytesForPacket bytes from &message[nBytes - remainingBytes]
      let chunk := (message.drop start).take bytesForPacket
      let remainingBytes1 := remainingBytes - bytesForPacket
      if !host.packetListAdd start then
        match api.report ErrorType.DRIVER_ERROR
            "MidiOutCore::sendMessage: could not allocate packet list" with
        | .error e => .error e
        | .ok (api1, out1) => .ok (api1, calls, out ++ out1)
      else
        -- Send to any destinations that may have connected to us.
        let r1 : Except Failure (MidiOutCore × List SinkCall × List Output) :=
          if api.apiData_.endpoint ≠ 0 then
            let calls1 := calls ++ [SinkCall.received api.apiData_.endpoint timeStamp chunk]
            if host.received start ≠ 0 then
              match api.report ErrorType.WARNING
                  "MidiOutCore::sendMessage: error sending MIDI to virtual destinations." with
              | .error e => .error e
              | .ok (api1, out1) => .ok (api1, calls1, out ++ out1)
            else .ok (api, calls1, out)
          else .ok (api, calls, out)
        match r1 with
        | .error e => .error e
        | .ok (api1, calls1, out1) =>
          -- And send to an explicit destination port if we are connected.
          let r2 : Except Failure (MidiOutCore × List SinkCall × List Output) :=
            if api1.connected_ then
              let calls2 := calls1 ++
                [SinkCall.send api1.apiData_.port api1.apiData_.destinationId timeStamp chunk]
              if host.send start ≠ 0 then
                match api1.report ErrorType.WARNING
                    "MidiOutCore::sendMessage: error sending MIDI message to port." with
                | .error e => .error e
                | .ok (api2, out2) => .ok (api2, calls2, out1 ++ out2)
              else .ok (api1, calls2, out1)
            else .ok (api1, calls1, out1)
          match r2 with
          | .error e => .error e
          | .ok (api2, calls2, out2) =>
            MidiOutCore.sendLoop host message nBytes timeStamp fuel remainingBytes1 api2 calls2 out2
    else .ok (api, calls, out)

/-- The method `MidiOutCore::sendMessage(message, size)`, `message` being
the `size` bytes at the pointer: the object after the call, the calls to
CoreMIDI and the error outputs, in order. -/
def MidiOutCore.sendMessage (fuel : Nat) (host : OutHost) (api : MidiOutCore)
    (message : List Nat) : Except Failure (MidiOutCore × List SinkCall × List Output) :=
  let size := message.length
  -- unsigned int nBytes = static_cast<unsigned int>(size);
  let nBytes := size % UINT
  if nBytes = 0 then
    match api.report ErrorType.WARNING
        "MidiOutCore::sendMessage: no data in message argument!" with
    | .error e => .error e
    | .ok (api1, out1) => .ok (api1, [], out1)
  else
    match message[0]? with
    | none => .error .outOfBounds
    | some first =>
      if first ≠ 0xF0 ∧ nBytes > 3 then
        match api.report ErrorType.WARNING
            "MidiOutCore::sendMessage: message format problem ... not sysex but > 3 bytes?" with
        | .error e => .error e
        | .ok (api1, out1) => .ok (api1, [], out1)
      else
        let timeStamp := host.now
        MidiOutCore.sendLoop host message nBytes timeStamp fuel nBytes api [] []

/-- A host on which every CoreMIDI call succeeds. -/
def OutHost.ok (now : Nat) : OutHost :=
  { now := now, packetListAdd := fun _ => true, received := fun _ => 0, send := fun _ => 0 }

/-- The host `host` with every `MIDIReceived` and `MIDISend` succeeding. -/
def OutHost.succeeding (host : OutHost) : OutHost :=
  { host with received := fun _ => 0, send := fun _ => 0 }

/-! ## Vocabulary of the statements about `sendMessage` -/

/-- The consecutive chunks of at most 65535 bytes of `rest`, each with the
offset at which it starts, `start` being the offset of `rest`; `k` bounds
the number of chunks. -/
def chunksFrom : Nat → Nat → List Nat → List (Nat × List Nat)
  | 0, _, _ => []
  | k + 1, start, rest =>
    if rest = [] then []
    else (start, rest.take 65535) ::
      chunksFrom k (start + (rest.take 65535).length) (rest.drop 65535)

/-- The consecutive chunks of at most 65535 bytes of a message. -/
def chunks (message : List Nat) : List (List Nat) :=
  (chunksFrom message.length 0 message).map Prod.snd

/-- The calls to CoreMIDI that forward one chunk to every configured
destination: the virtual endpoint if there is one, then the connected port
if there is one. -/
def transmits (api : MidiOutCore) (timeStamp : Nat) (chunk : List Nat) : List SinkCall :=
  (if api.apiData_.endpoint ≠ 0 then
    [SinkCall.received api.apiData_.endpoint timeStamp chunk] else []) ++
  (if api.connected_ then
    [SinkCall.send api.apiData_.port api.apiData_.destinationId timeStamp chunk] else [])

/-- The output of a warning with the given text: handed to the registered
handler, dropped when the guard is set, written to `cerr` without handler. -/
def warningOutput (api : MidiOutCore) (text : String) : List Output :=
  if api.errorCallback_ ≠ 0 then
    if api.firstErrorOccurred_ then []
    else [Output.errorCallback api.errorCallback_ ErrorType.WARNING text
            api.errorCallbackUserData_]
  else [Output.cerr ("\n" ++ text ++ "\n\n")]

/-- The warnings for the transmissions of the chunk at offset `start` that
CoreMIDI reports as failed. -/
def failureReports (host : OutHost) (api : MidiOutCore) (start : Nat) : List Output :=
  (if api.apiData_.endpoint ≠ 0 ∧ host.received start ≠ 0 then
    warningOutput api "MidiOutCore::sendMessage: error sending MIDI to virtual destinations."
   else []) ++
  (if api.connected_ = true ∧ host.send start ≠ 0 then
    warningOutput api "MidiOutCore::sendMessage: error sending MIDI message to port."
   else [])

/-! ## One iteration of the scan loop -/

/-- One evaluation of the condition of the loop `while (iByte < nBytes)` of
`midiInputCallback` and, if it holds, of the loop body: `none` when the loop
is left (the condition is false, or the `break` at a byte whose high bit is
clear), otherwise the variables after the body. -/
def scanStep (packet : MIDIPacket) (nBytes : Nat) (s : Scan) : Except Failure (Option Scan) :=
  if s.iByte < nBytes then
    -- We are expecting that the next byte in the packet is a status byte.
    match packet.data[s.iByte]? with
    | none => .error .outOfBounds
    | some status =>
      if status &&& 0x80 = 0 then .ok none
      else
        match classify packet nBytes s.iByte s.data.ignoreFlags s.data.continueSysex status with
        | .error e => .error e
        | .ok (size, iByte, continueSysex) =>
          let data1 := { s.data with continueSysex := continueSysex }
          -- Copy the MIDI data to our vector.
          if size ≠ 0 then
            if iByte + size ≤ packet.data.length then
              let data2 := { data1 with message :=
                { data1.message with bytes := (packet.data.drop iByte).take size } }
              let r := if !data2.continueSysex then deliver data2 s.calls else (data2, s.calls)
              .ok (some { iByte := (iByte + size) % USHORT, data := r.1,
                          foundNonFiltered := true, calls := r.2 })
            else .error .outOfBounds
          else
            .ok (some { s with iByte := iByte, data := data1 })
  else .ok none

/-! ## Vocabulary of the statements about whole packets -/

/-- The message table of the parser's specification with the ignore mask
applied: the length given to the message that starts with `status`, where
`remainder` is the number of bytes from that status byte to the end of the
packet and 0 stands for a filtered message. -/
def specLength (ignoreFlags status remainder : Nat) : Nat :=
  if 0x80 ≤ status ∧ status ≤ 0xBF then 3
  else if 0xC0 ≤ status ∧ status ≤ 0xDF then 2
  else if 0xE0 ≤ status ∧ status ≤ 0xEF then 3
  else if status = 0xF0 then (if ignoreFlags &&& 0x01 ≠ 0 then 0 else remainder)
  else if status = 0xF1 then (if ignoreFlags &&& 0x02 ≠ 0 then 0 else 2)
  else if status = 0xF2 then 3
  else if status = 0xF3 then 2
  else if status = 0xF8 then (if ignoreFlags &&& 0x02 ≠ 0 then 0 else 1)
  else if status = 0xFE then (if ignoreFlags &&& 0x04 ≠ 0 then 0 else 1)
  else 1

/-- A complete non-sysex message, filtered or not: a status byte other than
0xF0 followed by as many bytes as its type takes. -/
def plainMessage (m : List Nat) : Bool :=
  match m with
  | [] => false
  | status :: _ =>
    decide (0x80 ≤ status ∧ status ≤ 0xFF ∧ status ≠ 0xF0 ∧ m.length = statusLength status)

/-- Whether the ignore mask lets the message `m` through, judged by its
first byte. -/
def passes (ignoreFlags : Nat) (m : List Nat) : Bool :=
  !filtered ignoreFlags (m.headD 0)

/-- The invocations of the callback of `data` for the messages `ms`, in
order; none when no callback is in use. -/
def emitted (data : MacMidiInData) (ms : List (List Nat)) : List CallbackCall :=
  if data.usingCallback then
    ms.map (fun m => { callback := data.userCallback, timeStamp := data.message.timeStamp,
                       bytes := m, userData := data.userData })
  else []

/-- What may follow the complete non-sysex messages of a packet: nothing, a
byte whose high bit is clear with whatever comes after it, or the start of
a sysex, which takes the rest of the packet. -/
def packetTail (tail : List Nat) : Bool :=
  match tail with
  | [] => true
  | b :: _ => decide (b < 0x80 ∨ b = 0xF0)

/-- The tail of the packet starts a sysex that the mask does not ignore. -/
def sysexFound (ignoreFlags : Nat) (tail : List Nat) : Bool :=
  decide (tail.head? = some 0xF0 ∧ ignoreFlags &&& 0x01 = 0)

/-- The tail of the packet starts a sysex and its last byte is 0xF7. -/
def sysexDone (tail : List Nat) : Bool :=
  decide (tail.head? = some 0xF0 ∧ tail.getLast? = some 0xF7)

/-- The tail of the packet starts a sysex and its last byte is not 0xF7. -/
def sysexOpen (tail : List Nat) : Bool :=
  decide (tail.head? = some 0xF0 ∧ tail.getLast? ≠ some 0xF7)

/-- The messages of the packet `P.flatten ++ tail` that reach the callback
under the mask `ignoreFlags`: the messages of `P` the mask lets through,
then the tail if it is a whole sysex that is not ignored. -/
def passing (ignoreFlags : Nat) (P : List (List Nat)) (tail : List Nat) : List (List Nat) :=
  P.filter (passes ignoreFlags) ++
    (if sysexFound ignoreFlags tail && sysexDone tail then [tail] else [])

/-- The tick value the parser stores for a packet: its time stamp, or the
host clock when that is 0. -/
def packetTick (host : Host) (timeStamp : Nat) : Nat :=
  if timeStamp = 0 then host.now else timeStamp

/-! ## The C wrapper `macmidi_in_get_message` -/

/-- The struct `MacMidiWrapper` of an input device: the `MidiInApi` of the
`MacMidiIn` object behind `ptr`, the flag `ok` and the text `msg` (the
field `data` is not used by the functions modelled here). -/
structure MacMidiWrapper where
  ptr : MidiInApi
  ok : Bool
  msg : String
  deriving DecidableEq, Repr

/-- First value above the range of a non-negative `int`. -/
def INT_LIMIT : Nat := 2147483648

/-- The byte count `memcpy` receives for `(int)n`: the value is cut to 32
bits, read as a signed `int` and converted to `size_t`. -/
def intToSizeT (n : Nat) : Nat :=
  if n % UINT < INT_LIMIT then n % UINT else ULLONG - (UINT - n % UINT)

/-- The call `memcpy(dest, src, count)`: the first `count` bytes of `dest`
are replaced by those of `src`; reading or writing past either array is a
fault. -/
def memcpy (dest src : List Nat) (count : Nat) : Except Failure (List Nat) :=
  if count ≤ src.length ∧ count ≤ dest.length then .ok (src.take count ++ dest.drop count)
  else .error .outOfBounds

/-- What `macmidi_in_get_message` leaves behind: the returned value (the
time stamp, or -1 from the `catch` blocks), the buffer `message`, `*size`,
the device and the outputs. -/
structure GetMessageResult where
  ret : Int
  message : List Nat
  size : Nat
  device : MacMidiWrapper
  outputs : List Output
  deriving DecidableEq, Repr

/-- The function `macmidi_in_get_message(device, message, size)`, where
`message` is the caller's buffer and `size` the value of `*size` at the
call. An exception thrown by `getMessage` is caught: it clears `ok`,
stores its text in `msg` and makes the function return -1. -/
def macmidi_in_get_message (device : MacMidiWrapper) (message : List Nat) (size : Nat) :
    Except Failure GetMessageResult :=
  match device.ptr.getMessage with
  | .error (Failure.thrown _ text) =>
    .ok { ret := -1, message := message, size := size,
          device := { device with ok := false, msg := text }, outputs := [] }
  | .error e => .error e
  | .ok (ret, v, api1, out) =>
    let device1 := { device with ptr := api1 }
    if 0 < v.length ∧ v.length ≤ size then
      match memcpy message v (intToSizeT v.length) with
      | .error e => .error e
      | .ok message1 =>
        .ok { ret := ret, message := message1, size := v.length, device := device1, outputs := out }
    else
      .ok { ret := ret, message := message, size := v.length, device := device1, outputs := out }

/-! ## Machine arithmetic: facts -/

/-- The wrapping subtraction is subtraction modulo `m`. -/
theorem wrapSub_eq (m a b : Nat) (ha : a < m) (hb : b < m) :
    wrapSub m a b = (a + m - b) % m := by
  unfold wrapSub
  split_ifs with h
  · have e : a + m - b = (a - b) + m := by omega
    rw [e, Nat.add_mod_right, Nat.mod_eq_of_lt (by omega)]
  · rw [Nat.mod_eq_of_lt (by omega)]
    omega

/-- No wrap-around when the subtrahend is the smaller value. -/
theorem wrapSub_of_le (m a b : Nat) (h : b ≤ a) : wrapSub m a b = a - b := by
  simp [wrapSub, h]

/-! ## Ring queue: basic facts -/

/-- A push into a queue that is not full stores at `back` and advances `back`. -/
theorem MidiQueue.push_of_lt (f b C : Nat) (ring : List MidiMessage) (msg : MidiMessage)
    (hU : C < UINT) (hlen : ring.length = C) (hb : b < C)
    (h : (MidiQueue.mk f b C ring).size < C - 1) :
    (MidiQueue.mk f b C ring).push msg =
      .ok (true, MidiQueue.mk f ((b + 1) % C) C (ring.set b msg)) := by
  have h1 : wrapSub UINT C 1 = C - 1 := wrapSub_of_le _ _ _ (by omega)
  have h2 : (b + 1) % UINT = b + 1 := by unfold UINT at *; omega
  have h3 : C ≠ 0 := by omega
  simp only [MidiQueue.push, h1, h, if_true, hlen, hb, h2, h3, if_false]

/-- A push into a full queue returns false and changes nothing. -/
theorem MidiQueue.push_of_ge (q : MidiQueue) (msg : MidiMessage)
    (hC : 1 ≤ q.ringSize) (h : q.ringSize - 1 ≤ q.size) :
    q.push msg = .ok (false, q) := by
  have h1 : wrapSub UINT q.ringSize 1 = q.ringSize - 1 := wrapSub_of_le _ _ _ hC
  have h2 : ¬ q.size < q.ringSize - 1 := by omega
  simp only [MidiQueue.push, h1, h2, if_false]

/-- A successful push makes `size` grow by one. -/
theorem MidiQueue.size_push (f b C : Nat) (ring ring1 : List MidiMessage)
    (hU : C < UINT) (hf : f < C) (hb : b < C)
    (h : (MidiQueue.mk f b C ring).size < C - 1) :
    (MidiQueue.mk f ((b + 1) % C) C ring1).size = (MidiQueue.mk f b C ring).size + 1 := by
  have hw : wrapSub UINT C f = C - f := wrapSub_of_le _ _ _ (by omega)
  simp only [MidiQueue.size, hw] at h ⊢
  rcases Nat.lt_or_ge (b + 1) C with h1 | h1
  · rw [Nat.mod_eq_of_lt h1]
    unfold UINT at *
    split_ifs at h ⊢ <;> omega
  · have h2 : b + 1 = C := by omega
    rw [h2, Nat.mod_self]
    unfold UINT at *
    split_ifs at h ⊢ <;> omega

/-- C8: for a queue of capacity C >= 1 with front, back < C, push returns
true iff size() < C - 1; on true the message is stored at the old back
slot, size() grows by exactly one and front is unchanged; on false the
queue (front, back and every slot) is unchanged. -/
theorem MidiQueue.push_contract (q : MidiQueue) (msg : MidiMessage)
    (hC : 1 ≤ q.ringSize) (hU : q.ringSize < UINT) (hlen : q.ring.length = q.ringSize)
    (hf : q.front < q.ringSize) (hb : q.back < q.ringSize) :
    ∃ r q1, q.push msg = .ok (r, q1) ∧
      (r = true ↔ q.size < q.ringSize - 1) ∧
      (r = true → q1.ring = q.ring.set q.back msg ∧ q1.ring[q.back]? = some msg ∧
        q1.size = q.size + 1 ∧ q1.front = q.front ∧ q1.ringSize = q.ringSize) ∧
      (r = false → q1 = q) := by
  obtain ⟨f, b, C, ring⟩ := q
  simp only at hC hU hlen hf hb
  by_cases h : (MidiQueue.mk f b C ring).size < C - 1
  · refine ⟨true, _, MidiQueue.push_of_lt f b C ring msg hU hlen hb h, ?_, ?_, ?_⟩
    · simp [h]
    · intro _
      refine ⟨rfl, ?_, MidiQueue.size_push f b C ring _ hU hf hb h, rfl, rfl⟩
      have hb1 : b < ring.length := by omega
      simp [List.getElem?_set, hb1]
    · intro hr; cases hr
  · refine ⟨false, _, MidiQueue.push_of_ge _ msg hC (by simpa using h), ?_, ?_, ?_⟩
    · simp [h]
    · intro hr; cases hr
    · intro _; rfl

/-- Witness for C8: a queue of capacity 3 holding one message. -/
theorem MidiQueue.push_contract_witness :
    ∃ r q1, (MidiQueue.mk 1 2 3 [⟨[], 0⟩, ⟨[0x90, 0x40, 0x7F], 0⟩, ⟨[], 0⟩]).push ⟨[0x80, 0x40, 0], 7⟩
        = .ok (r, q1) ∧
      (r = true ↔ (MidiQueue.mk 1 2 3 [⟨[], 0⟩, ⟨[0x90, 0x40, 0x7F], 0⟩, ⟨[], 0⟩]).size < 3 - 1) ∧
      (r = true →
        q1.ring = [⟨[], 0⟩, ⟨[0x90, 0x40, 0x7F], 0⟩, ⟨[0x80, 0x40, 0], 7⟩] ∧
        q1.ring[2]? = some ⟨[0x80, 0x40, 0], 7⟩ ∧
        q1.size = (MidiQueue.mk 1 2 3 [⟨[], 0⟩, ⟨[0x90, 0x40, 0x7F], 0⟩, ⟨[], 0⟩]).size + 1 ∧
        q1.front = 1 ∧ q1.ringSize = 3) ∧
      (r = false → q1 = MidiQueue.mk 1 2 3 [⟨[], 0⟩, ⟨[0x90, 0x40, 0x7F], 0⟩, ⟨[], 0⟩]) :=
  MidiQueue.push_contract (MidiQueue.mk 1 2 3 [⟨[], 0⟩, ⟨[0x90, 0x40, 0x7F], 0⟩, ⟨[], 0⟩])
    ⟨[0x80, 0x40, 0], 7⟩ (by decide) (by decide) (by decide) (by decide) (by decide)

/-- C7 (evaluation of the code): on the queue the constructor builds for
capacity 0 the test `_size < ringSize - 1` of push compares 0 with the
wrapped value 4294967295 and succeeds, so push does not return false: it
goes on to store through the null ring. -/
theorem MidiQueue.push_capacity_zero (msg : MidiMessage) :
    (MidiQueue.alloc 0).size < wrapSub UINT (MidiQueue.alloc 0).ringSize 1 ∧
    wrapSub UINT (MidiQueue.alloc 0).ringSize 1 = 4294967295 ∧
    (MidiQueue.alloc 0).ring = [] ∧
    (MidiQueue.alloc 0).push msg = .error .outOfBounds ∧
    (MidiQueue.alloc 0).push msg ≠ .ok (false, MidiQueue.alloc 0) := by
  refine ⟨by decide, by decide, rfl, rfl, ?_⟩
  intro h
  have h1 : (MidiQueue.alloc 0).push msg = .error .outOfBounds := rfl
  rw [h1] at h
  cases h

/-! ## Ring queue: filling and draining -/

/-- Unfolding of `pushAll` on the empty list. -/
theorem MidiQueue.pushAll_nil (q : MidiQueue) : q.pushAll [] = .ok ([], q) := rfl

/-- Unfolding of `pushAll` on a non-empty list. -/
theorem MidiQueue.pushAll_cons (q : MidiQueue) (m : MidiMessage) (ms : List MidiMessage) :
    q.pushAll (m :: ms) =
      match q.push m with
      | .error e => .error e
      | .ok (b, q1) =>
        match MidiQueue.pushAll q1 ms with
        | .error e => .error e
        | .ok (bs, q2) => .ok (b :: bs, q2) := rfl

/-- Unfolding of `popN` at zero. -/
theorem MidiQueue.popN_zero (q : MidiQueue) : q.popN 0 = .ok ([], q) := rfl

/-- Unfolding of `popN` at a successor. -/
theorem MidiQueue.popN_succ (q : MidiQueue) (n : Nat) :
    q.popN (n + 1) =
      match q.pop with
      | .error e => .error e
      | .ok (r, q1) =>
        match MidiQueue.popN q1 n with
        | .error e => .error e
        | .ok (rs, q2) => .ok (r :: rs, q2) := rfl

/-- Writing slot `k` extends the first `k` slots by the written message. -/
theorem take_succ_set {α : Type} (l : List α) (k : Nat) (a : α) (hk : k < l.length) :
    (l.set k a).take (k + 1) = l.take k ++ [a] := by
  induction l generalizing k with
  | nil => simp at hk
  | cons x xs ih =>
    cases k with
    | zero => simp
    | succ n =>
      have hn : n < xs.length := by simpa using hk
      simp [ih n hn]

/-- Pushing into a queue with `front = 0` and `k` stored messages: the
first `C - 1 - k` pushes succeed, the others fail, and the stored messages
are extended in order. -/
theorem MidiQueue.pushAll_from (C : Nat) (hC : 1 ≤ C) (hU : C < UINT) (ms : List MidiMessage) :
    ∀ (k : Nat) (ring : List MidiMessage), ring.length = C → k ≤ C - 1 →
    ∃ ring1, (MidiQueue.mk 0 k C ring).pushAll ms =
        .ok (List.replicate (min (C - 1 - k) ms.length) true ++
              List.replicate (ms.length - (C - 1 - k)) false,
             MidiQueue.mk 0 (k + min (C - 1 - k) ms.length) C ring1) ∧
      ring1.length = C ∧
      ring1.take (k + min (C - 1 - k) ms.length) = ring.take k ++ ms.take (C - 1 - k) := by
  induction ms with
  | nil =>
    intro k ring hlen hk
    exact ⟨ring, by simp [MidiQueue.pushAll_nil], hlen, by simp⟩
  | cons m ms ih =>
    intro k ring hlen hk
    have hsize : (MidiQueue.mk 0 k C ring).size = k := by simp [MidiQueue.size]
    rcases Nat.lt_or_ge k (C - 1) with h | h
    · have hpush := MidiQueue.push_of_lt 0 k C ring m hU hlen (by omega) (by rw [hsize]; exact h)
      have hmod : (k + 1) % C = k + 1 := Nat.mod_eq_of_lt (by omega)
      rw [hmod] at hpush
      obtain ⟨ring1, h1, h2, h3⟩ := ih (k + 1) (ring.set k m) (by simpa using hlen) (by omega)
      refine ⟨ring1, ?_, h2, ?_⟩
      · simp only [MidiQueue.pushAll_cons, hpush, h1]
        have e1 : min (C - 1 - k) (m :: ms).length = min (C - 1 - (k + 1)) ms.length + 1 := by
          simp only [List.length_cons]; omega
        have e2 : (m :: ms).length - (C - 1 - k) = ms.length - (C - 1 - (k + 1)) := by
          simp only [List.length_cons]; omega
        rw [e1, e2, List.replicate_succ]
        have e3 : k + (min (C - 1 - (k + 1)) ms.length + 1)
            = k + 1 + min (C - 1 - (k + 1)) ms.length := by omega
        rw [e3]
        rfl
      · have e1 : k + min (C - 1 - k) (m :: ms).length
            = k + 1 + min (C - 1 - (k + 1)) ms.length := by
          simp only [List.length_cons]; omega
        have e2 : C - 1 - k = (C - 1 - (k + 1)) + 1 := by omega
        rw [e1, h3, take_succ_set ring k m (by omega), e2, List.take_succ_cons]
        simp
    · have hk1 : k = C - 1 := by omega
      have hpush : (MidiQueue.mk 0 k C ring).push m = .ok (false, MidiQueue.mk 0 k C ring) :=
        MidiQueue.push_of_ge _ m hC (by rw [hsize]; exact h)
      obtain ⟨ring1, h1, h2, h3⟩ := ih k ring hlen hk
      refine ⟨ring1, ?_, h2, ?_⟩
      · simp only [MidiQueue.pushAll_cons, hpush, h1]
        have e0 : C - 1 - k = 0 := by omega
        simp [e0, List.replicate_succ]
      · have e0 : C - 1 - k = 0 := by omega
        rw [e0] at h3 ⊢
        simpa using h3

/-- Popping `n` times from a queue holding at least `n` messages in the
slots `f .. b - 1` returns those slots in order. -/
theorem MidiQueue.popN_from (C b : Nat) (hU : C < UINT) (hb : b < C) (ring : List MidiMessage)
    (hlen : ring.length = C) (n : Nat) :
    ∀ f : Nat, f + n ≤ b →
    (MidiQueue.mk f b C ring).popN n =
      .ok (((ring.drop f).take n).map some, MidiQueue.mk (f + n) b C ring) := by
  induction n with
  | zero => intro f _; simp [MidiQueue.popN_zero]
  | succ n ih =>
    intro f hf
    have hfl : f < ring.length := by omega
    have hsize : (MidiQueue.mk f b C ring).size ≠ 0 := by
      simp only [MidiQueue.size]; split_ifs <;> omega
    have hmod : ((f + 1) % UINT) % C = f + 1 := by
      have : (f + 1) % UINT = f + 1 := by unfold UINT at *; omega
      rw [this]; exact Nat.mod_eq_of_lt (by omega)
    have hC0 : C ≠ 0 := by omega
    have hpop : (MidiQueue.mk f b C ring).pop = .ok (some ring[f], MidiQueue.mk (f + 1) b C ring) := by
      simp only [MidiQueue.pop, hsize, if_false, List.getElem?_eq_getElem hfl, hC0, hmod]
    have hrec := ih (f + 1) (by omega)
    simp only [MidiQueue.popN_succ, hpop, hrec]
    have e1 : f + 1 + n = f + (n + 1) := by omega
    rw [e1, List.drop_eq_getElem_cons hfl, List.take_succ_cons]
    simp

/-- C1: pushing n >= C messages one by one into the empty queue of
capacity C >= 1 returns true for exactly the first C - 1 pushes and false
for all later ones; C - 1 pops then return exactly those first C - 1
messages (bytes and time stamp) in push order, and the next pop returns
false. -/
theorem MidiQueue.fill_then_drain (C : Nat) (hC : 1 ≤ C) (hU : C < UINT)
    (ms : List MidiMessage) (hn : C ≤ ms.length) :
    ∃ q1 q2, (MidiQueue.alloc C).pushAll ms =
        .ok (List.replicate (C - 1) true ++ List.replicate (ms.length - (C - 1)) false, q1) ∧
      q1.popN (C - 1) = .ok ((ms.take (C - 1)).map some, q2) ∧
      q2.pop = .ok (none, q2) := by
  have halloc : MidiQueue.alloc C = MidiQueue.mk 0 0 C (List.replicate C MidiMessage.new) := by
    have : C > 0 := hC
    simp [MidiQueue.alloc, MidiQueue.new, this]
  obtain ⟨ring1, h1, h2, h3⟩ :=
    MidiQueue.pushAll_from C hC hU ms 0 (List.replicate C MidiMessage.new) (by simp) (by omega)
  have hmin : min (C - 1) ms.length = C - 1 := by omega
  simp only [Nat.sub_zero, Nat.zero_add, List.take_zero, List.nil_append, hmin] at h1 h3
  have hpop := MidiQueue.popN_from C (C - 1) hU (by omega) ring1 h2 (C - 1) 0 (by omega)
  simp only [List.drop_zero, Nat.zero_add, h3] at hpop
  refine ⟨_, _, ?_, hpop, ?_⟩
  · rw [halloc]; exact h1
  · simp [MidiQueue.pop, MidiQueue.size]

/-- Witness for C1: capacity 3 and four messages. -/
theorem MidiQueue.fill_then_drain_witness :
    ∃ q1 q2, (MidiQueue.alloc 3).pushAll [⟨[0x90, 0x40, 0x7F], 0⟩, ⟨[0x80, 0x40, 0], 5⟩,
          ⟨[0xC0, 1], 6⟩, ⟨[0xF8], 7⟩] =
        .ok (List.replicate (3 - 1) true ++ List.replicate (4 - (3 - 1)) false, q1) ∧
      q1.popN (3 - 1) = .ok ([some ⟨[0x90, 0x40, 0x7F], 0⟩, some ⟨[0x80, 0x40, 0], 5⟩], q2) ∧
      q2.pop = .ok (none, q2) :=
  MidiQueue.fill_then_drain 3 (by decide) (by decide)
    [⟨[0x90, 0x40, 0x7F], 0⟩, ⟨[0x80, 0x40, 0], 5⟩, ⟨[0xC0, 1], 6⟩, ⟨[0xF8], 7⟩] (by decide)

/-! ## Dispatch operations -/

/-- A warning never raises and never touches the input data: it is dropped
(re-entrant call), handed to the error handler, or written to `cerr`. -/
theorem MidiInApi.error_warning (api : MidiInApi) (text : String) :
    ∃ api1 out, api.error ErrorType.WARNING text = .ok (api1, out) ∧
      api1.inputData_ = api.inputData_ ∧
      (out = [] ∨ out = [Output.cerr ("\n" ++ text ++ "\n\n")] ∨
        out = [Output.errorCallback api.errorCallback_ ErrorType.WARNING text
                api.errorCallbackUserData_]) := by
  unfold MidiInApi.error
  by_cases h1 : api.errorCallback_ ≠ 0
  · by_cases h2 : api.firstErrorOccurred_ = true
    · exact ⟨api, [], by rw [if_pos h1, if_pos h2], rfl, Or.inl rfl⟩
    · exact ⟨{ api with firstErrorOccurred_ := false }, _, by rw [if_pos h1, if_neg h2], rfl,
        Or.inr (Or.inr rfl)⟩
  · exact ⟨api, _, by rw [if_neg h1, if_pos rfl], rfl, Or.inr (Or.inl rfl)⟩

/-- With no callback in use and a non-null handler, setCallback stores the
handler and its user data and switches to callback use. -/
theorem MidiInApi.setCallback_of_free (api : MidiInApi) (callback userData : Nat)
    (h1 : api.inputData_.usingCallback = false) (h2 : callback ≠ 0) :
    api.setCallback callback userData =
      .ok ({ api with inputData_ := { api.inputData_ with
              userCallback := callback, userData := userData, usingCallback := true } }, []) := by
  simp [MidiInApi.setCallback, h1, h2]

/-- C9: setCallback changes the dispatch state iff no callback is set and
the handler is non-null, and then the state is Callback(handler, userData);
in every other case it only reports a warning and usingCallback, the stored
handler and the stored userData (indeed all input data) are unchanged, so a
second setCallback leaves the first callback active. -/
theorem MidiInApi.setCallback_contract (api : MidiInApi) (callback userData : Nat) :
    (api.inputData_.usingCallback = false ∧ callback ≠ 0 →
      api.setCallback callback userData =
        .ok ({ api with inputData_ := { api.inputData_ with
                userCallback := callback, userData := userData, usingCallback := true } }, [])) ∧
    (¬ (api.inputData_.usingCallback = false ∧ callback ≠ 0) →
      ∃ text api1 out,
        api.setCallback callback userData
          = ({ api with errorString_ := text }).error ErrorType.WARNING text ∧
        api.setCallback callback userData = .ok (api1, out) ∧
        api1.inputData_ = api.inputData_ ∧
        (out = [] ∨ out = [Output.cerr ("\n" ++ text ++ "\n\n")] ∨
          out = [Output.errorCallback api.errorCallback_ ErrorType.WARNING text
                  api.errorCallbackUserData_])) ∧
    (∀ api1 out, api.setCallback callback userData = .ok (api1, out) →
      ((api1.inputData_.usingCallback, api1.inputData_.userCallback, api1.inputData_.userData)
          ≠ (api.inputData_.usingCallback, api.inputData_.userCallback, api.inputData_.userData)
        ↔ (api.inputData_.usingCallback = false ∧ callback ≠ 0))) ∧
    (api.inputData_.usingCallback = false ∧ callback ≠ 0 →
      ∀ callback2 userData2 : Nat, ∃ api1 api2 out,
        api.setCallback callback userData = .ok (api1, []) ∧
        api1.setCallback callback2 userData2 = .ok (api2, out) ∧
        api2.inputData_.usingCallback = true ∧
        api2.inputData_.userCallback = callback ∧
        api2.inputData_.userData = userData) := by
  have hok : api.inputData_.usingCallback = false ∧ callback ≠ 0 →
      api.setCallback callback userData =
        .ok ({ api with inputData_ := { api.inputData_ with
                userCallback := callback, userData := userData, usingCallback := true } }, []) := by
    rintro ⟨h1, h2⟩
    exact MidiInApi.setCallback_of_free api callback userData h1 h2
  have hbad : ∀ (a : MidiInApi) (cb ud : Nat), ¬ (a.inputData_.usingCallback = false ∧ cb ≠ 0) →
      ∃ text api1 out,
        a.setCallback cb ud = ({ a with errorString_ := text }).error ErrorType.WARNING text ∧
        a.setCallback cb ud = .ok (api1, out) ∧
        api1.inputData_ = a.inputData_ ∧
        (out = [] ∨ out = [Output.cerr ("\n" ++ text ++ "\n\n")] ∨
          out = [Output.errorCallback a.errorCallback_ ErrorType.WARNING text
                  a.errorCallbackUserData_]) := by
    intro a cb ud h
    by_cases h1 : a.inputData_.usingCallback = true
    · obtain ⟨api1, out, e1, e2, e3⟩ := MidiInApi.error_warning
        { a with errorString_ := "MidiInApi::setCallback: a callback function is already set!" }
        "MidiInApi::setCallback: a callback function is already set!"
      have e0 : a.setCallback cb ud = MidiInApi.error
          { a with errorString_ := "MidiInApi::setCallback: a callback function is already set!" }
          ErrorType.WARNING "MidiInApi::setCallback: a callback function is already set!" := by
        simp only [MidiInApi.setCallback, h1, if_true]
      exact ⟨_, api1, out, e0, e0.trans e1, e2, e3⟩
    · have h2 : cb = 0 := by
        by_contra hc
        exact h ⟨by simpa using h1, hc⟩
      obtain ⟨api1, out, e1, e2, e3⟩ := MidiInApi.error_warning
        { a with errorString_ := "MacMidiIn::setCallback: callback function value is invalid!" }
        "MacMidiIn::setCallback: callback function value is invalid!"
      have e0 : a.setCallback cb ud = MidiInApi.error
          { a with errorString_ := "MacMidiIn::setCallback: callback function value is invalid!" }
          ErrorType.WARNING "MacMidiIn::setCallback: callback function value is invalid!" := by
        simp only [MidiInApi.setCallback, h1, h2, if_true, if_false]
        rfl
      exact ⟨_, api1, out, e0, e0.trans e1, e2, e3⟩
  refine ⟨hok, hbad api callback userData, ?_, ?_⟩
  · intro api1 out hres
    constructor
    · intro hne
      by_contra hc
      obtain ⟨_, api2, out2, _, e1, e2, _⟩ := hbad api callback userData hc
      rw [e1] at hres
      have : api2 = api1 := congrArg Prod.fst (Except.ok.inj hres)
      rw [← this, e2] at hne
      exact hne rfl
    · intro hc
      rw [hok hc] at hres
      have : api1 = _ := (congrArg Prod.fst (Except.ok.inj hres)).symm
      rw [this, hc.1]
      simp
  · intro hc callback2 userData2
    obtain ⟨_, api2, out2, _, e1, e2, _⟩ := hbad
      { api with inputData_ := { api.inputData_ with
          userCallback := callback, userData := userData, usingCallback := true } }
      callback2 userData2 (by simp)
    exact ⟨_, api2, out2, hok hc, e1, by rw [e2], by rw [e2], by rw [e2]⟩

/-- Witness for C9: a first setCallback on a fresh stream succeeds, a second
one leaves the first handler active. -/
theorem MidiInApi.setCallback_contract_witness :
    (MidiInApi.new 100 0).setCallback 5 9 =
        .ok ({ MidiInApi.new 100 0 with inputData_ := { (MidiInApi.new 100 0).inputData_ with
                userCallback := 5, userData := 9, usingCallback := true } }, []) ∧
    ∃ api1 api2 out,
      (MidiInApi.new 100 0).setCallback 5 9 = .ok (api1, []) ∧
      api1.setCallback 6 7 = .ok (api2, out) ∧
      api2.inputData_.usingCallback = true ∧
      api2.inputData_.userCallback = 5 ∧
      api2.inputData_.userData = 9 :=
  ⟨(MidiInApi.setCallback_contract (MidiInApi.new 100 0) 5 9).1 ⟨rfl, by decide⟩,
   (MidiInApi.setCallback_contract (MidiInApi.new 100 0) 5 9).2.2.2 ⟨rfl, by decide⟩ 6 7⟩

/-- C10: cancelCallback with no callback set reports a warning and leaves
the dispatch state (indeed all input data) unchanged; with a callback set
it returns the dispatch state to None (usingCallback false, handler and
userData cleared); so setCallback followed by cancelCallback restores the
initial dispatch state and leaves the queue, the ignore mask and the
parser state untouched. -/
theorem MidiInApi.cancelCallback_contract (api : MidiInApi) :
    (api.inputData_.usingCallback = false →
      ∃ text api1 out,
        api.cancelCallback = ({ api with errorString_ := text }).error ErrorType.WARNING text ∧
        api.cancelCallback = .ok (api1, out) ∧
        api1.inputData_ = api.inputData_ ∧
        (out = [] ∨ out = [Output.cerr ("\n" ++ text ++ "\n\n")] ∨
          out = [Output.errorCallback api.errorCallback_ ErrorType.WARNING text
                  api.errorCallbackUserData_])) ∧
    (api.inputData_.usingCallback = true →
      api.cancelCallback =
        .ok ({ api with inputData_ := { api.inputData_ with
                userCallback := 0, userData := 0, usingCallback := false } }, [])) ∧
    (api.inputData_.usingCallback = false →
      ∀ callback userData : Nat, callback ≠ 0 →
      ∃ api1 api2,
        api.setCallback callback userData = .ok (api1, []) ∧
        api1.cancelCallback = .ok (api2, []) ∧
        api2.inputData_.usingCallback = (MacMidiInData.new 0 0).usingCallback ∧
        api2.inputData_.userCallback = (MacMidiInData.new 0 0).userCallback ∧
        api2.inputData_.userData = (MacMidiInData.new 0 0).userData ∧
        api2.inputData_.queue = api.inputData_.queue ∧
        api2.inputData_.ignoreFlags = api.inputData_.ignoreFlags ∧
        api2.inputData_.message = api.inputData_.message ∧
        api2.inputData_.continueSysex = api.inputData_.continueSysex ∧
        api2.inputData_.firstMessage = api.inputData_.firstMessage ∧
        api2.inputData_.apiData = api.inputData_.apiData ∧
        api2 = { api with inputData_ := { api.inputData_ with
                  userCallback := 0, userData := 0, usingCallback := false } }) := by
  have hset : ∀ a : MidiInApi, a.inputData_.usingCallback = true →
      a.cancelCallback = .ok ({ a with inputData_ := { a.inputData_ with
                userCallback := 0, userData := 0, usingCallback := false } }, []) := by
    intro a h
    simp [MidiInApi.cancelCallback, h]
  refine ⟨?_, hset api, ?_⟩
  · intro h
    obtain ⟨api1, out, e1, e2, e3⟩ := MidiInApi.error_warning
      { api with errorString_ := "MacMidiIn::cancelCallback: no callback function was set!" }
      "MacMidiIn::cancelCallback: no callback function was set!"
    have e0 : api.cancelCallback = MidiInApi.error
        { api with errorString_ := "MacMidiIn::cancelCallback: no callback function was set!" }
        ErrorType.WARNING "MacMidiIn::cancelCallback: no callback function was set!" := by
      simp only [MidiInApi.cancelCallback, h]
      rfl
    exact ⟨_, api1, out, e0, e0.trans e1, e2, e3⟩
  · intro h callback userData hcb
    have h1 := MidiInApi.setCallback_of_free api callback userData h hcb
    refine ⟨_, _, h1, hset _ rfl, rfl, rfl, rfl, rfl, rfl, rfl, rfl, rfl, rfl, rfl⟩

/-- Witness for C10: on a fresh stream the first cancelCallback only warns,
and setCallback followed by cancelCallback gives back the fresh stream. -/
theorem MidiInApi.cancelCallback_contract_witness :
    (∃ text api1 out,
        (MidiInApi.new 100 0).cancelCallback
          = ({ MidiInApi.new 100 0 with errorString_ := text }).error ErrorType.WARNING text ∧
        (MidiInApi.new 100 0).cancelCallback = .ok (api1, out) ∧
        api1.inputData_ = (MidiInApi.new 100 0).inputData_ ∧
        (out = [] ∨ out = [Output.cerr ("\n" ++ text ++ "\n\n")] ∨
          out = [Output.errorCallback 0 ErrorType.WARNING text 0])) ∧
    (({ MidiInApi.new 100 0 with inputData_ := { (MidiInApi.new 100 0).inputData_ with
          userCallback := 5, userData := 9, usingCallback := true } } : MidiInApi).cancelCallback
      = .ok (MidiInApi.new 100 0, [])) :=
  ⟨(MidiInApi.cancelCallback_contract (MidiInApi.new 100 0)).1 rfl,
   (MidiInApi.cancelCallback_contract
      { MidiInApi.new 100 0 with inputData_ := { (MidiInApi.new 100 0).inputData_ with
          userCallback := 5, userData := 9, usingCallback := true } }).2.1 rfl⟩

/-! ## Packet parser: the scan loop -/

/-- Without fuel the loop is cut off. -/
theorem scan_zero (packet : MIDIPacket) (nBytes : Nat) (s : Scan) :
    scan packet nBytes 0 s = .error .outOfFuel := rfl

/-- One evaluation of the loop condition and, if it holds, of the loop body. -/
theorem scan_succ (packet : MIDIPacket) (nBytes fuel : Nat) (s : Scan) :
    scan packet nBytes (fuel + 1) s =
    if s.iByte < nBytes then
      match packet.data[s.iByte]? with
      | none => .error .outOfBounds
      | some status =>
        if status &&& 0x80 = 0 then .ok s
        else
          match classify packet nBytes s.iByte s.data.ignoreFlags s.data.continueSysex status with
          | .error e => .error e
          | .ok (size, iByte, continueSysex) =>
            let data1 := { s.data with continueSysex := continueSysex }
            if size ≠ 0 then
              if iByte + size ≤ packet.data.length then
                let data2 := { data1 with message :=
                  { data1.message with bytes := (packet.data.drop iByte).take size } }
                let r := if !data2.continueSysex then deliver data2 s.calls else (data2, s.calls)
                scan packet nBytes fuel
                  { iByte := (iByte + size) % USHORT, data := r.1,
                    foundNonFiltered := true, calls := r.2 }
              else .error .outOfBounds
            else
              scan packet nBytes fuel { s with iByte := iByte, data := data1 }
    else .ok s := rfl

/-- The loop ends as soon as the cursor has reached the end of the packet. -/
theorem scan_done (packet : MIDIPacket) (nBytes fuel : Nat) (s : Scan) (h : nBytes ≤ s.iByte) :
    scan packet nBytes (fuel + 1) s = .ok s := by
  rw [scan_succ, if_neg (by omega)]

/-- Every status byte has its high bit set. -/
theorem status_high_bit (status : Nat) (h1 : 0x80 ≤ status) (h2 : status ≤ 0xFF) :
    status &&& 0x80 ≠ 0 := by
  interval_cases status <;> decide

/-- For a status byte that is neither sysex nor filtered the if/else chain
yields the length of the message table and leaves the cursor in place. -/
theorem classify_complete (packet : MIDIPacket) (nBytes iByte ignoreFlags : Nat) (cs : Bool)
    (status : Nat) (h1 : 0x80 ≤ status) (h2 : status ≤ 0xFF) (h3 : status ≠ 0xF0)
    (h4 : filtered ignoreFlags status = false) :
    classify packet nBytes iByte ignoreFlags cs status = .ok (statusLength status, iByte, cs) := by
  simp only [filtered, decide_eq_false_iff_not, not_or, not_and] at h4
  obtain ⟨_, h5, h6⟩ := h4
  unfold classify statusLength
  split_ifs <;> first | rfl | omega

/-- The scan of a run of complete, unfiltered, non-sysex messages with a
callback in use: one invocation per message, in order, and the cursor ends
at the end of the packet. -/
theorem scan_messages (packet : MIDIPacket) (hlen : packet.data.length < USHORT)
    (ms : List (List Nat)) :
    ∀ (pre : List Nat) (fuel : Nat) (s : Scan),
      packet.data = pre ++ ms.flatten → s.iByte = pre.length →
      (∀ m ∈ ms, completeMessage s.data.ignoreFlags m = true) →
      s.data.continueSysex = false → s.data.usingCallback = true → ms.length < fuel →
      scan packet packet.data.length fuel s = .ok
        { iByte := packet.data.length
          data := if ms = [] then s.data
                  else { s.data with message := { s.data.message with bytes := [] } }
          foundNonFiltered := s.foundNonFiltered || !ms.isEmpty
          calls := s.calls ++ ms.map (fun m =>
            { callback := s.data.userCallback, timeStamp := s.data.message.timeStamp,
              bytes := m, userData := s.data.userData }) } := by
  induction ms with
  | nil =>
    intro pre fuel s hd hi _ _ _ hf
    obtain ⟨f, rfl⟩ : ∃ f, fuel = f + 1 := ⟨fuel - 1, by simp at hf; omega⟩
    have hl : packet.data.length = s.iByte := by rw [hd, hi]; simp
    rw [scan_done packet _ f s (by omega), hl]
    simp
  | cons m rest ih =>
    intro pre fuel s hd hi hms hcs hcb hf
    obtain ⟨f, rfl⟩ : ∃ f, fuel = f + 1 := ⟨fuel - 1, by simp at hf; omega⟩
    have hm := hms m (List.mem_cons_self _ _)
    cases m with
    | nil => simp [completeMessage] at hm
    | cons status tail =>
      simp only [completeMessage, Bool.and_eq_true, decide_eq_true_eq, Bool.not_eq_true',
        List.length_cons] at hm
      obtain ⟨⟨h1, h2, h3, h4⟩, h5⟩ := hm
      have hget : packet.data[s.iByte]? = some status := by
        rw [hd, hi, List.getElem?_append_right (le_refl _)]; simp
      have hlt : s.iByte < packet.data.length := by
        rw [hd, hi]; simp
      have hfit : s.iByte + statusLength status ≤ packet.data.length := by
        rw [hd, hi, ← h4]; simp
      have hbytes : (packet.data.drop s.iByte).take (statusLength status) = status :: tail := by
        rw [hd, hi, ← h4]; simp
      have hsz : statusLength status ≠ 0 := by omega
      have hmod : (s.iByte + statusLength status) % USHORT = (pre ++ status :: tail).length := by
        rw [Nat.mod_eq_of_lt (by omega), hi, ← h4]; simp
      rw [scan_succ, if_pos hlt]
      simp only [hget, if_neg (status_high_bit status h1 h2),
        classify_complete packet _ s.iByte _ _ status h1 h2 h3 h5, hsz, ne_eq, not_false_eq_true,
        if_true, hfit, hcs, Bool.not_false, hbytes, hmod, deliver, hcb]
      refine (ih (pre ++ status :: tail) f _ ?_ ?_ ?_ ?_ ?_ ?_).trans ?_
      · rw [hd]; simp
      · rfl
      · exact fun m hm => hms m (List.mem_cons_of_mem _ hm)
      · rfl
      · rfl
      · simp only [List.length_cons] at hf; omega
      simp only [List.map_cons, List.append_assoc, List.singleton_append, Bool.true_or,
        List.isEmpty_cons, Bool.not_false, Bool.or_true, reduceCtorEq, if_false]
      congr 2
      split_ifs <;> rfl

/-! ## Packet parser: one packet and packet lists -/

/-- Unfolding of `midiInputCallback` on the empty packet list. -/
theorem midiInputCallback_nil (fuel : Nat) (host : Host) (data : MacMidiInData) :
    midiInputCallback fuel host data [] = .ok (data, []) := rfl

/-- Unfolding of `midiInputCallback` on a non-empty packet list. -/
theorem midiInputCallback_cons (fuel : Nat) (host : Host) (data : MacMidiInData)
    (packet : MIDIPacket) (rest : List MIDIPacket) :
    midiInputCallback fuel host data (packet :: rest) =
      match handlePacket fuel host data packet with
      | .error e => .error e
      | .ok (data1, calls1) =>
        match midiInputCallback fuel host data1 rest with
        | .error e => .error e
        | .ok (data2, calls2) => .ok (data2, calls1 ++ calls2) := rfl

/-- Processing a list that ends with `packet` is processing the list before
it and then `packet`. -/
theorem midiInputCallback_append_ok (fuel : Nat) (host : Host) (ps : List MIDIPacket) :
    ∀ (data data1 data2 : MacMidiInData) (calls1 calls2 : List CallbackCall) (packet : MIDIPacket),
      midiInputCallback fuel host data ps = .ok (data1, calls1) →
      handlePacket fuel host data1 packet = .ok (data2, calls2) →
      midiInputCallback fuel host data (ps ++ [packet]) = .ok (data2, calls1 ++ calls2) := by
  induction ps with
  | nil =>
    intro data data1 data2 calls1 calls2 packet h1 h2
    rw [midiInputCallback_nil] at h1
    cases h1
    simp only [List.nil_append, midiInputCallback_cons, h2, midiInputCallback_nil, List.append_nil]
  | cons p ps ih =>
    intro data data1 data2 calls1 calls2 packet h1 h2
    rw [midiInputCallback_cons] at h1
    rw [List.cons_append, midiInputCallback_cons]
    cases hp : handlePacket fuel host data p with
    | error e => rw [hp] at h1; cases h1
    | ok r =>
      obtain ⟨d, c⟩ := r
      rw [hp] at h1
      simp only at h1 ⊢
      cases hr : midiInputCallback fuel host d ps with
      | error e => rw [hr] at h1; cases h1
      | ok r2 =>
        obtain ⟨d2, c2⟩ := r2
        rw [hr] at h1
        cases h1
        rw [ih d _ data2 _ calls2 packet hr h2]
        simp

/-- The time stamp block writes only `message.timeStamp` and `firstMessage`. -/
theorem calcTimeStamp_frame (host : Host) (data : MacMidiInData) (packet : MIDIPacket) :
    (calcTimeStamp host data packet).continueSysex = data.continueSysex ∧
    (calcTimeStamp host data packet).ignoreFlags = data.ignoreFlags ∧
    (calcTimeStamp host data packet).usingCallback = data.usingCallback ∧
    (calcTimeStamp host data packet).userCallback = data.userCallback ∧
    (calcTimeStamp host data packet).userData = data.userData ∧
    (calcTimeStamp host data packet).message.bytes = data.message.bytes ∧
    (calcTimeStamp host data packet).queue = data.queue ∧
    (calcTimeStamp host data packet).apiData = data.apiData ∧
    (calcTimeStamp host data packet).firstMessage = false := by
  unfold calcTimeStamp
  by_cases h1 : data.firstMessage = true
  · simp [h1]
  · by_cases h2 : data.continueSysex = true
    · simp [h1, h2]
    · simp [h1, h2]

/-- C3: for a packet that is the concatenation of n >= 1 complete,
unfiltered, non-sysex messages, processed with continueSysex false and a
callback in use, the handler is invoked exactly n times, in packet order,
the k-th invocation receiving the bytes of the k-th message and the
registered userData (all with the time stamp computed for the packet). -/
theorem midiInputCallback_complete_messages (fuel : Nat) (host : Host) (data : MacMidiInData)
    (timeStamp : Nat) (ms : List (List Nat))
    (hn : 1 ≤ ms.length) (hms : ∀ m ∈ ms, completeMessage data.ignoreFlags m = true)
    (hlen : ms.flatten.length < USHORT)
    (hcs : data.continueSysex = false) (hcb : data.usingCallback = true)
    (hfuel : ms.length < fuel) :
    ∃ data1, midiInputCallback fuel host data [⟨timeStamp, ms.flatten⟩] =
      .ok (data1, ms.map (fun m =>
        { callback := data.userCallback
          timeStamp := (calcTimeStamp host data ⟨timeStamp, ms.flatten⟩).message.timeStamp
          bytes := m
          userData := data.userData })) := by
  obtain ⟨f1, f2, f3, f4, f5, _, _, _, _⟩ := calcTimeStamp_frame host data ⟨timeStamp, ms.flatten⟩
  have hne : ms ≠ [] := by
    intro h; rw [h] at hn; simp at hn
  have hpos : ms.flatten.length ≠ 0 := by
    cases ms with
    | nil => exact absurd rfl hne
    | cons m rest =>
      have hm := hms m (List.mem_cons_self _ _)
      cases m with
      | nil => simp [completeMessage] at hm
      | cons a t => simp
  have hscan := scan_messages ⟨timeStamp, ms.flatten⟩ hlen ms [] fuel
    { iByte := 0, data := calcTimeStamp host data ⟨timeStamp, ms.flatten⟩,
      foundNonFiltered := false, calls := [] }
    (by simp) rfl (by rw [f2]; exact hms) (by rw [f1]; exact hcs) (by rw [f3]; exact hcb) hfuel
  simp only at hscan
  have hemp : ms.isEmpty = false := by
    cases ms with
    | nil => exact absurd rfl hne
    | cons _ _ => rfl
  simp only [midiInputCallback_cons, handlePacket, hpos, if_false, f1, hcs, hscan, hemp,
    Bool.not_false, Bool.false_or, if_true, midiInputCallback_nil, List.append_nil, List.nil_append,
    f4, f5, Bool.false_eq_true]
  exact ⟨_, rfl⟩

/-- Witness for C3: the packet 90 40 7F yields exactly one invocation with
those three bytes; here on a fresh stream after setCallback(1, 9). -/
theorem midiInputCallback_complete_messages_witness :
    ∃ data1, midiInputCallback 2 (Host.plain 0)
        { MacMidiInData.new 100 0 with usingCallback := true, userCallback := 1, userData := 9 }
        [⟨1000, [0x90, 0x40, 0x7F]⟩] =
      .ok (data1, [{ callback := 1, timeStamp := 0, bytes := [0x90, 0x40, 0x7F], userData := 9 }]) :=
  midiInputCallback_complete_messages 2 (Host.plain 0)
    { MacMidiInData.new 100 0 with usingCallback := true, userCallback := 1, userData := 9 }
    1000 [[0x90, 0x40, 0x7F]] (by decide) (by decide) (by decide) rfl rfl (by decide)

/-! ## Packet parser: sysex that is not ignored -/

/-- The last byte of a packet, as the parser reads it. -/
theorem last_byte (l : List Nat) (x : Nat) (h : l.getLast? = some x) :
    l[l.length - 1]? = some x := by
  rw [← List.getLast?_eq_getElem?]; exact h

/-- A non-empty list has a last byte. -/
theorem exists_last_byte (l : List Nat) (h : l ≠ []) : ∃ x, l.getLast? = some x := by
  cases hl : l.getLast? with
  | none => exact absurd (List.getLast?_eq_none_iff.mp hl) h
  | some x => exact ⟨x, rfl⟩

/-- The scan of a packet that starts a sysex, sysex not being ignored: the
whole packet is copied, and delivered iff its last byte is 0xF7. -/
theorem scan_sysex (packet : MIDIPacket) (r : List Nat) (x : Nat) (fuel : Nat) (d : MacMidiInData)
    (hd : packet.data = 0xF0 :: r) (hlen : packet.data.length < USHORT)
    (hx : packet.data.getLast? = some x) (hsx : d.ignoreFlags &&& 0x01 = 0) :
    scan packet packet.data.length (fuel + 2)
        { iByte := 0, data := d, foundNonFiltered := false, calls := [] } =
      .ok { iByte := packet.data.length
            data := (if (x != 0xF7) = false then
                      deliver { d with continueSysex := false,
                                       message := { d.message with bytes := packet.data } } []
                     else ({ d with continueSysex := true,
                                    message := { d.message with bytes := packet.data } }, [])).1
            foundNonFiltered := true
            calls := (if (x != 0xF7) = false then
                      deliver { d with continueSysex := false,
                                       message := { d.message with bytes := packet.data } } []
                     else ({ d with continueSysex := true,
                                    message := { d.message with bytes := packet.data } }, [])).2 } := by
  have hpos : 0 < packet.data.length := by rw [hd]; simp
  have hget : packet.data[0]? = some 0xF0 := by rw [hd]; simp
  have hbit : (0xF0 : Nat) &&& 0x80 ≠ 0 := by decide
  have hcl : classify packet packet.data.length 0 d.ignoreFlags d.continueSysex 0xF0
      = .ok (packet.data.length, 0, x != 0xF7) := by
    have e1 : ¬ ((0xF0 : Nat) < 0xC0) := by decide
    have e2 : ¬ ((0xF0 : Nat) < 0xE0) := by decide
    have e3 : ¬ ((0xF0 : Nat) < 0xF0) := by decide
    simp only [classify, e1, e2, e3, if_false, if_true, last_byte _ _ hx, hsx, ne_eq,
      not_true_eq_false, wrapSub_of_le USHORT _ 0 (Nat.zero_le _), Nat.sub_zero]
  have hmod : packet.data.length % USHORT = packet.data.length := Nat.mod_eq_of_lt hlen
  have hsz : packet.data.length ≠ 0 := by omega
  rw [scan_succ]
  simp only [hpos, if_true, hget, hbit, if_false, hcl, hsz, ne_eq, not_false_eq_true,
    Nat.zero_add, le_refl, List.drop_zero, List.take_length, hmod]
  rw [scan_done]
  · cases hb : (x != 0xF7) <;> simp
  · exact le_refl _

/-- A packet that starts a sysex and does not end it: nothing is delivered
and the stream is collecting the packet's bytes. -/
theorem handlePacket_sysex_open (fuel : Nat) (host : Host) (data : MacMidiInData)
    (packet : MIDIPacket) (r : List Nat)
    (hd : packet.data = 0xF0 :: r) (hlen : packet.data.length < USHORT)
    (hopen : packet.data.getLast? ≠ some 0xF7)
    (hsx : data.ignoreFlags &&& 0x01 = 0) (hcs : data.continueSysex = false)
    (hcb : data.usingCallback = true) :
    ∃ d1, handlePacket (fuel + 2) host data packet = .ok (d1, []) ∧
      Collecting data.userCallback data.userData
        (calcTimeStamp host data packet).message.timeStamp packet.data d1 := by
  obtain ⟨f1, f2, f3, f4, f5, _, _, _, f9⟩ := calcTimeStamp_frame host data packet
  obtain ⟨x, hx⟩ := exists_last_byte packet.data (by rw [hd]; simp)
  have hx7 : x ≠ 0xF7 := by
    intro h; rw [h] at hx; exact hopen hx
  have hb : (x != 0xF7) = true := by simpa using hx7
  have hpos : packet.data.length ≠ 0 := by rw [hd]; simp
  have hscan := scan_sysex packet r x fuel (calcTimeStamp host data packet) hd hlen hx
    (by rw [f2]; exact hsx)
  simp only [hb, Bool.true_eq_false, if_false] at hscan
  simp only [handlePacket, hpos, if_false, f1, hcs, hscan, if_true, Bool.false_eq_true]
  exact ⟨_, rfl, rfl, f9, by simpa [f2] using hsx, by simpa [f3] using hcb, f4, f5, rfl⟩

/-- A packet that holds a whole sysex: it is delivered once, with the
packet's bytes. -/
theorem handlePacket_sysex_closed (fuel : Nat) (host : Host) (data : MacMidiInData)
    (packet : MIDIPacket) (r : List Nat)
    (hd : packet.data = 0xF0 :: r) (hlen : packet.data.length < USHORT)
    (hclose : packet.data.getLast? = some 0xF7)
    (hsx : data.ignoreFlags &&& 0x01 = 0) (hcs : data.continueSysex = false)
    (hcb : data.usingCallback = true) :
    ∃ d1, handlePacket (fuel + 2) host data packet =
      .ok (d1, [{ callback := data.userCallback
                  timeStamp := (calcTimeStamp host data packet).message.timeStamp
                  bytes := packet.data
                  userData := data.userData }]) := by
  obtain ⟨f1, f2, f3, f4, f5, _, _, _, f9⟩ := calcTimeStamp_frame host data packet
  have hb : ((0xF7 : Nat) != 0xF7) = false := by decide
  have hpos : packet.data.length ≠ 0 := by rw [hd]; simp
  have hscan := scan_sysex packet r 0xF7 fuel (calcTimeStamp host data packet) hd hlen hclose
    (by rw [f2]; exact hsx)
  simp only [hb, if_true, deliver, f3, hcb, List.nil_append, f4, f5] at hscan
  simp only [handlePacket, hpos, if_false, f1, hcs, hscan, if_true, Bool.false_eq_true]
  exact ⟨_, rfl⟩

/-- A continuation packet that does not end the sysex: nothing is
delivered and its bytes are appended to the collected ones. -/
theorem handlePacket_collect_open (fuel : Nat) (host : Host) (d : MacMidiInData)
    (packet : MIDIPacket) (cb ud stamp : Nat) (bytes : List Nat)
    (hc : Collecting cb ud stamp bytes d) (hne : packet.data ≠ [])
    (hopen : packet.data.getLast? ≠ some 0xF7) :
    ∃ d1, handlePacket fuel host d packet = .ok (d1, []) ∧
      Collecting cb ud stamp (bytes ++ packet.data) d1 := by
  obtain ⟨c1, c2, c3, c4, c5, c6, c7⟩ := hc
  obtain ⟨x, hx⟩ := exists_last_byte packet.data hne
  have hx7 : x ≠ 0xF7 := by
    intro h; rw [h] at hx; exact hopen hx
  have hb : (x != 0xF7) = true := by simpa using hx7
  have hpos : packet.data.length ≠ 0 := by simpa using hne
  have hts : calcTimeStamp host d packet = d := by
    simp [calcTimeStamp, c1, c2]
  simp only [handlePacket, hpos, if_false, hts, c1, if_true, c3, last_byte _ _ hx, hb,
    Bool.not_true, Bool.false_eq_true, and_false]
  exact ⟨_, rfl, rfl, c2, c3, c4, c5, c6, by simp [c7]⟩

/-- The continuation packet that ends the sysex: the collected bytes and
the packet's bytes are delivered as one message. -/
theorem handlePacket_collect_closed (fuel : Nat) (host : Host) (d : MacMidiInData)
    (packet : MIDIPacket) (cb ud stamp : Nat) (bytes : List Nat)
    (hc : Collecting cb ud stamp bytes d) (hclose : packet.data.getLast? = some 0xF7) :
    ∃ d1, handlePacket fuel host d packet =
      .ok (d1, [{ callback := cb, timeStamp := stamp, bytes := bytes ++ packet.data,
                  userData := ud }]) := by
  obtain ⟨c1, c2, c3, c4, c5, c6, c7⟩ := hc
  have hne : packet.data ≠ [] := by
    intro h; rw [h] at hclose; simp at hclose
  have hb : ((0xF7 : Nat) != 0xF7) = false := by decide
  have hpos : packet.data.length ≠ 0 := by simpa using hne
  have hts : calcTimeStamp host d packet = d := by
    simp [calcTimeStamp, c1, c2]
  simp only [handlePacket, hpos, if_false, hts, c1, if_true, c3, last_byte _ _ hclose, hb,
    Bool.not_false, and_self, deliver, c4, List.nil_append, c5, c6, c7]
  exact ⟨_, rfl⟩

/-- A run of continuation packets none of which ends the sysex: nothing is
delivered and all their bytes are collected, in order. -/
theorem midiInputCallback_collect (fuel : Nat) (host : Host) (cb ud stamp : Nat)
    (qs : List MIDIPacket) :
    ∀ (d : MacMidiInData) (bytes : List Nat), Collecting cb ud stamp bytes d →
      (∀ q ∈ qs, q.data ≠ [] ∧ q.data.getLast? ≠ some 0xF7) →
      ∃ d1, midiInputCallback fuel host d qs = .ok (d1, []) ∧
        Collecting cb ud stamp (bytes ++ (qs.map MIDIPacket.data).flatten) d1 := by
  induction qs with
  | nil =>
    intro d bytes hc _
    exact ⟨d, rfl, by simpa using hc⟩
  | cons q qs ih =>
    intro d bytes hc hq
    obtain ⟨hq1, hq2⟩ := hq q (List.mem_cons_self _ _)
    obtain ⟨d1, e1, c1⟩ := handlePacket_collect_open fuel host d q cb ud stamp bytes hc hq1 hq2
    obtain ⟨d2, e2, c2⟩ := ih d1 (bytes ++ q.data) c1 (fun x hx => hq x (List.mem_cons_of_mem _ hx))
    refine ⟨d2, ?_, by simpa using c2⟩
    simp only [midiInputCallback_cons, e1, e2, List.append_nil]

/-- C4: with sysex not ignored and a callback in use, a sysex split over
the k >= 1 non-empty packets init ++ [last], the first starting with 0xF0
and only the last ending with 0xF7, on a stream not in continuation, emits
nothing on the first k - 1 packets and exactly one message on the k-th,
whose bytes are the concatenation of all k packets. -/
theorem sysex_reassembly (fuel : Nat) (host : Host) (data : MacMidiInData)
    (init : List MIDIPacket) (last : MIDIPacket)
    (hfuel : 2 ≤ fuel)
    (hne : ∀ q ∈ init ++ [last], q.data ≠ [] ∧ q.data.length < USHORT)
    (hstart : (init.headD last).data.head? = some 0xF0)
    (hopen : ∀ q ∈ init, q.data.getLast? ≠ some 0xF7)
    (hclose : last.data.getLast? = some 0xF7)
    (hsx : data.ignoreFlags &&& 0x01 = 0) (hcb : data.usingCallback = true)
    (hcs : data.continueSysex = false) :
    (∀ j, j ≤ init.length →
      ∃ dj, midiInputCallback fuel host data (init.take j) = .ok (dj, [])) ∧
    ∃ d, midiInputCallback fuel host data (init ++ [last]) =
      .ok (d, [{ callback := data.userCallback
                 timeStamp := (calcTimeStamp host data (init.headD last)).message.timeStamp
                 bytes := ((init ++ [last]).map MIDIPacket.data).flatten
                 userData := data.userData }]) := by
  obtain ⟨f, rfl⟩ : ∃ f, fuel = f + 2 := ⟨fuel - 2, by omega⟩
  cases init with
  | nil =>
    simp only [List.headD_nil] at hstart ⊢
    obtain ⟨r, hr⟩ := List.head?_eq_some_iff.mp hstart
    obtain ⟨_, hl⟩ := hne last (by simp)
    constructor
    · intro j _
      exact ⟨data, by simp [midiInputCallback_nil]⟩
    · obtain ⟨d1, e1⟩ := handlePacket_sysex_closed f host data last r hr hl hclose hsx hcs hcb
      refine ⟨d1, ?_⟩
      simp [midiInputCallback_cons, e1, midiInputCallback_nil]
  | cons p mid =>
    simp only [List.headD_cons] at hstart ⊢
    obtain ⟨r, hr⟩ := List.head?_eq_some_iff.mp hstart
    obtain ⟨_, hl⟩ := hne p (by simp)
    obtain ⟨d1, e1, c1⟩ := handlePacket_sysex_open f host data p r hr hl
      (hopen p (List.mem_cons_self _ _)) hsx hcs hcb
    have hmid : ∀ q ∈ mid, q.data ≠ [] ∧ q.data.getLast? ≠ some 0xF7 := fun q hq =>
      ⟨(hne q (by simp [hq])).1, hopen q (List.mem_cons_of_mem _ hq)⟩
    constructor
    · intro j _
      cases j with
      | zero => exact ⟨data, by simp [midiInputCallback_nil]⟩
      | succ j =>
        obtain ⟨d2, e2, _⟩ := midiInputCallback_collect (f + 2) host _ _ _ (mid.take j) d1 p.data c1
          (fun q hq => hmid q (List.mem_of_mem_take hq))
        refine ⟨d2, ?_⟩
        simp only [List.take_succ_cons, midiInputCallback_cons, e1, e2, List.append_nil]
    · obtain ⟨d2, e2, c2⟩ := midiInputCallback_collect (f + 2) host _ _ _ mid d1 p.data c1 hmid
      obtain ⟨d3, e3⟩ := handlePacket_collect_closed (f + 2) host d2 last _ _ _ _ c2 hclose
      have e4 := midiInputCallback_append_ok (f + 2) host mid d1 d2 d3 _ _ last e2 e3
      refine ⟨d3, ?_⟩
      simp only [List.cons_append, midiInputCallback_cons, e1, e4, List.nil_append, List.map_cons,
        List.map_append, List.map_nil, List.flatten_cons, List.flatten_append, List.flatten_nil,
        List.append_nil, List.append_assoc]

/-- Witness for C4: F0 01 02 | 03 04 | 05 F7 yields the single message
F0 01 02 03 04 05 F7, on the third packet. -/
theorem sysex_reassembly_witness :
    (∀ j, j ≤ 2 →
      ∃ dj, midiInputCallback 2 (Host.plain 0)
        { MacMidiInData.new 100 0 with
          usingCallback := true, userCallback := 1, userData := 9, ignoreFlags := 0 }
        (List.take j [⟨1000, [0xF0, 1, 2]⟩, ⟨0, [3, 4]⟩]) = .ok (dj, [])) ∧
    ∃ d, midiInputCallback 2 (Host.plain 0)
        { MacMidiInData.new 100 0 with
          usingCallback := true, userCallback := 1, userData := 9, ignoreFlags := 0 }
        [⟨1000, [0xF0, 1, 2]⟩, ⟨0, [3, 4]⟩, ⟨0, [5, 0xF7]⟩] =
      .ok (d, [{ callback := 1, timeStamp := 0, bytes := [0xF0, 1, 2, 3, 4, 5, 0xF7],
                 userData := 9 }]) :=
  sysex_reassembly 2 (Host.plain 0)
    { MacMidiInData.new 100 0 with
      usingCallback := true, userCallback := 1, userData := 9, ignoreFlags := 0 }
    [⟨1000, [0xF0, 1, 2]⟩, ⟨0, [3, 4]⟩] ⟨0, [5, 0xF7]⟩
    (by decide) (by decide) (by decide) (by decide) (by decide) (by decide) rfl rfl

/-! ## Packet parser: sysex that is ignored -/

/-- The scan of a packet that starts a sysex, sysex being ignored: the
cursor jumps to the end of the packet, nothing is copied or delivered, and
only the continuation flag is written. -/
theorem scan_sysex_ignored (packet : MIDIPacket) (r : List Nat) (x : Nat) (fuel : Nat)
    (d : MacMidiInData) (hd : packet.data = 0xF0 :: r)
    (hx : packet.data.getLast? = some x) (hsx : d.ignoreFlags &&& 0x01 ≠ 0) :
    scan packet packet.data.length (fuel + 2)
        { iByte := 0, data := d, foundNonFiltered := false, calls := [] } =
      .ok { iByte := packet.data.length, data := { d with continueSysex := x != 0xF7 },
            foundNonFiltered := false, calls := [] } := by
  have hpos : 0 < packet.data.length := by rw [hd]; simp
  have hget : packet.data[0]? = some 0xF0 := by rw [hd]; simp
  have hbit : (0xF0 : Nat) &&& 0x80 ≠ 0 := by decide
  have hcl : classify packet packet.data.length 0 d.ignoreFlags d.continueSysex 0xF0
      = .ok (0, packet.data.length, x != 0xF7) := by
    have e1 : ¬ ((0xF0 : Nat) < 0xC0) := by decide
    have e2 : ¬ ((0xF0 : Nat) < 0xE0) := by decide
    have e3 : ¬ ((0xF0 : Nat) < 0xF0) := by decide
    simp only [classify, e1, e2, e3, if_false, if_true, last_byte _ _ hx, hsx, ne_eq,
      not_false_eq_true]
  rw [scan_succ]
  simp only [hpos, if_true, hget, hbit, if_false, hcl, ne_eq, not_true_eq_false]
  rw [scan_done]
  exact le_refl _

/-- One packet of an ignored sysex, either its first packet (starting with
0xF0) or a continuation packet: nothing is delivered, the message buffer
and the ignore mask are untouched, and the continuation flag tells whether
the packet's last byte is not 0xF7. -/
theorem handlePacket_sysex_ignored (fuel : Nat) (host : Host) (data : MacMidiInData)
    (packet : MIDIPacket) (x : Nat)
    (hx : packet.data.getLast? = some x) (hsx : data.ignoreFlags &&& 0x01 ≠ 0)
    (h : data.continueSysex = true ∨ packet.data.head? = some 0xF0) :
    ∃ d1, handlePacket (fuel + 2) host data packet = .ok (d1, []) ∧
      d1.continueSysex = (x != 0xF7) ∧ d1.ignoreFlags = data.ignoreFlags ∧
      d1.message.bytes = data.message.bytes := by
  obtain ⟨f1, f2, _, _, _, f6, _, _, _⟩ := calcTimeStamp_frame host data packet
  have hne : packet.data ≠ [] := by
    intro h0; rw [h0] at hx; simp at hx
  have hpos : packet.data.length ≠ 0 := by simpa using hne
  have hsx1 : (calcTimeStamp host data packet).ignoreFlags &&& 0x01 ≠ 0 := by rw [f2]; exact hsx
  by_cases hcs : data.continueSysex = true
  · simp only [handlePacket, hpos, if_false, f1, hcs, if_true, hsx1, last_byte _ _ hx,
      false_and]
    exact ⟨_, rfl, rfl, f2, f6⟩
  · have hcs0 : data.continueSysex = false := by simpa using hcs
    obtain ⟨r, hr⟩ := List.head?_eq_some_iff.mp (h.resolve_left hcs)
    have hscan := scan_sysex_ignored packet r x fuel (calcTimeStamp host data packet) hr hx hsx1
    simp only [handlePacket, hpos, if_false, f1, hcs0, hscan, Bool.false_eq_true]
    exact ⟨_, rfl, rfl, f2, f6⟩

/-- A run of continuation packets of an ignored sysex, none ending it:
nothing is delivered, the buffer is untouched, the continuation goes on. -/
theorem midiInputCallback_ignored_run (fuel : Nat) (host : Host) (qs : List MIDIPacket) :
    ∀ d : MacMidiInData, d.continueSysex = true → d.ignoreFlags &&& 0x01 ≠ 0 →
      (∀ q ∈ qs, q.data ≠ [] ∧ q.data.getLast? ≠ some 0xF7) →
      ∃ d1, midiInputCallback (fuel + 2) host d qs = .ok (d1, []) ∧
        d1.continueSysex = true ∧ d1.ignoreFlags = d.ignoreFlags ∧
        d1.message.bytes = d.message.bytes := by
  induction qs with
  | nil =>
    intro d hcs _ _
    exact ⟨d, rfl, hcs, rfl, rfl⟩
  | cons q qs ih =>
    intro d hcs hsx hq
    obtain ⟨hq1, hq2⟩ := hq q (List.mem_cons_self _ _)
    obtain ⟨x, hx⟩ := exists_last_byte q.data hq1
    have hx7 : x ≠ 0xF7 := by
      intro h; rw [h] at hx; exact hq2 hx
    obtain ⟨d1, e1, a1, a2, a3⟩ := handlePacket_sysex_ignored fuel host d q x hx hsx (Or.inl hcs)
    have hb : (x != 0xF7) = true := by simpa using hx7
    obtain ⟨d2, e2, b1, b2, b3⟩ := ih d1 (by rw [a1, hb]) (by rw [a2]; exact hsx)
      (fun y hy => hq y (List.mem_cons_of_mem _ hy))
    refine ⟨d2, ?_, b1, by rw [b2, a2], by rw [b3, a3]⟩
    simp only [midiInputCallback_cons, e1, e2, List.append_nil]

/-- C5: with sysex in the ignore set, a sysex split over the k >= 1
non-empty packets init ++ [last] (the first starting with 0xF0, only the
last ending with 0xF7) emits no message at all; continueSysex is true
after each of the first k - 1 packets and false after the terminator
packet; and the message buffer, empty before, stays empty. -/
theorem sysex_ignored (fuel : Nat) (host : Host) (data : MacMidiInData)
    (init : List MIDIPacket) (last : MIDIPacket)
    (hfuel : 2 ≤ fuel)
    (hne : ∀ q ∈ init ++ [last], q.data ≠ [])
    (hstart : (init.headD last).data.head? = some 0xF0)
    (hopen : ∀ q ∈ init, q.data.getLast? ≠ some 0xF7)
    (hclose : last.data.getLast? = some 0xF7)
    (hsx : data.ignoreFlags &&& 0x01 ≠ 0) (hempty : data.message.bytes = []) :
    (∀ j, 1 ≤ j → j ≤ init.length →
      ∃ dj, midiInputCallback fuel host data (init.take j) = .ok (dj, []) ∧
        dj.continueSysex = true ∧ dj.message.bytes = []) ∧
    ∃ d, midiInputCallback fuel host data (init ++ [last]) = .ok (d, []) ∧
      d.continueSysex = false ∧ d.message.bytes = [] := by
  obtain ⟨f, rfl⟩ : ∃ f, fuel = f + 2 := ⟨fuel - 2, by omega⟩
  have hb : ((0xF7 : Nat) != 0xF7) = false := by decide
  cases init with
  | nil =>
    simp only [List.headD_nil] at hstart
    constructor
    · intro j h1 h2
      simp at h2; omega
    · obtain ⟨d1, e1, a1, _, a3⟩ :=
        handlePacket_sysex_ignored f host data last 0xF7 hclose hsx (Or.inr hstart)
      refine ⟨d1, ?_, by rw [a1, hb], by rw [a3, hempty]⟩
      simp [midiInputCallback_cons, e1, midiInputCallback_nil]
  | cons p mid =>
    simp only [List.headD_cons] at hstart
    obtain ⟨x, hx⟩ := exists_last_byte p.data (hne p (by simp))
    have hx7 : x ≠ 0xF7 := by
      intro h; rw [h] at hx; exact hopen p (List.mem_cons_self _ _) hx
    have hbx : (x != 0xF7) = true := by simpa using hx7
    obtain ⟨d1, e1, a1, a2, a3⟩ :=
      handlePacket_sysex_ignored f host data p x hx hsx (Or.inr hstart)
    rw [hbx] at a1
    have hsx1 : d1.ignoreFlags &&& 0x01 ≠ 0 := by rw [a2]; exact hsx
    have hmid : ∀ q ∈ mid, q.data ≠ [] ∧ q.data.getLast? ≠ some 0xF7 := fun q hq =>
      ⟨hne q (by simp [hq]), hopen q (List.mem_cons_of_mem _ hq)⟩
    constructor
    · intro j h1 _
      obtain ⟨j, rfl⟩ : ∃ i, j = i + 1 := ⟨j - 1, by omega⟩
      obtain ⟨d2, e2, b1, _, b3⟩ := midiInputCallback_ignored_run f host (mid.take j) d1 a1 hsx1
        (fun q hq => hmid q (List.mem_of_mem_take hq))
      refine ⟨d2, ?_, b1, by rw [b3, a3, hempty]⟩
      simp only [List.take_succ_cons, midiInputCallback_cons, e1, e2, List.append_nil]
    · obtain ⟨d2, e2, b1, b2, b3⟩ := midiInputCallback_ignored_run f host mid d1 a1 hsx1 hmid
      obtain ⟨d3, e3, c1, _, c3⟩ := handlePacket_sysex_ignored f host d2 last 0xF7 hclose
        (by rw [b2]; exact hsx1) (Or.inl b1)
      have e4 := midiInputCallback_append_ok (f + 2) host mid d1 d2 d3 _ _ last e2 e3
      refine ⟨d3, ?_, by rw [c1, hb], by rw [c3, b3, a3, hempty]⟩
      simp only [List.cons_append, midiInputCallback_cons, e1, e4, List.append_nil]

/-- Witness for C5: F0 01 02 | 03 04 | 05 F7 on a fresh stream, whose
default mask ignores sysex. -/
theorem sysex_ignored_witness :
    (∀ j, 1 ≤ j → j ≤ 2 →
      ∃ dj, midiInputCallback 2 (Host.plain 0) (MacMidiInData.new 100 0)
          (List.take j [⟨1000, [0xF0, 1, 2]⟩, ⟨0, [3, 4]⟩]) = .ok (dj, []) ∧
        dj.continueSysex = true ∧ dj.message.bytes = []) ∧
    ∃ d, midiInputCallback 2 (Host.plain 0) (MacMidiInData.new 100 0)
        [⟨1000, [0xF0, 1, 2]⟩, ⟨0, [3, 4]⟩, ⟨0, [5, 0xF7]⟩] = .ok (d, []) ∧
      d.continueSysex = false ∧ d.message.bytes = [] :=
  sysex_ignored 2 (Host.plain 0) (MacMidiInData.new 100 0)
    [⟨1000, [0xF0, 1, 2]⟩, ⟨0, [3, 4]⟩] ⟨0, [5, 0xF7]⟩
    (by decide) (by decide) (by decide) (by decide) (by decide) (by decide) rfl

/-! ## Packet parser: evaluation on concrete streams -/

/-- C2 (evaluation of the code): on a fresh stream with the default queue
of 100 slots and no callback, the input callback processes the packet
90 40 7F without touching the queue, and the next getMessage returns the
time stamp 0.0 and an empty message instead of the three bytes. -/
theorem midiInputCallback_does_not_queue :
    ∃ data1,
      midiInputCallback 2 (Host.plain 0) (MidiInApi.new 100 0).inputData_
        [⟨1000, [0x90, 0x40, 0x7F]⟩] = .ok (data1, []) ∧
      data1.queue = MidiQueue.alloc 100 ∧
      data1.queue.size = 0 ∧
      ({ MidiInApi.new 100 0 with inputData_ := data1 } : MidiInApi).getMessage =
        .ok (0, [], { MidiInApi.new 100 0 with inputData_ := data1 }, []) :=
  ⟨{ MacMidiInData.new 100 0 with firstMessage := false, apiData := ⟨1000⟩ },
    by decide, by decide, by decide, by decide⟩

/-- C6 (evaluation of the code): on a fresh stream with a callback set and
the default ignore mask, a first packet F8 (filtered) followed by the
packet 90 40 7F at tick 2000 emits as its first message a Note-On whose
time stamp is 2000 ns (the distance of tick 2000 from the never-written
`lastTime`, here 0), not 0.0. -/
theorem midiInputCallback_first_stamp_nonzero :
    ∃ api1 data1 call,
      (MidiInApi.new 100 0).setCallback 1 9 = .ok (api1, []) ∧
      midiInputCallback 2 (Host.plain 0) api1.inputData_
        [⟨1000, [0xF8]⟩, ⟨2000, [0x90, 0x40, 0x7F]⟩] = .ok (data1, [call]) ∧
      call.bytes = [0x90, 0x40, 0x7F] ∧
      call.timeStamp = 2000 ∧
      call.timeStamp ≠ 0 :=
  ⟨{ MidiInApi.new 100 0 with inputData_ := { MacMidiInData.new 100 0 with
        usingCallback := true, userCallback := 1, userData := 9 } },
   { MacMidiInData.new 100 0 with
        usingCallback := true, userCallback := 1, userData := 9,
        message := ⟨[], 2000⟩, firstMessage := false, apiData := ⟨2000⟩ },
   ⟨1, 2000, [0x90, 0x40, 0x7F], 9⟩,
    by decide, by decide, rfl, rfl, by decide⟩

/-! ## Error reporting -/

/-- Unfolding of the run of a handler that makes no call. -/
theorem HandlerBody.run_done (api : MidiApi) : HandlerBody.done.run api = .ok (api, []) := rfl

/-- Unfolding of the run of a handler at its first call of `error`. -/
theorem HandlerBody.run_call (type : ErrorType) (errorString : String)
    (inner next : HandlerBody) (api : MidiApi) :
    (HandlerBody.call type errorString inner next).run api =
      match MidiApi.errorWith inner.run api type errorString with
      | .error e => .error e
      | .ok (api1, out1) =>
        match next.run api1 with
        | .error e => .error e
        | .ok (api2, out2) => .ok (api2, out1 ++ out2) := rfl

/-- While the guard is set, a call of `error` returns at once: nothing is
invoked, written or raised, whatever the type. -/
theorem MidiApi.errorWith_guarded (run : MidiApi → Except Failure (MidiApi × List Output))
    (api : MidiApi) (type : ErrorType) (errorString : String)
    (hcb : api.errorCallback_ ≠ 0) (hg : api.firstErrorOccurred_ = true) :
    MidiApi.errorWith run api type errorString = .ok (api, []) := by
  unfold MidiApi.errorWith
  rw [if_pos hcb, if_pos hg]

/-- While the guard is set, a whole handler run leaves the object as it is
and causes no output. -/
theorem HandlerBody.run_guarded (body : HandlerBody) :
    ∀ api : MidiApi, api.errorCallback_ ≠ 0 → api.firstErrorOccurred_ = true →
      body.run api = .ok (api, []) := by
  induction body with
  | done => intro api _ _; rfl
  | call type errorString inner next _ ih2 =>
    intro api hcb hg
    rw [HandlerBody.run_call, MidiApi.errorWith_guarded _ api type errorString hcb hg]
    simp only [ih2 api hcb hg, List.append_nil]

/-- With a handler registered and the guard clear, `error` invokes the
handler once and leaves the object as it was. -/
theorem MidiApi.error_invokes (api : MidiApi) (type : ErrorType) (errorString : String)
    (handler : HandlerBody) (hcb : api.errorCallback_ ≠ 0)
    (hg : api.firstErrorOccurred_ = false) :
    api.error type errorString handler =
      .ok (api, [Output.errorCallback api.errorCallback_ type errorString
                  api.errorCallbackUserData_]) := by
  have hrun := HandlerBody.run_guarded handler { api with firstErrorOccurred_ := true } hcb rfl
  unfold MidiApi.error MidiApi.errorWith
  rw [if_pos hcb, hg]
  simp only [Bool.false_eq_true, if_false, hrun]
  have e : ({ api with firstErrorOccurred_ := false } : MidiApi) = api := by
    cases api; simp only at hg; rw [hg]
  rw [e]

/-- The model of `error` on input objects is the base-class method with a
handler that makes no call. -/
theorem MidiInApi.error_eq_base (api : MidiInApi) (type : ErrorType) (errorString : String) :
    (api.error type errorString).map (fun r => (r.1.toMidiApi, r.2)) =
      api.toMidiApi.error type errorString HandlerBody.done ∧
    ∀ api1 out, api.error type errorString = .ok (api1, out) →
      api1.inputData_ = api.inputData_ := by
  unfold MidiInApi.error MidiApi.error MidiApi.errorWith
  by_cases h1 : api.errorCallback_ ≠ 0
  · by_cases h2 : api.firstErrorOccurred_ = true
    · have h1b : api.toMidiApi.errorCallback_ ≠ 0 := h1
      have h2b : api.toMidiApi.firstErrorOccurred_ = true := h2
      rw [if_pos h1, if_pos h2, if_pos h1b, if_pos h2b]
      refine ⟨rfl, ?_⟩
      intro api1 out h; cases h; rfl
    · have h1b : api.toMidiApi.errorCallback_ ≠ 0 := h1
      have h2b : ¬ api.toMidiApi.firstErrorOccurred_ = true := h2
      rw [if_pos h1, if_neg h2, if_pos h1b, if_neg h2b]
      refine ⟨rfl, ?_⟩
      intro api1 out h; cases h; rfl
  · have h1b : ¬ api.toMidiApi.errorCallback_ ≠ 0 := h1
    rw [if_neg h1, if_neg h1b]
    by_cases h3 : type = ErrorType.WARNING
    · rw [if_pos h3, if_pos h3]
      refine ⟨rfl, ?_⟩
      intro api1 out h; cases h; rfl
    · rw [if_neg h3, if_neg h3]
      by_cases h4 : type = ErrorType.DEBUG_WARNING
      · rw [if_pos h4, if_pos h4]
        refine ⟨rfl, ?_⟩
        intro api1 out h; cases h; rfl
      · rw [if_neg h4, if_neg h4]
        refine ⟨rfl, ?_⟩
        intro api1 out h; cases h

/-- C15: error(type, msg) raises a failure to its caller iff no error
handler is registered and type is neither WARNING nor DEBUG_WARNING (and it
then raises MacMidiError(msg, type)); with a handler registered it never
raises, for any type; with no handler the advisory types return normally,
leaving the object as it is. -/
theorem MidiApi.error_raises_iff (api : MidiApi) (type : ErrorType) (errorString : String)
    (handler : HandlerBody) :
    ((∃ e, api.error type errorString handler = .error e) ↔
      (api.errorCallback_ = 0 ∧ type ≠ ErrorType.WARNING ∧ type ≠ ErrorType.DEBUG_WARNING)) ∧
    (api.errorCallback_ = 0 → type ≠ ErrorType.WARNING → type ≠ ErrorType.DEBUG_WARNING →
      api.error type errorString handler = .error (Failure.thrown type errorString)) ∧
    (api.errorCallback_ ≠ 0 → ∃ api1 out, api.error type errorString handler = .ok (api1, out)) ∧
    (api.errorCallback_ = 0 → (type = ErrorType.WARNING ∨ type = ErrorType.DEBUG_WARNING) →
      ∃ out, api.error type errorString handler = .ok (api, out)) := by
  have hthrow : api.errorCallback_ = 0 → type ≠ ErrorType.WARNING →
      type ≠ ErrorType.DEBUG_WARNING →
      api.error type errorString handler = .error (Failure.thrown type errorString) := by
    intro h1 h2 h3
    unfold MidiApi.error MidiApi.errorWith
    rw [if_neg (by simpa using h1), if_neg h2, if_neg h3]
  have hreg : api.errorCallback_ ≠ 0 →
      ∃ api1 out, api.error type errorString handler = .ok (api1, out) := by
    intro h1
    by_cases hg : api.firstErrorOccurred_ = true
    · exact ⟨api, [], MidiApi.errorWith_guarded _ api type errorString h1 hg⟩
    · exact ⟨api, _, MidiApi.error_invokes api type errorString handler h1 (by simpa using hg)⟩
  have hadv : api.errorCallback_ = 0 →
      (type = ErrorType.WARNING ∨ type = ErrorType.DEBUG_WARNING) →
      ∃ out, api.error type errorString handler = .ok (api, out) := by
    intro h1 h2
    unfold MidiApi.error MidiApi.errorWith
    rw [if_neg (by simpa using h1)]
    rcases h2 with h2 | h2
    · rw [if_pos h2]; exact ⟨_, rfl⟩
    · rw [h2]; exact ⟨[], rfl⟩
  refine ⟨⟨?_, ?_⟩, hthrow, hreg, hadv⟩
  · rintro ⟨e, he⟩
    by_cases h1 : api.errorCallback_ = 0
    · refine ⟨h1, ?_, ?_⟩
      · intro h2
        obtain ⟨out, ho⟩ := hadv h1 (Or.inl h2)
        rw [ho] at he; cases he
      · intro h2
        obtain ⟨out, ho⟩ := hadv h1 (Or.inr h2)
        rw [ho] at he; cases he
    · obtain ⟨api1, out, ho⟩ := hreg h1
      rw [ho] at he; cases he
  · rintro ⟨h1, h2, h3⟩
    exact ⟨_, hthrow h1 h2 h3⟩

/-- Witness for C15: with no handler DRIVER_ERROR is raised and WARNING is
not; with the handler 7 registered DRIVER_ERROR is not raised. -/
theorem MidiApi.error_raises_iff_witness :
    MidiApi.new.error ErrorType.DRIVER_ERROR "driver" HandlerBody.done
        = .error (Failure.thrown ErrorType.DRIVER_ERROR "driver") ∧
    (∃ out, MidiApi.new.error ErrorType.WARNING "warn" HandlerBody.done = .ok (MidiApi.new, out)) ∧
    (∃ api1 out, (MidiApi.new.setErrorCallback 7 9).error ErrorType.DRIVER_ERROR "driver"
        HandlerBody.done = .ok (api1, out)) :=
  ⟨(MidiApi.error_raises_iff MidiApi.new ErrorType.DRIVER_ERROR "driver" HandlerBody.done).2.1
      rfl (by decide) (by decide),
   (MidiApi.error_raises_iff MidiApi.new ErrorType.WARNING "warn" HandlerBody.done).2.2.2
      rfl (Or.inl rfl),
   (MidiApi.error_raises_iff (MidiApi.new.setErrorCallback 7 9) ErrorType.DRIVER_ERROR "driver"
      HandlerBody.done).2.2.1 (by decide)⟩

/-- C16: with an error handler registered, a top-level error(kind, message)
call invokes the handler exactly once, with (kind, message, userData),
whatever calls of error the handler makes while it runs; every error call
made while the invocation is in progress (guard set) is dropped: no
invocation, no output, nothing raised; and after the top-level call the
guard is false again, so the next error call invokes the handler. -/
theorem MidiApi.error_single_flight (api : MidiApi) (type : ErrorType) (errorString : String)
    (handler : HandlerBody) (hcb : api.errorCallback_ ≠ 0)
    (hg : api.firstErrorOccurred_ = false) :
    api.error type errorString handler =
      .ok (api, [Output.errorCallback api.errorCallback_ type errorString
                  api.errorCallbackUserData_]) ∧
    (∀ (type1 : ErrorType) (errorString1 : String) (handler1 : HandlerBody),
      ({ api with firstErrorOccurred_ := true } : MidiApi).error type1 errorString1 handler1 =
        .ok ({ api with firstErrorOccurred_ := true }, [])) ∧
    handler.run { api with firstErrorOccurred_ := true } =
      .ok ({ api with firstErrorOccurred_ := true }, []) ∧
    (∀ (type2 : ErrorType) (errorString2 : String) (handler2 : HandlerBody),
      ∃ api1 out, api.error type errorString handler = .ok (api1, out) ∧
        api1.firstErrorOccurred_ = false ∧
        api1.error type2 errorString2 handler2 =
          .ok (api1, [Output.errorCallback api.errorCallback_ type2 errorString2
                        api.errorCallbackUserData_])) := by
  refine ⟨MidiApi.error_invokes api type errorString handler hcb hg, ?_, ?_, ?_⟩
  · intro type1 errorString1 handler1
    exact MidiApi.errorWith_guarded _ _ type1 errorString1 hcb rfl
  · exact HandlerBody.run_guarded handler _ hcb rfl
  · intro type2 errorString2 handler2
    exact ⟨api, _, MidiApi.error_invokes api type errorString handler hcb hg, hg,
      MidiApi.error_invokes api type2 errorString2 handler2 hcb hg⟩

/-- Witness for C16: the handler 7 (user data 9) is invoked once for a
warning although, while running, it reports a driver error and a warning
of its own. -/
theorem MidiApi.error_single_flight_witness :
    (MidiApi.new.setErrorCallback 7 9).error ErrorType.WARNING "outer"
        (HandlerBody.call ErrorType.DRIVER_ERROR "nested"
          (HandlerBody.call ErrorType.WARNING "deeper" HandlerBody.done HandlerBody.done)
          (HandlerBody.call ErrorType.WARNING "second" HandlerBody.done HandlerBody.done)) =
      .ok (MidiApi.new.setErrorCallback 7 9, [Output.errorCallback 7 ErrorType.WARNING "outer" 9]) :=
  (MidiApi.error_single_flight (MidiApi.new.setErrorCallback 7 9) ErrorType.WARNING "outer"
    (HandlerBody.call ErrorType.DRIVER_ERROR "nested"
      (HandlerBody.call ErrorType.WARNING "deeper" HandlerBody.done HandlerBody.done)
      (HandlerBody.call ErrorType.WARNING "second" HandlerBody.done HandlerBody.done))
    (by decide) rfl).1

/-! ## The ignore mask -/

/-- C17: the ignore mask encodes three independent booleans. On a fresh
stream sysex, time and active sensing are all ignored; after
ignoreTypes(s, t, a) sysex (bit 0, status 0xF0) is ignored iff s, time
messages (bit 1, status 0xF1 and 0xF8) iff t, active sensing (bit 2,
status 0xFE) iff a, whatever the mask was before; so the call is
idempotent, the last call wins, and nothing but the mask is written. -/
theorem MidiInApi.ignoreTypes_mask (api : MidiInApi) (s t a : Bool)
    (queueSizeLimit lastTime : Nat) :
    ((MidiInApi.new queueSizeLimit lastTime).inputData_.ignoreFlags = 7 ∧
      filtered (MidiInApi.new queueSizeLimit lastTime).inputData_.ignoreFlags 0xF0 = true ∧
      filtered (MidiInApi.new queueSizeLimit lastTime).inputData_.ignoreFlags 0xF1 = true ∧
      filtered (MidiInApi.new queueSizeLimit lastTime).inputData_.ignoreFlags 0xF8 = true ∧
      filtered (MidiInApi.new queueSizeLimit lastTime).inputData_.ignoreFlags 0xFE = true) ∧
    (api.ignoreTypes s t a).inputData_.ignoreFlags =
      (if s then 1 else 0) + (if t then 2 else 0) + (if a then 4 else 0) ∧
    ((api.ignoreTypes s t a).inputData_.ignoreFlags &&& 0x01 ≠ 0 ↔ s = true) ∧
    ((api.ignoreTypes s t a).inputData_.ignoreFlags &&& 0x02 ≠ 0 ↔ t = true) ∧
    ((api.ignoreTypes s t a).inputData_.ignoreFlags &&& 0x04 ≠ 0 ↔ a = true) ∧
    filtered (api.ignoreTypes s t a).inputData_.ignoreFlags 0xF0 = s ∧
    filtered (api.ignoreTypes s t a).inputData_.ignoreFlags 0xF1 = t ∧
    filtered (api.ignoreTypes s t a).inputData_.ignoreFlags 0xF8 = t ∧
    filtered (api.ignoreTypes s t a).inputData_.ignoreFlags 0xFE = a ∧
    (api.ignoreTypes s t a).ignoreTypes s t a = api.ignoreTypes s t a ∧
    (∀ s0 t0 a0 : Bool, (api.ignoreTypes s0 t0 a0).ignoreTypes s t a = api.ignoreTypes s t a) ∧
    api.ignoreTypes s t a =
      { api with inputData_ := { api.inputData_ with
          ignoreFlags := (api.ignoreTypes s t a).inputData_.ignoreFlags } } := by
  have hfresh : (MidiInApi.new queueSizeLimit lastTime).inputData_.ignoreFlags = 7 := rfl
  refine ⟨⟨hfresh, ?_, ?_, ?_, ?_⟩, ?_, ?_, ?_, ?_, ?_, ?_, ?_, ?_,
    rfl, fun _ _ _ => rfl, rfl⟩
  · rw [hfresh]; decide
  · rw [hfresh]; decide
  · rw [hfresh]; decide
  · rw [hfresh]; decide
  all_goals
    cases s <;> cases t <;> cases a <;> simp only [MidiInApi.ignoreTypes] <;> decide

/-! ## Polling -/

/-- A pop from a queue whose indices are inside its ring of `C >= 1` slots:
nothing when `front = back`, otherwise the message in slot `front`, which
is then released. -/
theorem MidiQueue.pop_inside (f b C : Nat) (ring : List MidiMessage)
    (hU : C < UINT) (hlen : ring.length = C) (hf : f < C) (hb : b < C) :
    (MidiQueue.mk f b C ring).pop =
      if f = b then .ok (none, MidiQueue.mk f b C ring)
      else .ok (some (ring.getD f MidiMessage.new), MidiQueue.mk ((f + 1) % C) b C ring) := by
  have hw : wrapSub UINT C f = C - f := wrapSub_of_le _ _ _ (by omega)
  have h1 : (f + 1) % UINT = f + 1 := by unfold UINT at *; omega
  have hfl : f < ring.length := by omega
  have hC0 : C ≠ 0 := by omega
  by_cases h : f = b
  · subst h
    simp [MidiQueue.pop, MidiQueue.size]
  · have hsz : (MidiQueue.mk f b C ring).size ≠ 0 := by
      simp only [MidiQueue.size, hw]
      unfold UINT at *
      split_ifs <;> omega
    simp only [MidiQueue.pop, hsz, if_false, List.getElem?_eq_getElem hfl, hC0, h1, h,
      List.getD_eq_getElem?_getD, Option.getD_some]

/-- With no callback in use, getMessage on a queue whose indices are
inside its ring pops the message in slot `front`, if there is one. -/
theorem MidiInApi.getMessage_of_free (api : MidiInApi) (f b C : Nat) (ring : List MidiMessage)
    (hfree : api.inputData_.usingCallback = false)
    (hq : api.inputData_.queue = MidiQueue.mk f b C ring)
    (hU : C < UINT) (hlen : ring.length = C) (hf : f < C) (hb : b < C) :
    api.getMessage =
      if f = b then .ok (0, [], api, [])
      else .ok ((ring.getD f MidiMessage.new).timeStamp, (ring.getD f MidiMessage.new).bytes,
        { api with inputData_ := { api.inputData_ with
            queue := MidiQueue.mk ((f + 1) % C) b C ring } }, []) := by
  have hpop := MidiQueue.pop_inside f b C ring hU hlen hf hb
  unfold MidiInApi.getMessage
  rw [hfree, hq, hpop]
  by_cases h : f = b
  · simp [h]
  · simp [h]

/-- C11: while a callback is active getMessage reports a warning, returns
0.0 with an empty message and leaves the queue (indeed all input data)
unchanged; once cancelCallback has succeeded the same call pops the oldest
queued message, the one in slot front, or returns 0.0 and an empty message
if the queue is empty. -/
theorem MidiInApi.getMessage_mode (api : MidiInApi)
    (hcb : api.inputData_.usingCallback = true) :
    (∃ text api1 out, api.getMessage = .ok (0, [], api1, out) ∧
      api1.inputData_ = api.inputData_ ∧
      ({ api with errorString_ := text } : MidiInApi).error ErrorType.WARNING text
        = .ok (api1, out) ∧
      (out = [] ∨ out = [Output.cerr ("\n" ++ text ++ "\n\n")] ∨
        out = [Output.errorCallback api.errorCallback_ ErrorType.WARNING text
                api.errorCallbackUserData_])) ∧
    (∃ api2, api.cancelCallback = .ok (api2, []) ∧
      api2.inputData_.queue = api.inputData_.queue ∧
      ∀ (f b C : Nat) (ring : List MidiMessage),
        api.inputData_.queue = MidiQueue.mk f b C ring →
        C < UINT → ring.length = C → f < C → b < C →
        api2.getMessage =
          if f = b then .ok (0, [], api2, [])
          else .ok ((ring.getD f MidiMessage.new).timeStamp,
            (ring.getD f MidiMessage.new).bytes,
            { api2 with inputData_ := { api2.inputData_ with
                queue := MidiQueue.mk ((f + 1) % C) b C ring } }, [])) := by
  constructor
  · obtain ⟨api1, out, e1, e2, e3⟩ := MidiInApi.error_warning
      { api with errorString_ :=
          "MacMidiIn::getNextMessage: a user callback is currently set for this port." }
      "MacMidiIn::getNextMessage: a user callback is currently set for this port."
    refine ⟨_, api1, out, ?_, e2, e1, e3⟩
    unfold MidiInApi.getMessage
    rw [if_pos hcb]
    simp only [e1]
  · refine ⟨{ api with inputData_ := { api.inputData_ with
        userCallback := 0, userData := 0, usingCallback := false } }, ?_, rfl, ?_⟩
    · simp [MidiInApi.cancelCallback, hcb]
    · intro f b C ring hq hU hlen hf hb
      exact MidiInApi.getMessage_of_free _ f b C ring rfl hq hU hlen hf hb

/-- Witness for C11: a stream with the callback 5 in use whose queue of
capacity 3 holds one message, in slot 1. -/
theorem MidiInApi.getMessage_mode_witness :
    ∃ api2, ({ MidiInApi.new 3 0 with inputData_ := { (MidiInApi.new 3 0).inputData_ with
        usingCallback := true, userCallback := 5
        queue := MidiQueue.mk 1 2 3 [⟨[], 0⟩, ⟨[0x90, 0x40, 0x7F], 4⟩, ⟨[], 0⟩] } }
        : MidiInApi).cancelCallback = .ok (api2, []) ∧
      api2.getMessage = .ok (4, [0x90, 0x40, 0x7F],
        { api2 with inputData_ := { api2.inputData_ with
            queue := MidiQueue.mk 2 2 3 [⟨[], 0⟩, ⟨[0x90, 0x40, 0x7F], 4⟩, ⟨[], 0⟩] } }, []) :=
  match (MidiInApi.getMessage_mode
      ({ MidiInApi.new 3 0 with inputData_ := { (MidiInApi.new 3 0).inputData_ with
        usingCallback := true, userCallback := 5
        queue := MidiQueue.mk 1 2 3 [⟨[], 0⟩, ⟨[0x90, 0x40, 0x7F], 4⟩, ⟨[], 0⟩] } }) rfl).2 with
  | ⟨api2, h1, _, h3⟩ =>
    ⟨api2, h1, h3 1 2 3 [⟨[], 0⟩, ⟨[0x90, 0x40, 0x7F], 4⟩, ⟨[], 0⟩] rfl (by decide) rfl
      (by decide) (by decide)⟩

/-! ## Ring queue: reachable states -/

/-- In a state whose indices are inside the ring of `C >= 1` slots, push
returns (true or false) and leaves the indices inside the ring. -/
theorem MidiQueue.push_inside (q : MidiQueue) (C : Nat) (msg : MidiMessage)
    (hC : 1 ≤ C) (hU : C < UINT)
    (hinv : q.ringSize = C ∧ q.ring.length = C ∧ q.front < C ∧ q.back < C) :
    ∃ r q1, q.push msg = .ok (r, q1) ∧
      (q1.ringSize = C ∧ q1.ring.length = C ∧ q1.front < C ∧ q1.back < C) := by
  obtain ⟨f, b, C0, ring⟩ := q
  obtain ⟨h1, h2, h3, h4⟩ := hinv
  simp only at h1 h2 h3 h4
  subst h1
  by_cases h : (MidiQueue.mk f b C0 ring).size < C0 - 1
  · refine ⟨true, _, MidiQueue.push_of_lt f b C0 ring msg hU h2 h4 h, rfl, ?_, h3, ?_⟩
    · simpa using h2
    · exact Nat.mod_lt _ (by omega)
  · exact ⟨false, _, MidiQueue.push_of_ge _ msg hC (by simpa using h), rfl, h2, h3, h4⟩

/-- In a state whose indices are inside the ring of `C >= 1` slots, pop
returns and leaves the indices inside the ring. -/
theorem MidiQueue.pop_inside_inv (q : MidiQueue) (C : Nat) (hC : 1 ≤ C) (hU : C < UINT)
    (hinv : q.ringSize = C ∧ q.ring.length = C ∧ q.front < C ∧ q.back < C) :
    ∃ r q1, q.pop = .ok (r, q1) ∧
      (q1.ringSize = C ∧ q1.ring.length = C ∧ q1.front < C ∧ q1.back < C) := by
  obtain ⟨f, b, C0, ring⟩ := q
  obtain ⟨h1, h2, h3, h4⟩ := hinv
  simp only at h1 h2 h3 h4
  subst h1
  rw [MidiQueue.pop_inside f b C0 ring hU h2 h3 h4]
  by_cases h : f = b
  · rw [if_pos h]; exact ⟨_, _, rfl, rfl, h2, h3, h4⟩
  · rw [if_neg h]; exact ⟨_, _, rfl, rfl, h2, Nat.mod_lt _ (by omega), h4⟩

/-- Every reachable state has its indices inside its ring of `C` slots. -/
theorem MidiQueue.reachable_inside (C : Nat) (hC : 1 ≤ C) (hU : C < UINT) (q : MidiQueue)
    (h : MidiQueue.Reachable C q) :
    q.ringSize = C ∧ q.ring.length = C ∧ q.front < C ∧ q.back < C := by
  induction h with
  | alloc =>
    have : C > 0 := hC
    simp [MidiQueue.alloc, MidiQueue.new, this]
  | push q q1 msg r _ hp ih =>
    obtain ⟨r0, q0, e, hinv⟩ := MidiQueue.push_inside q C msg hC hU ih
    rw [e] at hp
    cases hp
    exact hinv
  | pop q q1 r _ hp ih =>
    obtain ⟨r0, q0, e, hinv⟩ := MidiQueue.pop_inside_inv q C hC hU ih
    rw [e] at hp
    cases hp
    exact hinv

/-- C20: for every capacity C >= 1, every state reachable from the empty
queue by any sequence of push and pop satisfies front < C, back < C,
size() = (back - front) mod C and size() <= C - 1, and front == back holds
exactly when the queue is empty (size() is 0, pop returns false); in such a
state push and pop always return. -/
theorem MidiQueue.reachable_invariant (C : Nat) (hC : 1 ≤ C) (hU : C < UINT) (q : MidiQueue)
    (h : MidiQueue.Reachable C q) :
    q.front < C ∧ q.back < C ∧
    (q.size : Int) = ((q.back : Int) - (q.front : Int)) % (C : Int) ∧
    q.size ≤ C - 1 ∧
    (q.front = q.back ↔ q.size = 0) ∧
    (q.front = q.back ↔ q.pop = .ok (none, q)) ∧
    (∀ msg, ∃ r q1, q.push msg = .ok (r, q1) ∧ MidiQueue.Reachable C q1) ∧
    (∃ r q1, q.pop = .ok (r, q1) ∧ MidiQueue.Reachable C q1) := by
  have hinv := MidiQueue.reachable_inside C hC hU q h
  obtain ⟨h1, h2, h3, h4⟩ := hinv
  have hw : wrapSub UINT C q.front = C - q.front := wrapSub_of_le _ _ _ (by omega)
  have hsize : q.size = if q.back ≥ q.front then q.back - q.front else C - q.front + q.back := by
    simp only [MidiQueue.size, h1, hw]
    split_ifs with hc
    · rfl
    · exact Nat.mod_eq_of_lt (by unfold UINT at *; omega)
  have hpop := MidiQueue.pop_inside q.front q.back C q.ring hU h2 h3 h4
  have hq : q = MidiQueue.mk q.front q.back C q.ring := by
    cases q; simp only at h1; rw [h1]
  rw [← hq] at hpop
  refine ⟨h3, h4, ?_, ?_, ?_, ?_, ?_, ?_⟩
  · rw [hsize]
    split_ifs with hc
    · rw [Int.emod_eq_of_lt (by omega) (by omega)]
      omega
    · rw [← Int.add_emod_self, Int.emod_eq_of_lt (by omega) (by omega)]
      omega
  · rw [hsize]; split_ifs <;> omega
  · rw [hsize]; split_ifs <;> omega
  · rw [hpop]
    constructor
    · intro e; rw [if_pos e]
    · intro e
      by_contra hne
      rw [if_neg hne] at e
      cases e
  · intro msg
    obtain ⟨r, q1, e, _⟩ := MidiQueue.push_inside q C msg hC hU ⟨h1, h2, h3, h4⟩
    exact ⟨r, q1, e, MidiQueue.Reachable.push q q1 msg r h e⟩
  · obtain ⟨r, q1, e, _⟩ := MidiQueue.pop_inside_inv q C hC hU ⟨h1, h2, h3, h4⟩
    exact ⟨r, q1, e, MidiQueue.Reachable.pop q q1 r h e⟩

/-- Witness for C20: the state of a queue of capacity 3 after one push. -/
theorem MidiQueue.reachable_invariant_witness :
    (MidiQueue.mk 0 1 3 [⟨[0xF8], 0⟩, ⟨[], 0⟩, ⟨[], 0⟩]).front < 3 ∧
    (MidiQueue.mk 0 1 3 [⟨[0xF8], 0⟩, ⟨[], 0⟩, ⟨[], 0⟩]).back < 3 ∧
    ((MidiQueue.mk 0 1 3 [⟨[0xF8], 0⟩, ⟨[], 0⟩, ⟨[], 0⟩]).size : Int) =
      (((1 : Nat) : Int) - ((0 : Nat) : Int)) % ((3 : Nat) : Int) ∧
    (MidiQueue.mk 0 1 3 [⟨[0xF8], 0⟩, ⟨[], 0⟩, ⟨[], 0⟩]).size ≤ 3 - 1 :=
  have h := MidiQueue.reachable_invariant 3 (by decide) (by decide)
    (MidiQueue.mk 0 1 3 [⟨[0xF8], 0⟩, ⟨[], 0⟩, ⟨[], 0⟩])
    (MidiQueue.Reachable.push (MidiQueue.alloc 3) _ ⟨[0xF8], 0⟩ true MidiQueue.Reachable.alloc
      (by decide))
  ⟨h.1, h.2.1, h.2.2.1, h.2.2.2.1⟩

/-! ## API names: evaluation -/

/-- C18 (evaluation of the code): for the unknown API values NUM_APIS (9)
and -1 getApiDisplayName returns "Unknown", not the empty string its
documentation promises and its sibling getApiName returns; inside the
range it returns the display name of the table (MACOSX_CORE gives
"CoreMidi"). -/
theorem getApiDisplayName_unknown :
    getApiDisplayName Api.NUM_APIS = "Unknown" ∧
    getApiDisplayName (-1) = "Unknown" ∧
    getApiDisplayName Api.NUM_APIS ≠ "" ∧
    getApiName Api.NUM_APIS = "" ∧
    getApiName (-1) = "" ∧
    getApiDisplayName Api.MACOSX_CORE = "CoreMidi" := by
  refine ⟨by decide, by decide, by decide, by decide, by decide, by decide⟩

/-- C19 (evaluation of the code): in the CoreMIDI build the name "CORE",
which equals the short name "core" of MACOSX_CORE up to letter case, is
not found: getCompiledApiByName compares with `==` and returns
UNSPECIFIED; only the exact spelling "core" gives MACOSX_CORE. -/
theorem getCompiledApiByName_case_sensitive :
    getCompiledApiByName macmidi_compiled_apis_core "CORE" = Api.UNSPECIFIED ∧
    getCompiledApiByName macmidi_compiled_apis_core "Core" = Api.UNSPECIFIED ∧
    getCompiledApiByName macmidi_compiled_apis_core "core" = Api.MACOSX_CORE ∧
    getApiName Api.MACOSX_CORE = "core" ∧
    "CORE".data.map Char.toLower = (getApiName Api.MACOSX_CORE).data ∧
    Api.MACOSX_CORE ≠ Api.UNSPECIFIED := by
  refine ⟨by decide, by decide, by decide, by decide, by decide, by decide⟩

/-! ## Output: reports and one round of the send loop -/

/-- A warning never raises: the text is stored in `errorString_` and the
warning goes to the handler, is dropped, or is written to `cerr`. -/
theorem MidiOutCore.report_warning (api : MidiOutCore) (text : String) :
    api.report ErrorType.WARNING text =
      .ok ({ api with errorString_ := text }, warningOutput api text) := by
  obtain ⟨⟨c, es, cb, g, ud⟩, d⟩ := api
  by_cases h1 : cb ≠ 0
  · cases g with
    | true =>
      simp [MidiOutCore.report, MidiApi.error, MidiApi.errorWith, warningOutput, h1]
    | false =>
      simp [MidiOutCore.report, MidiApi.error, MidiApi.errorWith, warningOutput, h1,
        HandlerBody.run_done]
  · simp [MidiOutCore.report, MidiApi.error, MidiApi.errorWith, warningOutput, h1]

/-- A report overwrites `errorString_`, so its result does not depend on
the text stored before. -/
theorem MidiOutCore.report_text (api : MidiOutCore) (old : String) (type : ErrorType)
    (text : String) :
    ({ api with errorString_ := old } : MidiOutCore).report type text = api.report type text :=
  rfl

/-- The calls forwarding a chunk do not depend on `errorString_`. -/
theorem transmits_text (api : MidiOutCore) (old : String) (timeStamp : Nat) (chunk : List Nat) :
    transmits { api with errorString_ := old } timeStamp chunk = transmits api timeStamp chunk :=
  rfl

/-- The warnings for failed transmissions do not depend on `errorString_`. -/
theorem failureReports_text (host : OutHost) (api : MidiOutCore) (old : String) (start : Nat) :
    failureReports host { api with errorString_ := old } start = failureReports host api start :=
  rfl

/-- Without fuel the send loop is cut off. -/
theorem MidiOutCore.sendLoop_zero (host : OutHost) (message : List Nat) (nBytes timeStamp : Nat)
    (r : Nat) (api : MidiOutCore) (calls : List SinkCall) (out : List Output) :
    MidiOutCore.sendLoop host message nBytes timeStamp 0 r api calls out = .error .outOfFuel :=
  rfl

/-- The send loop ends when no byte remains. -/
theorem MidiOutCore.sendLoop_done (host : OutHost) (message : List Nat) (nBytes timeStamp : Nat)
    (fuel : Nat) (api : MidiOutCore) (calls : List SinkCall) (out : List Output) :
    MidiOutCore.sendLoop host message nBytes timeStamp (fuel + 1) 0 api calls out =
      .ok (api, calls, out) := rfl

/-- One round of the send loop when the packet is allocated: the chunk is
forwarded to every configured destination, each failure is reported as a
warning, and the loop goes on with the remaining bytes. -/
theorem MidiOutCore.sendLoop_round (host : OutHost) (message : List Nat) (nBytes timeStamp : Nat)
    (fuel r : Nat) (api : MidiOutCore) (calls : List SinkCall) (out : List Output)
    (hr : r ≠ 0) (halloc : host.packetListAdd (nBytes - r) = true) :
    ∃ text, MidiOutCore.sendLoop host message nBytes timeStamp (fuel + 1) r api calls out =
      MidiOutCore.sendLoop host message nBytes timeStamp fuel (r - min r 65535)
        { api with errorString_ := text }
        (calls ++ transmits api timeStamp ((message.drop (nBytes - r)).take (min r 65535)))
        (out ++ failureReports host api (nBytes - r)) := by
  have hmin : (if r > 65535 then 65535 else r) = min r 65535 := by
    split_ifs <;> omega
  obtain ⟨⟨c, es, cb, g, ud⟩, d⟩ := api
  by_cases he : d.endpoint ≠ 0
  · by_cases hs1 : host.received (nBytes - r) ≠ 0
    · by_cases hc : c = true
      · by_cases hs2 : host.send (nBytes - r) ≠ 0
        · refine ⟨"MidiOutCore::sendMessage: error sending MIDI message to port.", ?_⟩
          simp [MidiOutCore.sendLoop, hr, halloc, hmin, he, hs1, hc, hs2,
            MidiOutCore.report_warning, transmits, failureReports, warningOutput]
        · refine ⟨"MidiOutCore::sendMessage: error sending MIDI to virtual destinations.", ?_⟩
          simp [MidiOutCore.sendLoop, hr, halloc, hmin, he, hs1, hc, hs2,
            MidiOutCore.report_warning, transmits, failureReports, warningOutput]
      · refine ⟨"MidiOutCore::sendMessage: error sending MIDI to virtual destinations.", ?_⟩
        simp [MidiOutCore.sendLoop, hr, halloc, hmin, he, hs1, hc,
          MidiOutCore.report_warning, transmits, failureReports, warningOutput]
    · by_cases hc : c = true
      · by_cases hs2 : host.send (nBytes - r) ≠ 0
        · refine ⟨"MidiOutCore::sendMessage: error sending MIDI message to port.", ?_⟩
          simp [MidiOutCore.sendLoop, hr, halloc, hmin, he, hs1, hc, hs2,
            MidiOutCore.report_warning, transmits, failureReports, warningOutput]
        · refine ⟨es, ?_⟩
          simp [MidiOutCore.sendLoop, hr, halloc, hmin, he, hs1, hc, hs2,
            MidiOutCore.report_warning, transmits, failureReports, warningOutput]
      · refine ⟨es, ?_⟩
        simp [MidiOutCore.sendLoop, hr, halloc, hmin, he, hs1, hc,
          MidiOutCore.report_warning, transmits, failureReports, warningOutput]
  · by_cases hc : c = true
    · by_cases hs2 : host.send (nBytes - r) ≠ 0
      · refine ⟨"MidiOutCore::sendMessage: error sending MIDI message to port.", ?_⟩
        simp [MidiOutCore.sendLoop, hr, halloc, hmin, he, hc, hs2,
          MidiOutCore.report_warning, transmits, failureReports, warningOutput]
      · refine ⟨es, ?_⟩
        simp [MidiOutCore.sendLoop, hr, halloc, hmin, he, hc, hs2,
          MidiOutCore.report_warning, transmits, failureReports, warningOutput]
    · refine ⟨es, ?_⟩
      simp [MidiOutCore.sendLoop, hr, halloc, hmin, he, hc,
        MidiOutCore.report_warning, transmits, failureReports, warningOutput]

/-- One round of the send loop when the packet cannot be allocated: a
driver error is reported and the method returns. -/
theorem MidiOutCore.sendLoop_noalloc (host : OutHost) (message : List Nat)
    (nBytes timeStamp : Nat) (fuel r : Nat) (api : MidiOutCore) (calls : List SinkCall)
    (out : List Output) (hr : r ≠ 0) (halloc : host.packetListAdd (nBytes - r) = false) :
    MidiOutCore.sendLoop host message nBytes timeStamp (fuel + 1) r api calls out =
      match api.report ErrorType.DRIVER_ERROR
          "MidiOutCore::sendMessage: could not allocate packet list" with
      | .error e => .error e
      | .ok (api1, out1) => .ok (api1, calls, out ++ out1) := by
  simp [MidiOutCore.sendLoop, hr, halloc]

/-! ## Output: the chunks of a message -/

/-- Unfolding of `chunksFrom` on the empty list. -/
theorem chunksFrom_nil (k start : Nat) : chunksFrom k start [] = [] := by
  cases k <;> rfl

/-- Unfolding of `chunksFrom` on a non-empty list. -/
theorem chunksFrom_succ (k start : Nat) (rest : List Nat) (h : rest ≠ []) :
    chunksFrom (k + 1) start rest =
      (start, rest.take 65535) ::
        chunksFrom k (start + (rest.take 65535).length) (rest.drop 65535) := by
  simp [chunksFrom, h]

/-- The chunks of `rest` concatenate to `rest`; there are ceil(n / 65535)
of them, each of 1 to 65535 bytes, all but the last of 65535 bytes, and the
last of n - 65535 * (count - 1) bytes. -/
theorem chunksFrom_spec (k : Nat) :
    ∀ (start : Nat) (rest : List Nat), rest.length ≤ k →
      ((chunksFrom k start rest).map Prod.snd).flatten = rest ∧
      ((chunksFrom k start rest).map Prod.snd).length = (rest.length + 65534) / 65535 ∧
      (∀ c ∈ (chunksFrom k start rest).map Prod.snd, 1 ≤ c.length ∧ c.length ≤ 65535) ∧
      (∀ c ∈ ((chunksFrom k start rest).map Prod.snd).dropLast, c.length = 65535) ∧
      (∀ c, ((chunksFrom k start rest).map Prod.snd).getLast? = some c →
        c.length = rest.length - 65535 * (((chunksFrom k start rest).map Prod.snd).length - 1)) := by
  induction k with
  | zero =>
    intro start rest h
    have : rest = [] := List.length_eq_zero.mp (by omega)
    subst this
    simp [chunksFrom]
  | succ k ih =>
    intro start rest h
    by_cases hr : rest = []
    · subst hr
      simp [chunksFrom]
    · have hpos : 0 < rest.length := List.length_pos.mpr hr
      obtain ⟨i1, i2, i3, i4, i5⟩ := ih (start + (rest.take 65535).length) (rest.drop 65535)
        (by rw [List.length_drop]; omega)
      rw [chunksFrom_succ k start rest hr]
      simp only [List.map_cons, List.flatten_cons, List.length_cons, List.mem_cons,
        List.length_drop] at i1 i2 i3 i4 i5 ⊢
      have htl : (rest.take 65535).length = min 65535 rest.length := List.length_take _ _
      refine ⟨by rw [i1, List.take_append_drop], by rw [i2]; omega, ?_, ?_, ?_⟩
      · rintro c (rfl | hc)
        · rw [htl]; omega
        · exact i3 c hc
      · intro c hc
        cases hcs : (chunksFrom k (start + (rest.take 65535).length) (rest.drop 65535)).map
            Prod.snd with
        | nil => rw [hcs] at hc; simp at hc
        | cons x xs =>
          rw [hcs] at hc i2 i4
          simp only [List.dropLast_cons₂, List.mem_cons, List.length_cons] at hc i2
          rcases hc with rfl | hc
          · rw [htl]; omega
          · exact i4 c hc
      · intro c hc
        cases hcs : (chunksFrom k (start + (rest.take 65535).length) (rest.drop 65535)).map
            Prod.snd with
        | nil =>
          rw [hcs] at hc i2
          simp only [List.getLast?_singleton, Option.some.injEq, List.length_nil] at hc i2
          subst hc
          rw [htl]
          simp only [List.length_nil]
          omega
        | cons x xs =>
          rw [hcs] at hc i2 i5
          simp only [List.getLast?_cons_cons, List.length_cons] at hc i2 i5 ⊢
          have := i5 c hc
          omega

/-! ## Output: the whole send loop -/

/-- With every packet allocated and enough fuel, the send loop over the
bytes `rest` that follow the `pre.length` bytes already sent forwards the
chunks of `rest`, in order, each to every configured destination, reports
one warning per failed transmission, and returns. -/
theorem MidiOutCore.sendLoop_all (host : OutHost) (message : List Nat) (timeStamp : Nat)
    (halloc : ∀ off, host.packetListAdd off = true) (fuel : Nat) :
    ∀ (pre rest tail : List Nat) (api : MidiOutCore) (calls : List SinkCall)
      (out : List Output) (k : Nat),
      message = pre ++ rest ++ tail → (rest.length + 65534) / 65535 < fuel → rest.length ≤ k →
      ∃ text, MidiOutCore.sendLoop host message (pre.length + rest.length) timeStamp fuel
          rest.length api calls out =
        .ok ({ api with errorString_ := text },
          calls ++ (chunksFrom k pre.length rest).flatMap (fun p => transmits api timeStamp p.2),
          out ++ (chunksFrom k pre.length rest).flatMap (fun p => failureReports host api p.1)) := by
  induction fuel with
  | zero => intro pre rest tail api calls out k _ hf _; omega
  | succ fuel ih =>
    intro pre rest tail api calls out k hm hf hk
    by_cases hr : rest = []
    · subst hr
      refine ⟨api.errorString_, ?_⟩
      simp only [List.length_nil, MidiOutCore.sendLoop_done, chunksFrom_nil, List.flatMap_nil,
        List.append_nil]
    · have hpos : 0 < rest.length := List.length_pos.mpr hr
      obtain ⟨k, rfl⟩ : ∃ j, k = j + 1 := ⟨k - 1, by omega⟩
      have hstart : pre.length + rest.length - rest.length = pre.length := by omega
      obtain ⟨text1, e1⟩ := MidiOutCore.sendLoop_round host message (pre.length + rest.length)
        timeStamp fuel rest.length api calls out (by omega) (halloc _)
      have hchunk : (message.drop pre.length).take (min rest.length 65535) = rest.take 65535 := by
        rw [hm, List.append_assoc, List.drop_left,
          List.take_append_of_le_length (Nat.min_le_left _ _)]
        rcases Nat.le_total rest.length 65535 with h | h
        · rw [Nat.min_eq_left h, List.take_of_length_le (le_refl _), List.take_of_length_le h]
        · rw [Nat.min_eq_right h]
      have hlen : rest.length - min rest.length 65535 = (rest.drop 65535).length := by
        rw [List.length_drop]; omega
      have hpre : pre.length + rest.length =
          (pre ++ rest.take 65535).length + (rest.drop 65535).length := by
        rw [List.length_append, List.length_take, List.length_drop]; omega
      obtain ⟨text2, e2⟩ := ih (pre ++ rest.take 65535) (rest.drop 65535) tail
        { api with errorString_ := text1 }
        (calls ++ transmits api timeStamp (rest.take 65535))
        (out ++ failureReports host api pre.length) k
        (by rw [hm]; simp [List.append_assoc])
        (by rw [List.length_drop]; omega) (by rw [List.length_drop]; omega)
      refine ⟨text2, ?_⟩
      rw [e1, hstart, hchunk, hlen, hpre, e2, chunksFrom_succ k pre.length rest hr]
      simp only [List.flatMap_cons, List.append_assoc, List.length_append, transmits_text,
        failureReports_text]

/-- The calls to CoreMIDI made by the send loop do not depend on which
transmissions fail, nor on the text stored in `errorString_`. -/
theorem MidiOutCore.sendLoop_attempts (host : OutHost) (message : List Nat)
    (nBytes timeStamp : Nat) (fuel : Nat) :
    ∀ (r : Nat) (api : MidiOutCore) (calls : List SinkCall) (out1 out2 : List Output)
      (old : String),
      (MidiOutCore.sendLoop host message nBytes timeStamp fuel r api calls out1).map
          (fun x => x.2.1) =
        (MidiOutCore.sendLoop host.succeeding message nBytes timeStamp fuel r
          { api with errorString_ := old } calls out2).map (fun x => x.2.1) := by
  induction fuel with
  | zero => intro r api calls out1 out2 old; rfl
  | succ fuel ih =>
    intro r api calls out1 out2 old
    by_cases hr : r = 0
    · subst hr
      rfl
    · cases halloc : host.packetListAdd (nBytes - r) with
      | true =>
        obtain ⟨text1, e1⟩ := MidiOutCore.sendLoop_round host message nBytes timeStamp fuel r
          api calls out1 hr halloc
        obtain ⟨text2, e2⟩ := MidiOutCore.sendLoop_round host.succeeding message nBytes
          timeStamp fuel r { api with errorString_ := old } calls out2 hr halloc
        rw [e1, e2, transmits_text]
        exact ih _ { api with errorString_ := text1 } _ _ _ text2
      | false =>
        rw [MidiOutCore.sendLoop_noalloc host message nBytes timeStamp fuel r api calls out1 hr
            halloc,
          MidiOutCore.sendLoop_noalloc host.succeeding message nBytes timeStamp fuel r
            { api with errorString_ := old } calls out2 hr halloc,
          MidiOutCore.report_text api old ErrorType.DRIVER_ERROR
            "MidiOutCore::sendMessage: could not allocate packet list"]
        cases api.report ErrorType.DRIVER_ERROR
            "MidiOutCore::sendMessage: could not allocate packet list" with
        | error e => rfl
        | ok x => rfl

/-! ## Output: `sendMessage` -/

/-- A message whose size is 0 as an `unsigned int` is refused with the
warning "no data", and nothing is handed to CoreMIDI. -/
theorem MidiOutCore.sendMessage_no_data (fuel : Nat) (host : OutHost) (api : MidiOutCore)
    (message : List Nat) (h : message.length % UINT = 0) :
    MidiOutCore.sendMessage fuel host api message =
      .ok ({ api with errorString_ := "MidiOutCore::sendMessage: no data in message argument!" },
        [], warningOutput api "MidiOutCore::sendMessage: no data in message argument!") := by
  simp only [MidiOutCore.sendMessage, h, if_true, MidiOutCore.report_warning]

/-- A message that does not start with 0xF0 and whose size exceeds 3 is
refused with the warning "message format problem", and nothing is handed
to CoreMIDI. -/
theorem MidiOutCore.sendMessage_format (fuel : Nat) (host : OutHost) (api : MidiOutCore)
    (first : Nat) (rest : List Nat) (h0 : (first :: rest).length % UINT ≠ 0)
    (h1 : first ≠ 0xF0) (h2 : 3 < (first :: rest).length % UINT) :
    MidiOutCore.sendMessage fuel host api (first :: rest) =
      .ok ({ api with errorString_ :=
              "MidiOutCore::sendMessage: message format problem ... not sysex but > 3 bytes?" },
        [], warningOutput api
          "MidiOutCore::sendMessage: message format problem ... not sysex but > 3 bytes?") := by
  have hc : first ≠ 0xF0 ∧ (first :: rest).length % UINT > 3 := ⟨h1, h2⟩
  simp only [MidiOutCore.sendMessage, h0, if_false, List.getElem?_cons_zero]
  rw [if_pos hc]
  simp only [MidiOutCore.report_warning]

/-- Every other message enters the send loop with its size as an
`unsigned int`. -/
theorem MidiOutCore.sendMessage_loop (fuel : Nat) (host : OutHost) (api : MidiOutCore)
    (first : Nat) (rest : List Nat) (h0 : (first :: rest).length % UINT ≠ 0)
    (h1 : first = 0xF0 ∨ (first :: rest).length % UINT ≤ 3) :
    MidiOutCore.sendMessage fuel host api (first :: rest) =
      MidiOutCore.sendLoop host (first :: rest) ((first :: rest).length % UINT) host.now fuel
        ((first :: rest).length % UINT) api [] [] := by
  have hc : ¬ (first ≠ 0xF0 ∧ (first :: rest).length % UINT > 3) := by
    rintro ⟨a, b⟩
    rcases h1 with h1 | h1
    · exact a h1
    · omega
  simp only [MidiOutCore.sendMessage, h0, if_false, List.getElem?_cons_zero]
  rw [if_neg hc]

/-- An accepted message, every packet being allocated and the fuel being
enough: the chunks of its first `n` bytes, `n` its size as an `unsigned
int`, are forwarded in order, each to every configured destination, and
each failed transmission is reported as a warning. -/
theorem MidiOutCore.sendMessage_accepted (fuel : Nat) (host : OutHost) (api : MidiOutCore)
    (first : Nat) (rest : List Nat) (h0 : (first :: rest).length % UINT ≠ 0)
    (h1 : first = 0xF0 ∨ (first :: rest).length % UINT ≤ 3)
    (halloc : ∀ off, host.packetListAdd off = true)
    (hfuel : ((first :: rest).length % UINT + 65534) / 65535 < fuel) :
    ∃ text, MidiOutCore.sendMessage fuel host api (first :: rest) =
      .ok ({ api with errorString_ := text },
        (chunksFrom ((first :: rest).length % UINT) 0
            ((first :: rest).take ((first :: rest).length % UINT))).flatMap
          (fun p => transmits api host.now p.2),
        (chunksFrom ((first :: rest).length % UINT) 0
            ((first :: rest).take ((first :: rest).length % UINT))).flatMap
          (fun p => failureReports host api p.1)) := by
  have hle : (first :: rest).length % UINT ≤ (first :: rest).length := Nat.mod_le _ _
  have hlen : ((first :: rest).take ((first :: rest).length % UINT)).length
      = (first :: rest).length % UINT := by
    rw [List.length_take]; omega
  obtain ⟨text, e⟩ := MidiOutCore.sendLoop_all host (first :: rest) host.now halloc fuel []
    ((first :: rest).take ((first :: rest).length % UINT))
    ((first :: rest).drop ((first :: rest).length % UINT)) api [] []
    ((first :: rest).length % UINT)
    (by simp) (by rw [hlen]; exact hfuel) (by rw [hlen])
  refine ⟨text, ?_⟩
  rw [MidiOutCore.sendMessage_loop fuel host api first rest h0 h1]
  simp only [List.length_nil, Nat.zero_add, hlen, List.nil_append] at e
  exact e

/-- When no transmission fails there is no warning. -/
theorem failureReports_succeeding (host : OutHost) (api : MidiOutCore)
    (l : List (Nat × List Nat)) :
    l.flatMap (fun p => failureReports host.succeeding api p.1) = [] := by
  rw [List.flatMap_eq_nil_iff]
  intro x _
  simp [failureReports, OutHost.succeeding]

/-! ## Output: the claims about `sendMessage` -/

/-- C12 (counterexample): a sysex of 4294967296 bytes, all 0xF0, is not
empty and starts with 0xF0, yet sendMessage refuses it with the warning
"no data": its size is 0 once cast to `unsigned int`. -/
theorem MidiOutCore.sendMessage_refuses_long_sysex :
    List.replicate 4294967296 (0xF0 : Nat) ≠ [] ∧
    (List.replicate 4294967296 (0xF0 : Nat)).head? = some 0xF0 ∧
    MidiOutCore.sendMessage 1 (OutHost.ok 0)
        { MidiApi.new with apiData_ := ⟨5, 6, 7⟩, connected_ := true }
        (List.replicate 4294967296 (0xF0 : Nat)) =
      .ok ({ MidiApi.new with
              apiData_ := ⟨5, 6, 7⟩, connected_ := true, errorString_ := "MidiOutCore::sendMessage: no data in message argument!" },
        [], [Output.cerr ("\n" ++ "MidiOutCore::sendMessage: no data in message argument!" ++ "\n\n")]) := by
  have hlen : (List.replicate 4294967296 (0xF0 : Nat)).length % UINT = 0 := by
    rw [List.length_replicate]
    decide
  refine ⟨?_, ?_, ?_⟩
  · intro h
    have h1 := congrArg List.length h
    rw [List.length_replicate, List.length_nil] at h1
    exact absurd h1 (by decide)
  · rw [List.head?_replicate, if_neg (by decide)]
  · rw [MidiOutCore.sendMessage_no_data _ _ _ _ hlen]
    rfl

/-- C12 (amended): for every message of fewer than 2^32 bytes, sendMessage
refuses the message (it reports a warning and hands nothing to CoreMIDI)
when the message is empty and when its first byte is not 0xF0 and its
length exceeds 3, so that a 4-byte non-sysex message causes no sink call;
every other message, that is every non-empty one of length <= 3 or
starting with 0xF0, enters the send loop, and with every packet allocated
all its chunks, at least one, are forwarded to each configured destination. -/
theorem MidiOutCore.sendMessage_rejection (fuel : Nat) (host : OutHost) (api : MidiOutCore)
    (message : List Nat) (hU : message.length < UINT) :
    (message = [] →
      MidiOutCore.sendMessage fuel host api message =
        .ok ({ api with errorString_ := "MidiOutCore::sendMessage: no data in message argument!" }, [], warningOutput api "MidiOutCore::sendMessage: no data in message argument!")) ∧
    (∀ first rest, message = first :: rest → first ≠ 0xF0 → 3 < message.length →
      MidiOutCore.sendMessage fuel host api message =
        .ok ({ api with errorString_ := "MidiOutCore::sendMessage: message format problem ... not sysex but > 3 bytes?" }, [], warningOutput api "MidiOutCore::sendMessage: message format problem ... not sysex but > 3 bytes?")) ∧
    (∀ first rest, message = first :: rest → (first = 0xF0 ∨ message.length ≤ 3) →
      MidiOutCore.sendMessage fuel host api message =
        MidiOutCore.sendLoop host message message.length host.now fuel message.length api [] [] ∧
      ((∀ off, host.packetListAdd off = true) → (message.length + 65534) / 65535 < fuel →
        chunks message ≠ [] ∧
        ∃ text out, MidiOutCore.sendMessage fuel host api message =
          .ok ({ api with errorString_ := text },
            (chunks message).flatMap (transmits api host.now), out))) := by
  have hmod : message.length % UINT = message.length := Nat.mod_eq_of_lt hU
  refine ⟨?_, ?_, ?_⟩
  · intro h
    exact MidiOutCore.sendMessage_no_data fuel host api message (by rw [h]; rfl)
  · intro first rest hm h1 h2
    subst hm
    exact MidiOutCore.sendMessage_format fuel host api first rest
      (by rw [hmod]; simp) h1 (by rw [hmod]; exact h2)
  · intro first rest hm h1
    subst hm
    have h0 : (first :: rest).length % UINT ≠ 0 := by rw [hmod]; simp
    have h1b : first = 0xF0 ∨ (first :: rest).length % UINT ≤ 3 := by rw [hmod]; exact h1
    constructor
    · have e := MidiOutCore.sendMessage_loop fuel host api first rest h0 h1b
      rw [hmod] at e
      exact e
    · intro halloc hfuel
      obtain ⟨text, e⟩ := MidiOutCore.sendMessage_accepted fuel host api first rest h0 h1b halloc
        (by rw [hmod]; exact hfuel)
      rw [hmod, List.take_length] at e
      constructor
      · intro hc
        have hl := (chunksFrom_spec (first :: rest).length 0 (first :: rest) (le_refl _)).2.1
        unfold chunks at hc
        rw [hc] at hl
        simp only [List.length_nil, List.length_cons] at hl
        omega
      · exact ⟨text, _, by rw [e, chunks, List.flatMap_map]⟩

/-- Witness for C12: the 4-byte non-sysex message 90 40 7F 00 causes no
sink call; the message 90 40 7F enters the send loop. -/
theorem MidiOutCore.sendMessage_rejection_witness :
    MidiOutCore.sendMessage 2 (OutHost.ok 0)
        { MidiApi.new with apiData_ := ⟨5, 6, 7⟩, connected_ := true } [0x90, 0x40, 0x7F, 0] =
      .ok ({ MidiApi.new with apiData_ := ⟨5, 6, 7⟩, connected_ := true, errorString_ := "MidiOutCore::sendMessage: message format problem ... not sysex but > 3 bytes?" }, [],
        warningOutput { MidiApi.new with apiData_ := ⟨5, 6, 7⟩, connected_ := true } "MidiOutCore::sendMessage: message format problem ... not sysex but > 3 bytes?") ∧
    MidiOutCore.sendMessage 2 (OutHost.ok 0)
        { MidiApi.new with apiData_ := ⟨5, 6, 7⟩, connected_ := true } [0x90, 0x40, 0x7F] =
      MidiOutCore.sendLoop (OutHost.ok 0) [0x90, 0x40, 0x7F] 3 0 2 3
        { MidiApi.new with apiData_ := ⟨5, 6, 7⟩, connected_ := true } [] [] :=
  ⟨(MidiOutCore.sendMessage_rejection 2 (OutHost.ok 0)
      { MidiApi.new with apiData_ := ⟨5, 6, 7⟩, connected_ := true } [0x90, 0x40, 0x7F, 0]
      (by decide)).2.1 0x90 [0x40, 0x7F, 0] rfl (by decide) (by decide),
   ((MidiOutCore.sendMessage_rejection 2 (OutHost.ok 0)
      { MidiApi.new with apiData_ := ⟨5, 6, 7⟩, connected_ := true } [0x90, 0x40, 0x7F]
      (by decide)).2.2 0x90 [0x40, 0x7F] rfl (Or.inr (by decide))).1⟩

/-- C13 (counterexample): of the sysex F0 00 ... 00 of 4294967297 bytes,
accepted because it starts with 0xF0, sendMessage forwards the single
chunk F0 to each destination: its size is 1 once cast to `unsigned int`.
The chunks sent do not concatenate to the message. -/
theorem MidiOutCore.sendMessage_truncates_long_sysex :
    (0xF0 :: List.replicate 4294967296 (0 : Nat)).length = 4294967297 ∧
    (∃ text, MidiOutCore.sendMessage 2 (OutHost.ok 0)
        { MidiApi.new with apiData_ := ⟨5, 6, 7⟩, connected_ := true }
        (0xF0 :: List.replicate 4294967296 (0 : Nat)) =
      .ok ({ MidiApi.new with apiData_ := ⟨5, 6, 7⟩, connected_ := true, errorString_ := text },
        [SinkCall.received 6 0 [0xF0], SinkCall.send 5 7 0 [0xF0]], [])) ∧
    [[(0xF0 : Nat)]].flatten ≠ 0xF0 :: List.replicate 4294967296 (0 : Nat) ∧
    (1 : Nat) ≠ (4294967297 + 65534) / 65535 := by
  have hl : (0xF0 :: List.replicate 4294967296 (0 : Nat)).length = 4294967297 := by
    rw [List.length_cons, List.length_replicate]
  have hn : (0xF0 :: List.replicate 4294967296 (0 : Nat)).length % UINT = 1 := by
    rw [hl]
    decide
  refine ⟨hl, ?_, ?_, by decide⟩
  · obtain ⟨text, e⟩ := MidiOutCore.sendMessage_accepted 2 (OutHost.ok 0)
      { MidiApi.new with apiData_ := ⟨5, 6, 7⟩, connected_ := true } 0xF0
      (List.replicate 4294967296 (0 : Nat)) (by rw [hn]; decide) (Or.inl rfl)
      (fun _ => rfl) (by rw [hn]; decide)
    refine ⟨text, ?_⟩
    rw [e, hn]
    have ht : List.take 1 (0xF0 :: List.replicate 4294967296 (0 : Nat)) = [0xF0] := by
      rw [show (1 : Nat) = 0 + 1 from rfl, List.take_succ_cons, List.take_zero]
    rw [ht]
    rfl
  · intro h
    have h1 := congrArg List.length h
    have h2 : ([[(0xF0 : Nat)]].flatten).length = 1 := rfl
    rw [h2, hl] at h1
    exact absurd h1 (by decide)

/-- C13 (amended): for every accepted message of n < 2^32 bytes, every
packet being allocated, sendMessage produces exactly ceil(n / 65535)
chunks; every chunk but the last has 65535 bytes, the last has
n - 65535 * (count - 1) bytes, between 1 and 65535; the chunks concatenate
in send order to the message; each chunk is forwarded exactly once to each
configured destination; a message of 150000 bytes gives chunks of 65535,
65535 and 18930 bytes. -/
theorem MidiOutCore.sendMessage_chunks (fuel : Nat) (host : OutHost) (api : MidiOutCore)
    (first : Nat) (rest : List Nat) (hU : (first :: rest).length < UINT)
    (hacc : first = 0xF0 ∨ (first :: rest).length ≤ 3)
    (halloc : ∀ off, host.packetListAdd off = true)
    (hfuel : ((first :: rest).length + 65534) / 65535 < fuel) :
    (∃ text out, MidiOutCore.sendMessage fuel host api (first :: rest) =
      .ok ({ api with errorString_ := text },
        (chunks (first :: rest)).flatMap (transmits api host.now), out)) ∧
    (chunks (first :: rest)).flatten = first :: rest ∧
    (chunks (first :: rest)).length = ((first :: rest).length + 65534) / 65535 ∧
    (∀ c ∈ (chunks (first :: rest)).dropLast, c.length = 65535) ∧
    (∀ c, (chunks (first :: rest)).getLast? = some c →
      c.length = (first :: rest).length - 65535 * ((chunks (first :: rest)).length - 1) ∧
      1 ≤ c.length ∧ c.length ≤ 65535) ∧
    ((first :: rest).length = 150000 →
      (chunks (first :: rest)).map List.length = [65535, 65535, 18930]) := by
  have hmod : (first :: rest).length % UINT = (first :: rest).length := Nat.mod_eq_of_lt hU
  obtain ⟨s1, s2, s3, s4, s5⟩ :=
    chunksFrom_spec (first :: rest).length 0 (first :: rest) (le_refl _)
  have h0 : (first :: rest).length % UINT ≠ 0 := by rw [hmod]; simp
  obtain ⟨text, e⟩ := MidiOutCore.sendMessage_accepted fuel host api first rest h0
    (by rw [hmod]; exact hacc) halloc (by rw [hmod]; exact hfuel)
  rw [hmod, List.take_length] at e
  have hlast : ∀ c, (chunks (first :: rest)).getLast? = some c →
      c.length = (first :: rest).length - 65535 * ((chunks (first :: rest)).length - 1) ∧
      1 ≤ c.length ∧ c.length ≤ 65535 := by
    intro c hc
    have hmem : c ∈ chunks (first :: rest) := List.mem_of_getLast?_eq_some hc
    exact ⟨s5 c hc, s3 c hmem⟩
  refine ⟨⟨text, _, by rw [e, chunks, List.flatMap_map]⟩, s1, s2, s4, hlast, ?_⟩
  intro h150
  have hcount : (chunks (first :: rest)).length = 3 := by
    unfold chunks; rw [s2, h150]
  obtain ⟨a, b, c, habc⟩ := List.length_eq_three.mp hcount
  have ha : a.length = 65535 := s4 a (by unfold chunks at habc; rw [habc]; simp)
  have hb : b.length = 65535 := s4 b (by unfold chunks at habc; rw [habc]; simp)
  have hc := (hlast c (by rw [habc]; simp)).1
  rw [hcount, h150] at hc
  rw [habc]
  simp only [List.map_cons, List.map_nil, ha, hb, hc]

/-- Witness for C13: the 3-byte sysex F0 01 F7 is sent as one chunk. -/
theorem MidiOutCore.sendMessage_chunks_witness :
    (∃ text out, MidiOutCore.sendMessage 2 (OutHost.ok 0)
        { MidiApi.new with apiData_ := ⟨5, 6, 7⟩, connected_ := true } [0xF0, 1, 0xF7] =
      .ok ({ MidiApi.new with apiData_ := ⟨5, 6, 7⟩, connected_ := true, errorString_ := text },
        (chunks [0xF0, 1, 0xF7]).flatMap
          (transmits { MidiApi.new with apiData_ := ⟨5, 6, 7⟩, connected_ := true } 0), out)) ∧
    (chunks [0xF0, 1, 0xF7]).flatten = [0xF0, 1, 0xF7] ∧
    (chunks [0xF0, 1, 0xF7]).length = (3 + 65534) / 65535 :=
  have h := MidiOutCore.sendMessage_chunks 2 (OutHost.ok 0)
    { MidiApi.new with apiData_ := ⟨5, 6, 7⟩, connected_ := true } 0xF0 [1, 0xF7]
    (by decide) (Or.inl rfl) (fun _ => rfl) (by decide)
  ⟨h.1, h.2.1, h.2.2.1⟩

/-- C14: for every message and every pattern of failures of MIDIReceived
and MIDISend, the sequence of calls to CoreMIDI (chunk and destination)
made by sendMessage is the one made when every transmission succeeds; for
an accepted message, every packet being allocated, the method returns,
each failed transmission being reported as a warning and nothing more. -/
theorem MidiOutCore.sendMessage_failures (fuel : Nat) (host : OutHost) (api : MidiOutCore)
    (message : List Nat) :
    (MidiOutCore.sendMessage fuel host api message).map (fun x => x.2.1) =
      (MidiOutCore.sendMessage fuel host.succeeding api message).map (fun x => x.2.1) ∧
    (∀ first rest, message = first :: rest → message.length % UINT ≠ 0 →
      (first = 0xF0 ∨ message.length % UINT ≤ 3) →
      (∀ off, host.packetListAdd off = true) →
      (message.length % UINT + 65534) / 65535 < fuel →
      ∃ text text0,
        MidiOutCore.sendMessage fuel host api message =
          .ok ({ api with errorString_ := text },
            (chunksFrom (message.length % UINT) 0
                (message.take (message.length % UINT))).flatMap
              (fun p => transmits api host.now p.2),
            (chunksFrom (message.length % UINT) 0
                (message.take (message.length % UINT))).flatMap
              (fun p => failureReports host api p.1)) ∧
        MidiOutCore.sendMessage fuel host.succeeding api message =
          .ok ({ api with errorString_ := text0 },
            (chunksFrom (message.length % UINT) 0
                (message.take (message.length % UINT))).flatMap
              (fun p => transmits api host.now p.2), [])) := by
  constructor
  · by_cases h0 : message.length % UINT = 0
    · rw [MidiOutCore.sendMessage_no_data fuel host api message h0,
        MidiOutCore.sendMessage_no_data fuel host.succeeding api message h0]
    · cases message with
      | nil => exact absurd rfl h0
      | cons first rest =>
        by_cases h1 : first = 0xF0 ∨ (first :: rest).length % UINT ≤ 3
        · rw [MidiOutCore.sendMessage_loop fuel host api first rest h0 h1,
            MidiOutCore.sendMessage_loop fuel host.succeeding api first rest h0 h1]
          exact MidiOutCore.sendLoop_attempts host (first :: rest) _ host.now fuel _ api [] [] []
            api.errorString_
        · have h2 : first ≠ 0xF0 := fun h => h1 (Or.inl h)
          have h3 : 3 < (first :: rest).length % UINT := by
            by_contra hc
            exact h1 (Or.inr (by omega))
          rw [MidiOutCore.sendMessage_format fuel host api first rest h0 h2 h3,
            MidiOutCore.sendMessage_format fuel host.succeeding api first rest h0 h2 h3]
  · intro first rest hm h0 h1 halloc hfuel
    subst hm
    obtain ⟨text, e⟩ := MidiOutCore.sendMessage_accepted fuel host api first rest h0 h1 halloc
      hfuel
    obtain ⟨text0, e0⟩ := MidiOutCore.sendMessage_accepted fuel host.succeeding api first rest
      h0 h1 halloc hfuel
    rw [failureReports_succeeding] at e0
    exact ⟨text, text0, e, e0⟩

/-- Witness for C14: the message 90 40 7F on a host whose every
transmission fails is still handed to both destinations. -/
theorem MidiOutCore.sendMessage_failures_witness :
    ∃ text text0,
      MidiOutCore.sendMessage 2
          { now := 0, packetListAdd := fun _ => true, received := fun _ => 1, send := fun _ => 1 }
          { MidiApi.new with apiData_ := ⟨5, 6, 7⟩, connected_ := true } [0x90, 0x40, 0x7F] =
        .ok ({ MidiApi.new with apiData_ := ⟨5, 6, 7⟩, connected_ := true, errorString_ := text },
          [SinkCall.received 6 0 [0x90, 0x40, 0x7F], SinkCall.send 5 7 0 [0x90, 0x40, 0x7F]],
          [Output.cerr
            "\nMidiOutCore::sendMessage: error sending MIDI to virtual destinations.\n\n",
           Output.cerr "\nMidiOutCore::sendMessage: error sending MIDI message to port.\n\n"]) ∧
      MidiOutCore.sendMessage 2
          (OutHost.succeeding
            { now := 0, packetListAdd := fun _ => true, received := fun _ => 1,
              send := fun _ => 1 })
          { MidiApi.new with apiData_ := ⟨5, 6, 7⟩, connected_ := true } [0x90, 0x40, 0x7F] =
        .ok ({ MidiApi.new with apiData_ := ⟨5, 6, 7⟩, connected_ := true, errorString_ := text0 },
          [SinkCall.received 6 0 [0x90, 0x40, 0x7F], SinkCall.send 5 7 0 [0x90, 0x40, 0x7F]], []) :=
  (MidiOutCore.sendMessage_failures 2
    { now := 0, packetListAdd := fun _ => true, received := fun _ => 1, send := fun _ => 1 }
    { MidiApi.new with apiData_ := ⟨5, 6, 7⟩, connected_ := true } [0x90, 0x40, 0x7F]).2
    0x90 [0x40, 0x7F] rfl (by decide) (Or.inr (by decide)) (fun _ => rfl) (by decide)

/-! ## Packet parser: the message table -/

/-- For a status byte other than 0xF0 the if/else chain agrees with the table. -/
theorem classify_plain_table (packet : MIDIPacket) (nBytes iByte ignoreFlags : Nat) (cs : Bool)
    (status remainder : Nat) (h1 : 0x80 ≤ status) (h2 : status ≤ 0xFF) (hF0 : status ≠ 0xF0) :
    ∃ iByte1,
      classify packet nBytes iByte ignoreFlags cs status =
        .ok (specLength ignoreFlags status remainder, iByte1, cs) := by
  by_cases hF1 : status = 0xF1
  · subst hF1
    by_cases hf : ignoreFlags &&& 0x02 = 0 <;> simp [classify, specLength, hf]
  by_cases hF8 : status = 0xF8
  · subst hF8
    by_cases hf : ignoreFlags &&& 0x02 = 0 <;> simp [classify, specLength, hf]
  by_cases hFE : status = 0xFE
  · subst hFE
    by_cases hf : ignoreFlags &&& 0x04 = 0 <;> simp [classify, specLength, hf]
  interval_cases status
  all_goals first
    | exact ⟨_, rfl⟩
    | contradiction


/-- C21: for every status byte 0x80..0xFF and every ignore mask, the length
the scanner gives to a message that starts at a cursor inside the packet is
the one of the specification's table: 3 for 0x80-0xBF, 2 for 0xC0-0xDF, 3
for 0xE0-0xEF, the remainder of the packet for 0xF0 (0 if sysex is
ignored), 2 for 0xF1 (0 if time is ignored), 3 for 0xF2, 2 for 0xF3, 1 for
0xF8 (0 if time is ignored), 1 for 0xFE (0 if active sensing is ignored)
and 1 for every other status byte. -/
theorem classify_table (packet : MIDIPacket) (iByte ignoreFlags : Nat) (continueSysex : Bool)
    (status : Nat) (h1 : 0x80 ≤ status) (h2 : status ≤ 0xFF)
    (hi : iByte < packet.data.length) :
    ∃ iByte1 continueSysex1,
      classify packet packet.data.length iByte ignoreFlags continueSysex status =
        .ok (specLength ignoreFlags status (packet.data.length - iByte), iByte1, continueSysex1) := by
  by_cases hF0 : status = 0xF0
  · subst hF0
    have hw : wrapSub USHORT packet.data.length iByte = packet.data.length - iByte :=
      wrapSub_of_le _ _ _ (by omega)
    obtain ⟨x, hx⟩ := exists_last_byte packet.data (by intro h; rw [h] at hi; simp at hi)
    have e1 : ¬ ((0xF0 : Nat) < 0xC0) := by decide
    have e2 : ¬ ((0xF0 : Nat) < 0xE0) := by decide
    have e3 : ¬ ((0xF0 : Nat) < 0xF0) := by decide
    have e4 : ¬ ((0x80 : Nat) ≤ 0xF0 ∧ (0xF0 : Nat) ≤ 0xBF) := by decide
    have e5 : ¬ ((0xC0 : Nat) ≤ 0xF0 ∧ (0xF0 : Nat) ≤ 0xDF) := by decide
    have e6 : ¬ ((0xE0 : Nat) ≤ 0xF0 ∧ (0xF0 : Nat) ≤ 0xEF) := by decide
    simp only [classify, specLength, e1, e2, e3, e4, e5, e6, if_false, if_true,
      last_byte _ _ hx, hw]
    by_cases hs : ignoreFlags &&& 0x01 ≠ 0
    · rw [if_pos hs, if_pos hs]; exact ⟨_, _, rfl⟩
    · rw [if_neg hs, if_neg hs]; exact ⟨_, _, rfl⟩
  · obtain ⟨i1, h⟩ := classify_plain_table packet packet.data.length iByte ignoreFlags
      continueSysex status (packet.data.length - iByte) h1 h2 hF0
    exact ⟨i1, continueSysex, h⟩

/-- Witness for C21: an ignored timing tick in the middle of a packet. -/
theorem classify_table_witness :
    ∃ iByte1 continueSysex1,
      classify ⟨0, [0x90, 0x40, 0x7F, 0xF8]⟩ 4 3 7 false 0xF8 =
        .ok (specLength 7 0xF8 (4 - 3), iByte1, continueSysex1) :=
  classify_table ⟨0, [0x90, 0x40, 0x7F, 0xF8]⟩ 3 7 false 0xF8 (by decide) (by decide) (by decide)

/-! ## Packet parser: whole packets under any mask -/

/-- The loop is the iteration of its body. -/
theorem scan_step (packet : MIDIPacket) (nBytes fuel : Nat) (s : Scan) :
    scan packet nBytes (fuel + 1) s =
      match scanStep packet nBytes s with
      | .error e => .error e
      | .ok none => .ok s
      | .ok (some s1) => scan packet nBytes fuel s1 := by
  rw [scan_succ]
  unfold scanStep
  by_cases h1 : s.iByte < nBytes
  · simp only [h1, if_true]
    cases h2 : packet.data[s.iByte]? with
    | none => rfl
    | some status =>
      by_cases h3 : status &&& 0x80 = 0
      · simp only [h3, if_true]
      · simp only [h3, if_false]
        cases h4 : classify packet nBytes s.iByte s.data.ignoreFlags s.data.continueSysex status with
        | error e => rfl
        | ok r =>
          obtain ⟨size, iByte, cs⟩ := r
          by_cases h5 : size = 0
          · simp only [h5, ne_eq, not_true_eq_false, if_false]
          · by_cases h6 : iByte + size ≤ packet.data.length
            · simp only [h5, ne_eq, not_false_eq_true, if_true, h6]
            · simp only [h5, ne_eq, not_false_eq_true, if_true, h6, if_false]
  · simp only [h1, if_false]

/-- For a filtered status byte other than 0xF0 the if/else chain yields no
message and moves the cursor past the length of the message table. -/
theorem classify_filtered (packet : MIDIPacket) (nBytes iByte ignoreFlags : Nat) (cs : Bool)
    (status : Nat) (h3 : status ≠ 0xF0) (h4 : filtered ignoreFlags status = true) :
    classify packet nBytes iByte ignoreFlags cs status =
      .ok (0, (iByte + statusLength status) % USHORT, cs) := by
  simp only [filtered, decide_eq_true_eq] at h4
  rcases h4 with ⟨h, _⟩ | ⟨h | h, hf⟩ | ⟨h, hf⟩
  · exact absurd h h3
  · subst h; simp [classify, statusLength, hf]
  · subst h; simp [classify, statusLength, hf]
  · subst h; simp [classify, statusLength, hf]

/-- No message, no invocation. -/
theorem emitted_nil (d : MacMidiInData) : emitted d [] = [] := by
  unfold emitted; split_ifs <;> rfl

/-- The scan of a run of complete non-sysex messages, filtered or not: one
iteration per message, an invocation for each message the mask lets
through, and the cursor ends behind the run. -/
theorem scan_plain (packet : MIDIPacket) (hlen : packet.data.length < USHORT)
    (ms : List (List Nat)) :
    ∀ (pre rest : List Nat) (fuel : Nat) (s : Scan),
      packet.data = pre ++ (ms.flatten ++ rest) → s.iByte = pre.length →
      (∀ m ∈ ms, plainMessage m = true) → s.data.continueSysex = false →
      scan packet packet.data.length (fuel + ms.length) s =
      scan packet packet.data.length fuel
        { iByte := pre.length + ms.flatten.length
          data := if ms.any (passes s.data.ignoreFlags) then
                    { s.data with message := { s.data.message with bytes := [] } }
                  else s.data
          foundNonFiltered := s.foundNonFiltered || ms.any (passes s.data.ignoreFlags)
          calls := s.calls ++ emitted s.data (ms.filter (passes s.data.ignoreFlags)) } := by
  induction ms with
  | nil =>
    intro pre rest fuel s _ hi _ _
    obtain ⟨i, d, found, calls⟩ := s
    simp only at hi
    subst hi
    simp [emitted_nil]
  | cons m ms ih =>
    intro pre rest fuel s hd hi hms hcs
    obtain ⟨i, d, found, calls⟩ := s
    simp only at hi hcs
    subst hi
    have hm := hms m (List.mem_cons_self _ _)
    cases m with
    | nil => simp [plainMessage] at hm
    | cons status tail =>
      simp only [plainMessage, decide_eq_true_eq, List.length_cons] at hm
      obtain ⟨h1, h2, h3, h4⟩ := hm
      have hd2 : packet.data = (pre ++ status :: tail) ++ (ms.flatten ++ rest) := by
        rw [hd]; simp
      have hget : packet.data[pre.length]? = some status := by
        rw [hd, List.getElem?_append_right (le_refl _)]; simp
      have hlt : pre.length < packet.data.length := by
        rw [hd]; simp
      have hfit : pre.length + statusLength status ≤ packet.data.length := by
        rw [hd, ← h4]; simp
      have hbytes : (packet.data.drop pre.length).take (statusLength status) = status :: tail := by
        rw [hd, ← h4]; simp
      have hsz : statusLength status ≠ 0 := by omega
      have hmod : (pre.length + statusLength status) % USHORT = (pre ++ status :: tail).length := by
        rw [Nat.mod_eq_of_lt (by omega), ← h4]; simp
      have hfl : fuel + (ms.length + 1) = (fuel + ms.length) + 1 := by omega
      rw [List.length_cons, hfl, scan_succ]
      simp only [if_pos hlt, hget, if_neg (status_high_bit status h1 h2)]
      cases hp : filtered d.ignoreFlags status with
      | false =>
        simp only [classify_complete packet _ pre.length _ _ status h1 h2 h3 hp, hsz, ne_eq,
          not_false_eq_true, if_true, hfit, hcs, Bool.not_false, hbytes, hmod]
        rw [ih (pre ++ status :: tail) rest fuel _ hd2 rfl
          (fun m hm => hms m (List.mem_cons_of_mem _ hm)) rfl]
        congr 1
        have hpass : passes d.ignoreFlags (status :: tail) = true := by
          simp [passes, hp]
        simp only [deliver, List.any_cons, hpass, Bool.true_or, if_true, Bool.or_true,
          List.filter_cons, List.flatten_cons, List.length_append, List.length_cons]
        refine Scan.mk.injEq .. ▸ ⟨by omega, ?_, rfl, ?_⟩
        · split_ifs <;> rfl
        · unfold emitted
          cases d.usingCallback <;> simp
      | true =>
        simp only [classify_filtered packet _ pre.length _ _ status h3 hp, ne_eq,
          not_true_eq_false, if_false, hmod]
        rw [ih (pre ++ status :: tail) rest fuel _ hd2 rfl
          (fun m hm => hms m (List.mem_cons_of_mem _ hm)) hcs]
        congr 1
        have hpass : passes d.ignoreFlags (status :: tail) = false := by
          simp [passes, hp]
        simp only [List.any_cons, hpass, Bool.false_or, List.filter_cons,
          List.flatten_cons, List.length_append, List.length_cons]
        refine Scan.mk.injEq .. ▸ ⟨by omega, ?_, rfl, ?_⟩
        · rfl
        · simp


/-- The scan stops at a byte whose high bit is clear. -/
theorem data_byte_low (b : Nat) (h : b < 0x80) : b &&& 0x80 = 0 := by
  interval_cases b <;> decide

/-- The loop is left at a byte whose high bit is clear. -/
theorem scan_break (packet : MIDIPacket) (fuel : Nat) (s : Scan) (b : Nat)
    (hget : packet.data[s.iByte]? = some b) (hb : b < 0x80) :
    scan packet packet.data.length (fuel + 1) s = .ok s := by
  rw [scan_succ]
  by_cases h : s.iByte < packet.data.length
  · simp only [if_pos h, hget, data_byte_low b hb, if_true]
  · rw [if_neg h]

/-- The scan from a cursor at the start of a sysex: if sysex is ignored the
cursor jumps to the end of the packet, otherwise the rest of the packet is
copied, and delivered iff the last byte of the packet is 0xF7. -/
theorem scan_sysex_at (packet : MIDIPacket) (pre r : List Nat) (x : Nat) (fuel : Nat) (s : Scan)
    (hd : packet.data = pre ++ 0xF0 :: r) (hlen : packet.data.length < USHORT)
    (hi : s.iByte = pre.length) (hx : packet.data.getLast? = some x) :
    scan packet packet.data.length (fuel + 2) s =
      .ok (if s.data.ignoreFlags &&& 0x01 ≠ 0 then
             { s with iByte := packet.data.length,
                      data := { s.data with continueSysex := x != 0xF7 } }
           else
             { iByte := packet.data.length
               data := (if (x != 0xF7) = false then
                          deliver { s.data with continueSysex := false,
                                                message := { s.data.message with bytes := 0xF0 :: r } }
                            s.calls
                        else ({ s.data with continueSysex := true,
                                            message := { s.data.message with bytes := 0xF0 :: r } },
                              s.calls)).1
               foundNonFiltered := true
               calls := (if (x != 0xF7) = false then
                          deliver { s.data with continueSysex := false,
                                                message := { s.data.message with bytes := 0xF0 :: r } }
                            s.calls
                        else ({ s.data with continueSysex := true,
                                            message := { s.data.message with bytes := 0xF0 :: r } },
                              s.calls)).2 }) := by
  obtain ⟨i, d, found, calls⟩ := s
  simp only at hi
  subst hi
  have hlt : pre.length < packet.data.length := by rw [hd]; simp
  have hget : packet.data[pre.length]? = some 0xF0 := by
    rw [hd, List.getElem?_append_right (le_refl _)]; simp
  have hbit : (0xF0 : Nat) &&& 0x80 ≠ 0 := by decide
  have e1 : ¬ ((0xF0 : Nat) < 0xC0) := by decide
  have e2 : ¬ ((0xF0 : Nat) < 0xE0) := by decide
  have e3 : ¬ ((0xF0 : Nat) < 0xF0) := by decide
  have hw : wrapSub USHORT packet.data.length pre.length = packet.data.length - pre.length :=
    wrapSub_of_le _ _ _ (by omega)
  have hmod : packet.data.length % USHORT = packet.data.length := Nat.mod_eq_of_lt hlen
  have hsz : packet.data.length - pre.length ≠ 0 := by omega
  have hsum : pre.length + (packet.data.length - pre.length) = packet.data.length := by omega
  have hbytes : (packet.data.drop pre.length).take (packet.data.length - pre.length) = 0xF0 :: r := by
    rw [hd]; simp
  rw [scan_succ]
  by_cases hs : d.ignoreFlags &&& 0x01 ≠ 0
  · have hcl : classify packet packet.data.length pre.length d.ignoreFlags d.continueSysex 0xF0
        = .ok (0, packet.data.length, x != 0xF7) := by
      simp only [classify, e1, e2, e3, if_false, if_true, last_byte _ _ hx, hs, ne_eq,
        not_false_eq_true]
    simp only [hlt, if_true, hget, hbit, if_false, hcl, ne_eq, not_true_eq_false, hs,
      not_false_eq_true]
    rw [scan_done]
    exact le_refl _
  · have hcl : classify packet packet.data.length pre.length d.ignoreFlags d.continueSysex 0xF0
        = .ok (packet.data.length - pre.length, pre.length, x != 0xF7) := by
      simp only [classify, e1, e2, e3, if_false, if_true, last_byte _ _ hx, hs, hw]
    simp only [hlt, if_true, hget, hbit, if_false, hcl, hsz, ne_eq, not_false_eq_true,
      hsum, le_refl, hbytes, hmod, hs]
    rw [scan_done]
    · cases hb : (x != 0xF7) <;> simp
    · exact le_refl _


/-- The scan of a run of complete non-sysex messages writes nothing but
`message.bytes`. -/
theorem scan_plain_frame (packet : MIDIPacket) (hlen : packet.data.length < USHORT)
    (ms : List (List Nat)) (rest : List Nat) (fuel : Nat) (d : MacMidiInData)
    (hd : packet.data = ms.flatten ++ rest)
    (hms : ∀ m ∈ ms, plainMessage m = true) (hcs : d.continueSysex = false) :
    ∃ D, scan packet packet.data.length (fuel + ms.length)
          { iByte := 0, data := d, foundNonFiltered := false, calls := [] } =
        scan packet packet.data.length fuel
          { iByte := ms.flatten.length, data := D
            foundNonFiltered := ms.any (passes d.ignoreFlags)
            calls := emitted d (ms.filter (passes d.ignoreFlags)) } ∧
      D.continueSysex = false ∧ D.ignoreFlags = d.ignoreFlags ∧
      D.usingCallback = d.usingCallback ∧ D.userCallback = d.userCallback ∧
      D.userData = d.userData ∧ D.queue = d.queue ∧ D.apiData = d.apiData ∧
      D.firstMessage = d.firstMessage ∧ D.message.timeStamp = d.message.timeStamp := by
  have hrun := scan_plain packet hlen ms [] rest fuel
    { iByte := 0, data := d, foundNonFiltered := false, calls := [] }
    (by rw [hd]; rfl) rfl hms hcs
  simp only [List.length_nil, Nat.zero_add, Bool.false_or, List.nil_append] at hrun
  refine ⟨_, hrun, ?_⟩
  cases ms.any (passes d.ignoreFlags) <;> simp [hcs]

/-- The scan of a whole packet made of complete non-sysex messages and a
tail: it returns, having invoked the callback for the messages the mask
lets through and for a whole sysex that is not ignored. -/
theorem scan_parsed (packet : MIDIPacket) (P : List (List Nat)) (tail : List Nat)
    (fuel : Nat) (d : MacMidiInData)
    (hd : packet.data = P.flatten ++ tail)
    (hP : ∀ m ∈ P, plainMessage m = true) (ht : packetTail tail = true)
    (hlen : packet.data.length < USHORT)
    (hcs : d.continueSysex = false) (hf : P.length + 2 ≤ fuel) :
    ∃ s1, scan packet packet.data.length fuel
        { iByte := 0, data := d, foundNonFiltered := false, calls := [] } = .ok s1 ∧
      s1.calls = emitted d (passing d.ignoreFlags P tail) ∧
      s1.foundNonFiltered = (P.any (passes d.ignoreFlags) || sysexFound d.ignoreFlags tail) ∧
      s1.data.continueSysex = sysexOpen tail ∧
      s1.data.ignoreFlags = d.ignoreFlags ∧ s1.data.usingCallback = d.usingCallback ∧
      s1.data.userCallback = d.userCallback ∧ s1.data.userData = d.userData ∧
      s1.data.queue = d.queue ∧ s1.data.apiData = d.apiData ∧
      s1.data.firstMessage = d.firstMessage := by
  obtain ⟨f, rfl⟩ : ∃ f, fuel = (f + 2) + P.length := ⟨fuel - P.length - 2, by omega⟩
  obtain ⟨D, hrun, g1, g2, g3, g4, g5, g6, g7, g8, g9⟩ :=
    scan_plain_frame packet hlen P tail (f + 2) d hd hP hcs
  rw [hrun]
  cases tail with
  | nil =>
    rw [scan_done _ _ _ _ (by rw [hd]; simp)]
    refine ⟨_, rfl, ?_, ?_, ?_, g2, g3, g4, g5, g6, g7, g8⟩
    · simp [passing, sysexFound]
    · simp [sysexFound]
    · simp [sysexOpen, g1]
  | cons b R =>
    simp only [packetTail, decide_eq_true_eq] at ht
    by_cases hb : b < 0x80
    · rw [scan_break packet (f + 1) _ b (by
        rw [hd, List.getElem?_append_right (le_refl _)]; simp) hb]
      have hb0 : b ≠ 0xF0 := by omega
      refine ⟨_, rfl, ?_, ?_, ?_, g2, g3, g4, g5, g6, g7, g8⟩
      · simp [passing, sysexFound, hb0]
      · simp [sysexFound, hb0]
      · simp [sysexOpen, g1, hb0]
    · have hb0 : b = 0xF0 := by omega
      subst hb0
      obtain ⟨x, hx⟩ := exists_last_byte packet.data (by rw [hd]; simp)
      have hxt : (0xF0 :: R).getLast? = some x := by
        rw [hd, List.getLast?_append_of_ne_nil _ (by simp)] at hx; exact hx
      rw [scan_sysex_at packet P.flatten R x f _ hd hlen rfl hx]
      simp only [g2]
      by_cases hs : d.ignoreFlags &&& 0x01 ≠ 0
      · rw [if_pos hs]
        have hs2 : ¬ (d.ignoreFlags % 2 = 0) := by simpa using hs
        refine ⟨_, rfl, ?_, ?_, ?_, rfl, g3, g4, g5, g6, g7, g8⟩
        · simp [passing, sysexFound, hs2]
        · simp [sysexFound, hs2]
        · simp only [sysexOpen, hxt, List.head?_cons, true_and]
          by_cases h7 : x = 0xF7 <;> simp [h7]
      · rw [if_neg hs]
        have hs2 : d.ignoreFlags &&& 0x01 = 0 := by simpa using hs
        have hs3 : d.ignoreFlags % 2 = 0 := by simpa using hs2
        by_cases h7 : x = 0xF7
        · subst h7
          have hbf : ((0xF7 : Nat) != 0xF7) = false := by decide
          simp only [hbf, if_true]
          refine ⟨_, rfl, ?_, ?_, ?_, ?_, ?_, ?_, ?_, ?_, ?_, ?_⟩
          · simp only [passing, sysexFound, sysexDone, hs2, hxt, List.head?_cons, and_self,
              decide_True, Bool.and_self, if_true]
            unfold emitted deliver
            simp only [g3, g4, g5, g9]
            cases d.usingCallback <;> simp
          · simp [sysexFound, hs3]
          · simp [deliver, sysexOpen, hxt]
          · simp [deliver]
          · simp [deliver, g3]
          · simp [deliver, g4]
          · simp [deliver, g5]
          · simp [deliver, g6]
          · simp [deliver, g7]
          · simp [deliver, g8]
        · have hbt : (x != 0xF7) = true := by simpa using h7
          simp only [hbt, Bool.true_eq_false, if_false]
          have hx7 : (0xF0 :: R).getLast? ≠ some 0xF7 := by
            rw [hxt]; simpa using h7
          refine ⟨_, rfl, ?_, ?_, ?_, rfl, g3, g4, g5, g6, g7, g8⟩
          · simp [passing, sysexDone, hx7]
          · simp [sysexFound, hs3]
          · simp [sysexOpen, hx7]

/-! ## Packet parser: one packet of complete messages -/

/-- A run of complete non-sysex messages with no bytes is the empty run. -/
theorem plain_flatten_nil (P : List (List Nat)) (hP : ∀ m ∈ P, plainMessage m = true)
    (h : P.flatten = []) : P = [] := by
  cases P with
  | nil => rfl
  | cons m P =>
    have hm := hP m (List.mem_cons_self _ _)
    cases m with
    | nil => simp [plainMessage] at hm
    | cons a t => simp at h

/-- One packet made of complete non-sysex messages and a tail, outside a
sysex continuation: the callback invocations, the continuation flag and
`lastTime` after it. -/
theorem handlePacket_parsed (fuel : Nat) (host : Host) (data : MacMidiInData) (ts : Nat)
    (P : List (List Nat)) (tail : List Nat)
    (hP : ∀ m ∈ P, plainMessage m = true) (ht : packetTail tail = true)
    (hlen : (P.flatten ++ tail).length < USHORT)
    (hcs : data.continueSysex = false) (hf : P.length + 2 ≤ fuel) :
    ∃ d1, handlePacket fuel host data ⟨ts, P.flatten ++ tail⟩ =
        .ok (d1, emitted (calcTimeStamp host data ⟨ts, P.flatten ++ tail⟩)
                   (passing data.ignoreFlags P tail)) ∧
      d1.continueSysex = sysexOpen tail ∧
      d1.apiData.lastTime =
        (if (P.any (passes data.ignoreFlags) || sysexFound data.ignoreFlags tail) = true
         then packetTick host ts else data.apiData.lastTime) ∧
      d1.ignoreFlags = data.ignoreFlags ∧ d1.usingCallback = data.usingCallback ∧
      d1.userCallback = data.userCallback ∧ d1.userData = data.userData ∧
      d1.queue = data.queue := by
  by_cases hne : P.flatten ++ tail = []
  · obtain ⟨hPf, htl⟩ := List.append_eq_nil.mp hne
    have hPn := plain_flatten_nil P hP hPf
    subst hPn htl
    refine ⟨data, ?_, ?_, ?_, rfl, rfl, rfl, rfl, rfl⟩
    · simp [handlePacket, passing, sysexFound, emitted_nil]
    · simp [sysexOpen, hcs]
    · simp [sysexFound]
  · obtain ⟨f1, f2, f3, f4, f5, _, f7, f8, f9⟩ :=
      calcTimeStamp_frame host data ⟨ts, P.flatten ++ tail⟩
    obtain ⟨s1, hs, c1, c2, c3, c4, c5, c6, c7, c8, c9, _⟩ :=
      scan_parsed ⟨ts, P.flatten ++ tail⟩ P tail fuel
        (calcTimeStamp host data ⟨ts, P.flatten ++ tail⟩) rfl hP ht hlen (by rw [f1]; exact hcs) hf
    have hpos : (P.flatten ++ tail).length ≠ 0 := by
      intro h; exact hne (List.length_eq_zero.mp h)
    simp only at hs
    rw [f2] at c1 c2
    simp only [handlePacket, hpos, if_false, f1, hcs, Bool.false_eq_true, hs, c2]
    by_cases hfound : (P.any (passes data.ignoreFlags) || sysexFound data.ignoreFlags tail) = true
    · simp only [hfound, if_true]
      refine ⟨{ s1.data with apiData := { s1.data.apiData with
                  lastTime := if ts = 0 then host.now else ts } },
        by rw [c1], c3, ?_, ?_, ?_, ?_, ?_, ?_⟩
      · simp [packetTick]
      · simp [c4, f2]
      · simp [c5, f3]
      · simp [c6, f4]
      · simp [c7, f5]
      · simp [c8, f7]
    · simp only [hfound, Bool.false_eq_true, if_false]
      refine ⟨s1.data, by rw [c1], c3, ?_, ?_, ?_, ?_, ?_, ?_⟩
      · rw [c9, f8]
      · rw [c4, f2]
      · rw [c5, f3]
      · rw [c6, f4]
      · rw [c7, f5]
      · rw [c8, f7]

/-- The time stamp block does not look at the bytes of the packet. -/
theorem calcTimeStamp_data (host : Host) (data : MacMidiInData) (ts : Nat) (a b : List Nat) :
    calcTimeStamp host data ⟨ts, a⟩ = calcTimeStamp host data ⟨ts, b⟩ := rfl

/-- The invocations do not depend on the ignore mask of the stream. -/
theorem emitted_calcTimeStamp_mask (host : Host) (data : MacMidiInData) (packet : MIDIPacket)
    (m : Nat) (ms : List (List Nat)) :
    emitted (calcTimeStamp host { data with ignoreFlags := m } packet) ms =
      emitted (calcTimeStamp host data packet) ms := by
  unfold emitted calcTimeStamp
  cases data.firstMessage <;> cases data.continueSysex <;> simp

/-- The empty mask filters nothing. -/
theorem passes_zero (m : List Nat) : passes 0 m = true := by
  simp [passes, filtered]

/-- Removing from the invocations those whose message the mask filters is
invoking for the messages the mask lets through. -/
theorem emitted_filter (d : MacMidiInData) (m : Nat) (ms : List (List Nat)) :
    (emitted d ms).filter (fun c => !filtered m (c.bytes.headD 0)) =
      emitted d (ms.filter (passes m)) := by
  unfold emitted
  cases d.usingCallback
  · simp
  · simp only [if_true, List.filter_map]
    congr 1

/-- The messages that reach the callback under a mask are those that reach
it under the empty mask and that the mask lets through. -/
theorem passing_filter (m : Nat) (P : List (List Nat)) (tail : List Nat) :
    (passing 0 P tail).filter (passes m) = passing m P tail := by
  have h0 : P.filter (passes 0) = P := by
    rw [List.filter_eq_self]; intro a _; exact passes_zero a
  unfold passing
  rw [h0, List.filter_append]
  congr 1
  cases tail with
  | nil => simp [sysexFound]
  | cons b R =>
    by_cases hb : b = 0xF0
    · subst hb
      by_cases hm : m &&& 0x01 = 0
      · have hm2 : m % 2 = 0 := by simpa using hm
        by_cases hdone : sysexDone (0xF0 :: R) = true
        · simp [sysexFound, hdone, passes, filtered, hm2]
        · simp [sysexFound, hdone, passes, filtered, hm2]
      · have hm2 : ¬ m % 2 = 0 := by simpa using hm
        by_cases hdone : sysexDone (0xF0 :: R) = true
        · simp [sysexFound, hdone, passes, filtered, hm2]
        · simp [sysexFound, hdone, passes, filtered, hm2]
    · simp [sysexFound, hb]

/-- C22: for a packet that is a concatenation of complete messages (complete
non-sysex messages, then possibly a sysex, which takes the rest of the
packet), processed with continueSysex false, and every ignore mask m, the
invocations made under m are those made under the empty mask with exactly
those removed whose message starts with 0xF0 if m ignores sysex, 0xF1 or
0xF8 if m ignores time, 0xFE if m ignores active sensing; the remaining
invocations keep their bytes, time stamp and order. -/
theorem handlePacket_mask_refinement (fuel : Nat) (host : Host) (data : MacMidiInData)
    (ts : Nat) (P : List (List Nat)) (tail : List Nat) (m : Nat)
    (hP : ∀ msg ∈ P, plainMessage msg = true) (ht : packetTail tail = true)
    (hlen : (P.flatten ++ tail).length < USHORT)
    (hcs : data.continueSysex = false) (hf : P.length + 2 ≤ fuel) :
    ∃ d0 dm calls,
      handlePacket fuel host { data with ignoreFlags := 0 } ⟨ts, P.flatten ++ tail⟩ =
        .ok (d0, calls) ∧
      handlePacket fuel host { data with ignoreFlags := m } ⟨ts, P.flatten ++ tail⟩ =
        .ok (dm, calls.filter (fun c => !filtered m (c.bytes.headD 0))) := by
  obtain ⟨d0, h0, _⟩ := handlePacket_parsed fuel host { data with ignoreFlags := 0 } ts P tail
    hP ht hlen hcs hf
  obtain ⟨dm, hm, _⟩ := handlePacket_parsed fuel host { data with ignoreFlags := m } ts P tail
    hP ht hlen hcs hf
  rw [emitted_calcTimeStamp_mask] at h0 hm
  refine ⟨d0, dm, _, h0, ?_⟩
  rw [hm, emitted_filter, passing_filter]

/-- Witness for C22: with the callback 1 in use, a note-on between a timing
tick and an active sensing byte, then a whole sysex. Under the empty mask
the callback receives all four messages; under the mask that ignores
everything it receives the note-on alone, with the same bytes and time
stamp. -/
theorem handlePacket_mask_refinement_witness :
    ∃ d0 dm calls,
      handlePacket 5 (Host.plain 1)
        { ({ MacMidiInData.new 100 0 with
              usingCallback := true, userCallback := 1, userData := 9 } : MacMidiInData) with
          ignoreFlags := 0 }
        ⟨9, [[0xF8], [0x90, 0x40, 0x7F], [0xFE]].flatten ++ [0xF0, 0x01, 0xF7]⟩ = .ok (d0, calls) ∧
      handlePacket 5 (Host.plain 1)
        { ({ MacMidiInData.new 100 0 with
              usingCallback := true, userCallback := 1, userData := 9 } : MacMidiInData) with
          ignoreFlags := 7 }
        ⟨9, [[0xF8], [0x90, 0x40, 0x7F], [0xFE]].flatten ++ [0xF0, 0x01, 0xF7]⟩ =
        .ok (dm, calls.filter (fun c => !filtered 7 (c.bytes.headD 0))) ∧
      calls = [{ callback := 1, timeStamp := 0, bytes := [0xF8], userData := 9 },
               { callback := 1, timeStamp := 0, bytes := [0x90, 0x40, 0x7F], userData := 9 },
               { callback := 1, timeStamp := 0, bytes := [0xFE], userData := 9 },
               { callback := 1, timeStamp := 0, bytes := [0xF0, 0x01, 0xF7], userData := 9 }] ∧
      calls.filter (fun c => !filtered 7 (c.bytes.headD 0)) =
        [{ callback := 1, timeStamp := 0, bytes := [0x90, 0x40, 0x7F], userData := 9 }] := by
  obtain ⟨d0, dm, calls, h0, hm⟩ := handlePacket_mask_refinement 5 (Host.plain 1)
    { MacMidiInData.new 100 0 with usingCallback := true, userCallback := 1, userData := 9 } 9
    [[0xF8], [0x90, 0x40, 0x7F], [0xFE]] [0xF0, 0x01, 0xF7] 7
    (by decide) (by decide) (by decide) rfl (by decide)
  have e : ∃ d, handlePacket 5 (Host.plain 1)
      { ({ MacMidiInData.new 100 0 with
            usingCallback := true, userCallback := 1, userData := 9 } : MacMidiInData) with
        ignoreFlags := 0 }
      ⟨9, [[0xF8], [0x90, 0x40, 0x7F], [0xFE]].flatten ++ [0xF0, 0x01, 0xF7]⟩ =
      .ok (d, [{ callback := 1, timeStamp := 0, bytes := [0xF8], userData := 9 },
               { callback := 1, timeStamp := 0, bytes := [0x90, 0x40, 0x7F], userData := 9 },
               { callback := 1, timeStamp := 0, bytes := [0xFE], userData := 9 },
               { callback := 1, timeStamp := 0, bytes := [0xF0, 0x01, 0xF7], userData := 9 }]) :=
    ⟨_, rfl⟩
  obtain ⟨d, e⟩ := e
  have hc := h0.symm.trans e
  simp only [Except.ok.injEq, Prod.mk.injEq] at hc
  obtain ⟨_, hc⟩ := hc
  subst hc
  exact ⟨d0, dm, _, h0, hm, rfl, by decide⟩

/-- C24: outside a sysex continuation, for every packet P ++ [d] ++ R with P
a concatenation of complete non-sysex messages, filtered or not, and
d < 0x80, the packet is processed without error, and the invocations made
and the resulting continueSysex flag are exactly those of the packet P
alone. -/
theorem handlePacket_stops_at_data_byte (fuel : Nat) (host : Host) (data : MacMidiInData)
    (ts : Nat) (P : List (List Nat)) (d : Nat) (R : List Nat)
    (hP : ∀ m ∈ P, plainMessage m = true) (hd : d < 0x80)
    (hlen : (P.flatten ++ [d] ++ R).length < USHORT)
    (hcs : data.continueSysex = false) (hf : P.length + 2 ≤ fuel) :
    ∃ d1 d2 calls,
      handlePacket fuel host data ⟨ts, P.flatten ++ [d] ++ R⟩ = .ok (d1, calls) ∧
      handlePacket fuel host data ⟨ts, P.flatten⟩ = .ok (d2, calls) ∧
      d1.continueSysex = d2.continueSysex := by
  have hd0 : d ≠ 0xF0 := by omega
  have e1 : P.flatten ++ [d] ++ R = P.flatten ++ d :: R := by simp
  have e2 : P.flatten = P.flatten ++ [] := by simp
  rw [e1] at hlen ⊢
  obtain ⟨d1, h1, k1, _⟩ := handlePacket_parsed fuel host data ts P (d :: R) hP
    (by simp [packetTail, hd]) hlen hcs hf
  obtain ⟨d2, h2, k2, _⟩ := handlePacket_parsed fuel host data ts P [] hP rfl
    (by simp at hlen ⊢; omega) hcs hf
  have hp : passing data.ignoreFlags P (d :: R) = passing data.ignoreFlags P [] := by
    simp [passing, sysexFound, hd0]
  rw [hp, calcTimeStamp_data host data ts _ (P.flatten ++ [])] at h1
  refine ⟨d1, d2, _, h1, ?_, ?_⟩
  · rw [e2]; exact h2
  · rw [k1, k2]; simp [sysexOpen, hd0]

/-- Witness for C24: with the callback 1 in use and the default mask, a
note-on, a filtered timing tick and a program change, then the data byte
0x41 and a further note-on. The callback receives the note-on and the
program change, as for the packet without the data byte and what follows
it; the note-on after the data byte is not delivered. -/
theorem handlePacket_stops_at_data_byte_witness :
    ∃ d1 d2 calls,
      handlePacket 5 (Host.plain 1)
        { MacMidiInData.new 100 0 with usingCallback := true, userCallback := 1, userData := 9 }
        ⟨9, [[0x90, 0x40, 0x7F], [0xF8], [0xC0, 0x05]].flatten ++ [0x41] ++ [0x80, 0x40, 0x00]⟩ =
          .ok (d1, calls) ∧
      handlePacket 5 (Host.plain 1)
        { MacMidiInData.new 100 0 with usingCallback := true, userCallback := 1, userData := 9 }
        ⟨9, [[0x90, 0x40, 0x7F], [0xF8], [0xC0, 0x05]].flatten⟩ = .ok (d2, calls) ∧
      d1.continueSysex = d2.continueSysex ∧
      calls = [{ callback := 1, timeStamp := 0, bytes := [0x90, 0x40, 0x7F], userData := 9 },
               { callback := 1, timeStamp := 0, bytes := [0xC0, 0x05], userData := 9 }] := by
  obtain ⟨d1, d2, calls, h1, h2, h3⟩ := handlePacket_stops_at_data_byte 5 (Host.plain 1)
    { MacMidiInData.new 100 0 with usingCallback := true, userCallback := 1, userData := 9 } 9
    [[0x90, 0x40, 0x7F], [0xF8], [0xC0, 0x05]] 0x41 [0x80, 0x40, 0x00]
    (by decide) (by decide) (by decide) rfl (by decide)
  have e : ∃ d, handlePacket 5 (Host.plain 1)
      { MacMidiInData.new 100 0 with usingCallback := true, userCallback := 1, userData := 9 }
      ⟨9, [[0x90, 0x40, 0x7F], [0xF8], [0xC0, 0x05]].flatten ++ [0x41] ++ [0x80, 0x40, 0x00]⟩ =
      .ok (d, [{ callback := 1, timeStamp := 0, bytes := [0x90, 0x40, 0x7F], userData := 9 },
               { callback := 1, timeStamp := 0, bytes := [0xC0, 0x05], userData := 9 }]) :=
    ⟨_, rfl⟩
  obtain ⟨d, e⟩ := e
  have hc := h1.symm.trans e
  simp only [Except.ok.injEq, Prod.mk.injEq] at hc
  obtain ⟨_, hc⟩ := hc
  subst hc
  exact ⟨d1, d2, _, h1, h2, h3, rfl⟩

/-- C25: after a packet processed with continueSysex false at entry,
lastTime is the packet's time stamp (the host clock when that is 0)
if an unfiltered message was found in it, that is a complete message the
mask lets through or the start of a sysex that is not ignored, and is
unchanged if the packet held only filtered messages or stopped at a first
byte that is no status byte. -/
theorem handlePacket_lastTime (fuel : Nat) (host : Host) (data : MacMidiInData)
    (ts : Nat) (P : List (List Nat)) (tail : List Nat)
    (hP : ∀ m ∈ P, plainMessage m = true) (ht : packetTail tail = true)
    (hlen : (P.flatten ++ tail).length < USHORT)
    (hcs : data.continueSysex = false) (hf : P.length + 2 ≤ fuel) :
    ∃ d1 calls,
      handlePacket fuel host data ⟨ts, P.flatten ++ tail⟩ = .ok (d1, calls) ∧
      (((∃ m ∈ P, filtered data.ignoreFlags (m.headD 0) = false) ∨
          (tail.head? = some 0xF0 ∧ data.ignoreFlags &&& 0x01 = 0)) →
        d1.apiData.lastTime = if ts = 0 then host.now else ts) ∧
      (((∀ m ∈ P, filtered data.ignoreFlags (m.headD 0) = true) ∧
          ¬ (tail.head? = some 0xF0 ∧ data.ignoreFlags &&& 0x01 = 0)) →
        d1.apiData.lastTime = data.apiData.lastTime) := by
  obtain ⟨d1, h1, _, k2, _⟩ := handlePacket_parsed fuel host data ts P tail hP ht hlen hcs hf
  refine ⟨d1, _, h1, ?_, ?_⟩
  · intro h
    rw [k2, if_pos, packetTick]
    rcases h with ⟨m, hm, hp⟩ | h
    · simp only [Bool.or_eq_true, List.any_eq_true]
      exact Or.inl ⟨m, hm, by unfold passes; rw [hp]; rfl⟩
    · simp only [Bool.or_eq_true]
      exact Or.inr (by simp only [sysexFound, decide_eq_true_eq]; exact h)
  · intro h
    rw [k2, if_neg]
    simp only [Bool.or_eq_true, List.any_eq_true, not_or, not_exists, not_and]
    refine ⟨fun m hm => by unfold passes; rw [h.1 m hm]; decide, ?_⟩
    simp only [sysexFound, decide_eq_true_eq]
    exact h.2

/-- Witness for C25: a filtered timing tick followed by a note-on. -/
theorem handlePacket_lastTime_witness :
    ∃ d1 calls,
      handlePacket 5 (Host.plain 1) (MacMidiInData.new 100 3)
        ⟨9, [[0xF8], [0x90, 0x40, 0x7F]].flatten ++ []⟩ = .ok (d1, calls) ∧
      (((∃ m ∈ [[0xF8], [0x90, 0x40, 0x7F]],
            filtered (MacMidiInData.new 100 3).ignoreFlags (m.headD 0) = false) ∨
          (([] : List Nat).head? = some 0xF0 ∧
            (MacMidiInData.new 100 3).ignoreFlags &&& 0x01 = 0)) →
        d1.apiData.lastTime = if 9 = 0 then (Host.plain 1).now else 9) ∧
      (((∀ m ∈ [[0xF8], [0x90, 0x40, 0x7F]],
            filtered (MacMidiInData.new 100 3).ignoreFlags (m.headD 0) = true) ∧
          ¬ (([] : List Nat).head? = some 0xF0 ∧
            (MacMidiInData.new 100 3).ignoreFlags &&& 0x01 = 0)) →
        d1.apiData.lastTime = (MacMidiInData.new 100 3).apiData.lastTime) :=
  handlePacket_lastTime 5 (Host.plain 1) (MacMidiInData.new 100 3) 9
    [[0xF8], [0x90, 0x40, 0x7F]] [] (by decide) (by decide) (by decide) rfl (by decide)

/-! ## Packet parser: reads inside the packet -/

/-- Every message of a run is a contiguous slice of the run followed by
anything. -/
theorem slice_of_mem (P : List (List Nat)) (tail m : List Nat) (hm : m ∈ P) :
    ∃ i n, i + n ≤ (P.flatten ++ tail).length ∧ m = ((P.flatten ++ tail).drop i).take n := by
  obtain ⟨a, b, hab⟩ := List.infix_of_mem_flatten hm
  refine ⟨a.length, m.length, ?_, ?_⟩
  · rw [← hab]; simp
  · rw [← hab]; simp

/-- C26 (counterexample): the packet 90 40 ends in the middle of a note-on:
the scanner gives the message at cursor 0 the length 3 and copies
`data[0 .. 3)` from a packet of 2 bytes, a read at index 2 past the
packet. -/
theorem handlePacket_reads_past_packet :
    classify ⟨9, [0x90, 0x40]⟩ 2 0 0 false 0x90 = .ok (3, 0, false) ∧
    ¬ (0 + 3 ≤ (MIDIPacket.mk 9 [0x90, 0x40]).data.length) ∧
    handlePacket 5 (Host.plain 1)
      { MacMidiInData.new 100 0 with ignoreFlags := 0, usingCallback := true, userCallback := 1 }
      ⟨9, [0x90, 0x40]⟩ = .error .outOfBounds := by
  decide

/-- C26 (amended): for every packet made of complete non-sysex messages,
followed by nothing, by a byte below 0x80 and anything, or by a sysex start
with the rest of the packet, and every ignore mask, the byte scan returns
and every message it hands to the callback is a contiguous slice of the
packet: `n` bytes from index `i` with `i + n` at most the packet's length. -/
theorem handlePacket_slices (fuel : Nat) (host : Host) (data : MacMidiInData)
    (ts : Nat) (P : List (List Nat)) (tail : List Nat)
    (hP : ∀ m ∈ P, plainMessage m = true) (ht : packetTail tail = true)
    (hlen : (P.flatten ++ tail).length < USHORT)
    (hcs : data.continueSysex = false) (hf : P.length + 2 ≤ fuel) :
    ∃ d1 calls,
      handlePacket fuel host data ⟨ts, P.flatten ++ tail⟩ = .ok (d1, calls) ∧
      ∀ c ∈ calls, ∃ i n, i + n ≤ (P.flatten ++ tail).length ∧
        c.bytes = ((P.flatten ++ tail).drop i).take n := by
  obtain ⟨d1, h1, _⟩ := handlePacket_parsed fuel host data ts P tail hP ht hlen hcs hf
  refine ⟨d1, _, h1, ?_⟩
  intro c hc
  have hmem : c.bytes ∈ passing data.ignoreFlags P tail := by
    unfold emitted at hc
    split_ifs at hc
    · obtain ⟨m, hm, rfl⟩ := List.mem_map.mp hc
      exact hm
    · simp at hc
  unfold passing at hmem
  rcases List.mem_append.mp hmem with h | h
  · exact slice_of_mem P tail c.bytes (List.mem_of_mem_filter h)
  · split_ifs at h
    · rw [List.mem_singleton] at h
      refine ⟨P.flatten.length, tail.length, by simp, ?_⟩
      rw [h]; simp
    · simp at h

/-- Witness for C26: two note messages and a whole sysex. -/
theorem handlePacket_slices_witness :
    ∃ d1 calls,
      handlePacket 5 (Host.plain 1)
        { MacMidiInData.new 100 0 with ignoreFlags := 0, usingCallback := true, userCallback := 1 }
        ⟨9, [[0x90, 0x40, 0x7F], [0xC0, 0x05]].flatten ++ [0xF0, 0x01, 0xF7]⟩ = .ok (d1, calls) ∧
      ∀ c ∈ calls, ∃ i n,
        i + n ≤ ([[0x90, 0x40, 0x7F], [0xC0, 0x05]].flatten ++ [0xF0, 0x01, 0xF7]).length ∧
        c.bytes = (([[0x90, 0x40, 0x7F], [0xC0, 0x05]].flatten ++ [0xF0, 0x01, 0xF7]).drop i).take n :=
  handlePacket_slices 5 (Host.plain 1)
    { MacMidiInData.new 100 0 with ignoreFlags := 0, usingCallback := true, userCallback := 1 }
    9 [[0x90, 0x40, 0x7F], [0xC0, 0x05]] [0xF0, 0x01, 0xF7]
    (by decide) (by decide) (by decide) rfl (by decide)

/-- C29: a packet consumed as a sysex continuation (continueSysex true at
entry) is processed without error and leaves lastTime unchanged, also when
it carries the terminator and the reassembled sysex is delivered on it; so
the time stamp computed for the next packet, once the sysex has ended, is
the distance of that packet from the lastTime stored before the
continuation. -/
theorem handlePacket_continuation_lastTime (fuel : Nat) (host : Host) (data : MacMidiInData)
    (packet : MIDIPacket) (hcs : data.continueSysex = true) :
    ∃ d1 calls, handlePacket fuel host data packet = .ok (d1, calls) ∧
      d1.apiData.lastTime = data.apiData.lastTime ∧
      ∀ next : MIDIPacket, d1.continueSysex = false → d1.firstMessage = false →
        (calcTimeStamp host d1 next).message.timeStamp =
          host.toNanos (wrapSub ULLONG (if next.timeStamp = 0 then host.now else next.timeStamp)
            data.apiData.lastTime) := by
  have hnext : ∀ d1 : MacMidiInData, d1.apiData.lastTime = data.apiData.lastTime →
      ∀ next : MIDIPacket, d1.continueSysex = false → d1.firstMessage = false →
        (calcTimeStamp host d1 next).message.timeStamp =
          host.toNanos (wrapSub ULLONG (if next.timeStamp = 0 then host.now else next.timeStamp)
            data.apiData.lastTime) := by
    intro d1 hl next h1 h2
    simp [calcTimeStamp, h1, h2, hl]
  obtain ⟨f1, f2, _, _, _, _, _, f8, _⟩ := calcTimeStamp_frame host data packet
  by_cases hn : packet.data.length = 0
  · exact ⟨data, [], by simp [handlePacket, hn], rfl, hnext data rfl⟩
  · obtain ⟨x, hx⟩ := exists_last_byte packet.data (by
      intro h; rw [h] at hn; exact hn rfl)
    have hl := last_byte _ _ hx
    simp only [handlePacket, hn, if_false, f1, hcs, if_true, hl]
    split_ifs
    all_goals exact ⟨_, _, rfl, by simp [deliver, f8], hnext _ (by simp [deliver, f8])⟩

/-- Witness for C29: the packet that ends a collected sysex. -/
theorem handlePacket_continuation_lastTime_witness :
    ∃ d1 calls,
      handlePacket 5 (Host.plain 1)
        { MacMidiInData.new 100 7 with
            ignoreFlags := 0, firstMessage := false, continueSysex := true
            message := ⟨[0xF0, 0x01], 0⟩ }
        ⟨9, [0x02, 0xF7]⟩ = .ok (d1, calls) ∧
      d1.apiData.lastTime = 7 ∧
      ∀ next : MIDIPacket, d1.continueSysex = false → d1.firstMessage = false →
        (calcTimeStamp (Host.plain 1) d1 next).message.timeStamp =
          (Host.plain 1).toNanos
            (wrapSub ULLONG (if next.timeStamp = 0 then (Host.plain 1).now else next.timeStamp) 7) :=
  handlePacket_continuation_lastTime 5 (Host.plain 1)
    { MacMidiInData.new 100 7 with
        ignoreFlags := 0, firstMessage := false, continueSysex := true
        message := ⟨[0xF0, 0x01], 0⟩ }
    ⟨9, [0x02, 0xF7]⟩ rfl

/-! ## Packet parser: what reaches the callback -/

/-- C28: the mask is changed in the middle of a sysex. On a fresh stream
with a callback, the packet F0 01 02 is dropped under the default mask but
sets the continuation flag; after `ignoreTypes(false, false, false)` the
continuation packet 05 F7 is appended to the empty message and handed to
the callback: a message that starts with 0x05, which is no status byte and
not 0xF0. -/
theorem midiInputCallback_emits_sysex_tail :
    ∃ api1 d1 d2,
      (MidiInApi.new 100 0).setCallback 1 9 = .ok (api1, []) ∧
      midiInputCallback 5 (Host.plain 1) api1.inputData_ [⟨1000, [0xF0, 0x01, 0x02]⟩] =
        .ok (d1, []) ∧
      midiInputCallback 5 (Host.plain 1)
        (({ api1 with inputData_ := d1 } : MidiInApi).ignoreTypes false false false).inputData_
        [⟨2000, [0x05, 0xF7]⟩] =
        .ok (d2, [{ callback := 1, timeStamp := 0, bytes := [0x05, 0xF7], userData := 9 }]) ∧
      ¬ (0x80 ≤ ([0x05, 0xF7] : List Nat).headD 0) :=
  ⟨_, _, _, rfl, rfl, rfl, by decide⟩

/-- Where the if/else chain leaves the cursor: in place when it finds a
message; at the end of the packet, or one or two bytes further, when the
message is filtered. -/
theorem classify_cursor (packet : MIDIPacket) (nBytes iByte ignoreFlags : Nat) (cs : Bool)
    (status size iByte1 : Nat) (cs1 : Bool)
    (h : classify packet nBytes iByte ignoreFlags cs status = .ok (size, iByte1, cs1)) :
    (iByte1 = iByte ∧ ((1 ≤ size ∧ size ≤ 3) ∨ size = wrapSub USHORT nBytes iByte)) ∨
    (size = 0 ∧ (iByte1 = nBytes ∨ iByte1 = (iByte + 1) % USHORT ∨
      iByte1 = (iByte + 2) % USHORT)) := by
  unfold classify at h
  split_ifs at h
  all_goals first
    | (simp only [Except.ok.injEq, Prod.mk.injEq] at h
       obtain ⟨rfl, rfl, rfl⟩ := h
       simp)
    | (split at h
       · cases h
       · simp only [Except.ok.injEq, Prod.mk.injEq] at h
         obtain ⟨rfl, rfl, rfl⟩ := h
         simp)

/-- What one iteration of the scan loop can be: the loop is left, a fault,
a filtered message (only the cursor and the continuation flag change), or a
message that is copied and, if the continuation flag is false, delivered. -/
theorem scanStep_cases (packet : MIDIPacket) (nBytes : Nat) (s s1 : Scan)
    (h : scanStep packet nBytes s = .ok (some s1)) :
    s.iByte < nBytes ∧
    ∃ status size iByte cs,
      classify packet nBytes s.iByte s.data.ignoreFlags s.data.continueSysex status =
        .ok (size, iByte, cs) ∧
      ((size = 0 ∧ s1 = { s with iByte := iByte, data := { s.data with continueSysex := cs } }) ∨
       (size ≠ 0 ∧ iByte + size ≤ packet.data.length ∧ cs = true ∧
         s1 = { iByte := (iByte + size) % USHORT
                data := { s.data with continueSysex := cs, message :=
                  { s.data.message with bytes := (packet.data.drop iByte).take size } }
                foundNonFiltered := true, calls := s.calls }) ∨
       (size ≠ 0 ∧ iByte + size ≤ packet.data.length ∧ cs = false ∧
         (s1.data, s1.calls) = deliver { s.data with continueSysex := cs, message :=
                  { s.data.message with bytes := (packet.data.drop iByte).take size } } s.calls ∧
         s1.iByte = (iByte + size) % USHORT ∧ s1.foundNonFiltered = true)) := by
  unfold scanStep at h
  by_cases h1 : s.iByte < nBytes
  · refine ⟨h1, ?_⟩
    rw [if_pos h1] at h
    cases hg : packet.data[s.iByte]? with
    | none => rw [hg] at h; cases h
    | some status =>
      rw [hg] at h
      simp only at h
      by_cases h3 : status &&& 0x80 = 0
      · rw [if_pos h3] at h; cases h
      · rw [if_neg h3] at h
        cases hcl : classify packet nBytes s.iByte s.data.ignoreFlags s.data.continueSysex status with
        | error e => rw [hcl] at h; cases h
        | ok r =>
          obtain ⟨size, iByte, cs⟩ := r
          rw [hcl] at h
          simp only at h
          refine ⟨status, size, iByte, cs, hcl, ?_⟩
          by_cases h5 : size = 0
          · simp only [h5, ne_eq, not_true_eq_false, if_false, Except.ok.injEq,
              Option.some.injEq] at h
            exact Or.inl ⟨h5, h.symm⟩
          · by_cases h6 : iByte + size ≤ packet.data.length
            · simp only [h5, ne_eq, not_false_eq_true, if_true, h6, Except.ok.injEq,
                Option.some.injEq] at h
              subst h
              cases cs with
              | false => exact Or.inr (Or.inr ⟨h5, h6, rfl, rfl, rfl, rfl⟩)
              | true => exact Or.inr (Or.inl ⟨h5, h6, rfl, rfl⟩)
            · simp only [h5, ne_eq, not_false_eq_true, if_true, h6, if_false] at h
              cases h
  · rw [if_neg h1] at h; cases h

/-- C23: every invocation of the callback is made through `deliver` on a
stream whose continueSysex flag is false at that moment. In the scan loop:
an iteration that adds an invocation is `deliver d` for a stream `d` with
the flag false. On a continuation packet (flag true at entry): if an
invocation is made, it is `deliver d` for a stream `d` with the flag
false, the packet having ended the sysex. -/
theorem deliver_outside_sysex (packet : MIDIPacket) (nBytes : Nat) (s s1 : Scan)
    (fuel : Nat) (host : Host) (data d1 : MacMidiInData) (calls : List CallbackCall) :
    (scanStep packet nBytes s = .ok (some s1) → s1.calls ≠ s.calls →
      ∃ d, d.continueSysex = false ∧ (s1.data, s1.calls) = deliver d s.calls) ∧
    (data.continueSysex = true → handlePacket fuel host data packet = .ok (d1, calls) →
      calls ≠ [] → ∃ d, d.continueSysex = false ∧ (d1, calls) = deliver d []) := by
  constructor
  · intro h hne
    obtain ⟨_, status, size, iByte, cs, _, hc⟩ := scanStep_cases packet nBytes s s1 h
    rcases hc with ⟨_, rfl⟩ | ⟨_, _, _, rfl⟩ | ⟨_, _, hcs, hd, _⟩
    · exact absurd rfl hne
    · exact absurd rfl hne
    · subst hcs
      exact ⟨_, rfl, hd⟩
  · intro hcs h hne
    obtain ⟨f1, _⟩ := calcTimeStamp_frame host data packet
    unfold handlePacket at h
    by_cases h0 : packet.data.length = 0
    · simp only [h0, if_true, Except.ok.injEq, Prod.mk.injEq] at h
      exact absurd h.2.symm hne
    · simp only [h0, if_false, f1, hcs, if_true] at h
      cases hl : packet.data[packet.data.length - 1]? with
      | none => rw [hl] at h; cases h
      | some last =>
        rw [hl] at h
        simp only at h
        by_cases hig : (calcTimeStamp host data packet).ignoreFlags &&& 0x01 = 0
        · by_cases h7 : last = 0xF7
          · subst h7
            have hb : ((0xF7 : Nat) != 0xF7) = false := by decide
            simp only [hig, if_true, hb, Bool.not_false, and_self, Except.ok.injEq] at h
            exact ⟨_, rfl, h.symm⟩
          · have hb : (last != 0xF7) = true := by simpa using h7
            simp only [hig, if_true, hb, Bool.not_true, Bool.false_eq_true, and_false, if_false,
              Except.ok.injEq, Prod.mk.injEq] at h
            exact absurd h.2.symm hne
        · simp only [hig, if_false, false_and, Except.ok.injEq, Prod.mk.injEq] at h
          exact absurd h.2.symm hne

/-- Witness for C23: the iteration that delivers a note-on, and the
continuation packet that ends a collected sysex. -/
theorem deliver_outside_sysex_witness :
    (∃ d, d.continueSysex = false ∧
      (({ iByte := 3
          data := { MacMidiInData.new 100 0 with usingCallback := true, userCallback := 1 }
          foundNonFiltered := true
          calls := [{ callback := 1, timeStamp := 0, bytes := [0x90, 0x40, 0x7F], userData := 0 }]
        } : Scan).data,
       [({ callback := 1, timeStamp := 0, bytes := [0x90, 0x40, 0x7F], userData := 0 }
          : CallbackCall)]) = deliver d []) ∧
    (∃ d, d.continueSysex = false ∧
      (({ MacMidiInData.new 100 0 with
            usingCallback := true, userCallback := 1, ignoreFlags := 0, firstMessage := false }
          : MacMidiInData),
       [({ callback := 1, timeStamp := 0, bytes := [0xF0, 0x01, 0x02, 0xF7], userData := 0 }
          : CallbackCall)]) = deliver d []) :=
  ⟨(deliver_outside_sysex ⟨9, [0x90, 0x40, 0x7F]⟩ 3
      { iByte := 0
        data := { MacMidiInData.new 100 0 with usingCallback := true, userCallback := 1 }
        foundNonFiltered := false, calls := [] }
      { iByte := 3
        data := { MacMidiInData.new 100 0 with usingCallback := true, userCallback := 1 }
        foundNonFiltered := true
        calls := [{ callback := 1, timeStamp := 0, bytes := [0x90, 0x40, 0x7F], userData := 0 }] }
      0 (Host.plain 1) (MacMidiInData.new 100 0) (MacMidiInData.new 100 0) []).1
      (by decide) (by decide),
   (deliver_outside_sysex ⟨9, [0x02, 0xF7]⟩ 0
      { iByte := 0, data := MacMidiInData.new 100 0, foundNonFiltered := false, calls := [] }
      { iByte := 0, data := MacMidiInData.new 100 0, foundNonFiltered := false, calls := [] }
      5 (Host.plain 1)
      { MacMidiInData.new 100 0 with
          usingCallback := true, userCallback := 1, ignoreFlags := 0, firstMessage := false
          continueSysex := true, message := ⟨[0xF0, 0x01], 0⟩ }
      { MacMidiInData.new 100 0 with
          usingCallback := true, userCallback := 1, ignoreFlags := 0, firstMessage := false }
      [{ callback := 1, timeStamp := 0, bytes := [0xF0, 0x01, 0x02, 0xF7], userData := 0 }]).2
      rfl (by decide) (by decide)⟩

/-! ## Packet parser: termination of the scan -/

/-- The if/else chain faults only by reading past the packet. -/
theorem classify_fault (packet : MIDIPacket) (nBytes iByte ignoreFlags : Nat) (cs : Bool)
    (status : Nat) (e : Failure)
    (h : classify packet nBytes iByte ignoreFlags cs status = .error e) : e = .outOfBounds := by
  unfold classify at h
  split_ifs at h
  all_goals
    split at h
    · cases h; rfl
    · cases h

/-- An iteration of the scan loop faults only by reading past the packet. -/
theorem scanStep_fault (packet : MIDIPacket) (nBytes : Nat) (s : Scan) (e : Failure)
    (h : scanStep packet nBytes s = .error e) : e = .outOfBounds := by
  unfold scanStep at h
  by_cases h1 : s.iByte < nBytes
  · rw [if_pos h1] at h
    cases hg : packet.data[s.iByte]? with
    | none => rw [hg] at h; cases h; rfl
    | some status =>
      rw [hg] at h
      simp only at h
      by_cases h3 : status &&& 0x80 = 0
      · rw [if_pos h3] at h; cases h
      · rw [if_neg h3] at h
        cases hcl : classify packet nBytes s.iByte s.data.ignoreFlags s.data.continueSysex status with
        | error e1 =>
          rw [hcl] at h
          cases h
          exact classify_fault _ _ _ _ _ _ _ hcl
        | ok r =>
          obtain ⟨size, iByte, cs⟩ := r
          rw [hcl] at h
          simp only at h
          by_cases h5 : size = 0
          · simp only [h5, ne_eq, not_true_eq_false, if_false] at h
            cases h
          · by_cases h6 : iByte + size ≤ packet.data.length
            · simp only [h5, ne_eq, not_false_eq_true, if_true, h6] at h
              cases h
            · simp only [h5, ne_eq, not_false_eq_true, if_true, h6, if_false] at h
              cases h; rfl
  · rw [if_neg h1] at h; cases h

/-- In a packet of at most 65533 bytes an iteration that does not leave the
loop moves the cursor forward. -/
theorem scanStep_advances (packet : MIDIPacket) (hlen : packet.data.length ≤ 65533)
    (s s1 : Scan) (h : scanStep packet packet.data.length s = .ok (some s1)) :
    s.iByte < s1.iByte := by
  obtain ⟨hlt, status, size, iByte, cs, hcl, hc⟩ := scanStep_cases packet _ s s1 h
  have hw : wrapSub USHORT packet.data.length s.iByte = packet.data.length - s.iByte :=
    wrapSub_of_le _ _ _ (by omega)
  have hcur := classify_cursor _ _ _ _ _ _ _ _ _ hcl
  rw [hw] at hcur
  unfold USHORT at *
  rcases hc with ⟨h0, rfl⟩ | ⟨h0, hfit, _, rfl⟩ | ⟨h0, hfit, _, _, hi, _⟩
  · simp only
    rcases hcur with ⟨_, h | h⟩ | ⟨_, h | h | h⟩ <;> omega
  · simp only
    rcases hcur with ⟨h1, _⟩ | ⟨h, _⟩ <;> omega
  · rw [hi]
    rcases hcur with ⟨h1, _⟩ | ⟨h, _⟩ <;> omega

/-- With one evaluation of the loop condition per remaining byte, and one
more, the scan of a packet of at most 65533 bytes does not run out of fuel:
it returns or stops at a read past the packet. -/
theorem scan_ends (packet : MIDIPacket) (hlen : packet.data.length ≤ 65533) :
    ∀ (fuel : Nat) (s : Scan), packet.data.length ≤ fuel + s.iByte →
      (∃ s1, scan packet packet.data.length (fuel + 1) s = .ok s1) ∨
      scan packet packet.data.length (fuel + 1) s = .error .outOfBounds := by
  intro fuel
  induction fuel with
  | zero =>
    intro s h
    exact Or.inl ⟨s, scan_done _ _ _ _ (by omega)⟩
  | succ fuel ih =>
    intro s h
    rw [scan_step]
    cases hs : scanStep packet packet.data.length s with
    | error e =>
      rw [scanStep_fault _ _ _ _ hs]
      exact Or.inr rfl
    | ok r =>
      cases r with
      | none => exact Or.inl ⟨s, rfl⟩
      | some s1 =>
        have := scanStep_advances packet hlen s s1 hs
        exact ih s1 (by omega)

/-- The 65535 bytes of the packet that holds 65534 timing ticks and then a
time code status byte. -/
theorem ticks_length : (List.replicate 65534 0xF8 ++ [0xF1] : List Nat).length = 65535 := by
  rw [List.length_append, List.length_replicate, List.length_singleton]

/-- The bytes of that packet: timing ticks up to index 65533. -/
theorem ticks_get (i : Nat) (h : i < 65534) :
    (List.replicate 65534 0xF8 ++ [0xF1] : List Nat)[i]? = some 0xF8 := by
  rw [List.getElem?_append_left (by rw [List.length_replicate]; exact h),
    List.getElem?_replicate, if_pos h]

/-- The last byte of that packet, at index 65534, is the time code status. -/
theorem ticks_last : (List.replicate 65534 0xF8 ++ [0xF1] : List Nat)[65534]? = some 0xF1 := by
  rw [List.getElem?_append_right (by rw [List.length_replicate]), List.length_replicate]
  rfl

/-- In a packet of timing ticks with a time code status at index 65534,
under a mask that ignores time: an iteration on a tick moves the cursor by
one; the one at index 65534 moves it by two, to 65536 modulo 2^16, which
is 0. -/
theorem wrap_step (packet : MIDIPacket) (i : Nat) (d : MacMidiInData) (found : Bool)
    (calls : List CallbackCall)
    (hget : ∀ k, k < 65534 → packet.data[k]? = some 0xF8)
    (hlast : packet.data[65534]? = some 0xF1)
    (hi : i ≤ 65534) (hflags : d.ignoreFlags = 7) :
    scanStep packet 65535
        { iByte := i, data := d, foundNonFiltered := found, calls := calls } =
      .ok (some { iByte := if i = 65534 then 0 else i + 1, data := d,
                  foundNonFiltered := found, calls := calls }) := by
  have hlt : i < 65535 := by omega
  unfold scanStep
  simp only [if_pos hlt]
  by_cases h : i = 65534
  · subst h
    have hb : (0xF1 : Nat) &&& 0x80 ≠ 0 := by decide
    have hcl : ∀ cs, classify packet 65535 65534 d.ignoreFlags cs 0xF1 = .ok (0, 0, cs) := by
      intro cs; rw [hflags]; rfl
    simp only [hlast, hb, if_false, hcl, ne_eq, not_true_eq_false, if_true]
  · have hb : (0xF8 : Nat) &&& 0x80 ≠ 0 := by decide
    have hmod : (i + 1) % USHORT = i + 1 := Nat.mod_eq_of_lt (by unfold USHORT; omega)
    have hcl : ∀ cs, classify packet 65535 i d.ignoreFlags cs 0xF8 =
        .ok (0, (i + 1) % USHORT, cs) := by
      intro cs; rw [hflags]; rfl
    simp only [hget i (by omega), hb, if_false, hcl, hmod, ne_eq, not_true_eq_false, h]

/-- The scan of such a packet never leaves the loop, whatever the fuel. -/
theorem wrap_loop (packet : MIDIPacket) (d : MacMidiInData) (found : Bool)
    (calls : List CallbackCall)
    (hget : ∀ k, k < 65534 → packet.data[k]? = some 0xF8)
    (hlast : packet.data[65534]? = some 0xF1) (hflags : d.ignoreFlags = 7) :
    ∀ (fuel i : Nat), i ≤ 65534 →
      scan packet 65535 fuel
        { iByte := i, data := d, foundNonFiltered := found, calls := calls } =
        .error .outOfFuel := by
  intro fuel
  induction fuel with
  | zero => intro i _; rfl
  | succ fuel ih =>
    intro i hi
    rw [scan_step, wrap_step packet i d found calls hget hlast hi hflags]
    exact ih _ (by split_ifs <;> omega)

/-- Such a packet, outside a sysex continuation, is never processed to its
end. -/
theorem wrap_handlePacket (fuel : Nat) (host : Host) (data : MacMidiInData) (packet : MIDIPacket)
    (hlen : packet.data.length = 65535)
    (hget : ∀ k, k < 65534 → packet.data[k]? = some 0xF8)
    (hlast : packet.data[65534]? = some 0xF1)
    (hflags : data.ignoreFlags = 7) (hcs : data.continueSysex = false) :
    handlePacket fuel host data packet = .error .outOfFuel := by
  obtain ⟨f1, f2, _⟩ := calcTimeStamp_frame host data packet
  have h0 : (65535 : Nat) ≠ 0 := by decide
  unfold handlePacket
  simp only [hlen, h0, if_false, f1, hcs, Bool.false_eq_true]
  rw [wrap_loop packet _ false [] hget hlast (by rw [f2]; exact hflags) fuel 0 (by omega)]

/-- C27 (counterexample): a packet of 65535 bytes, 65534 timing ticks and
then a time code status byte, under the default mask, which ignores time.
The iteration at
cursor 65534 advances the cursor by 2, to 0 modulo 2^16: the cursor is not
greater than before, the packet is scanned again, and the scan does not
terminate, whatever the fuel. -/
theorem scan_cursor_wraps :
    scanStep ⟨9, List.replicate 65534 0xF8 ++ [0xF1]⟩ 65535
        { iByte := 65534, data := MacMidiInData.new 100 0, foundNonFiltered := false, calls := [] } =
      .ok (some { iByte := 0, data := MacMidiInData.new 100 0,
                  foundNonFiltered := false, calls := [] }) ∧
    ∀ fuel, handlePacket fuel (Host.plain 1) (MacMidiInData.new 100 0)
      ⟨9, List.replicate 65534 0xF8 ++ [0xF1]⟩ = .error .outOfFuel :=
  ⟨wrap_step ⟨9, List.replicate 65534 0xF8 ++ [0xF1]⟩ 65534 (MacMidiInData.new 100 0) false []
      ticks_get ticks_last (le_refl _) rfl,
   fun fuel => wrap_handlePacket fuel (Host.plain 1) (MacMidiInData.new 100 0)
      ⟨9, List.replicate 65534 0xF8 ++ [0xF1]⟩ ticks_length ticks_get ticks_last rfl rfl⟩

/-- C27 (amended): for every packet of at most 65533 bytes, whatever its
content, and every ignore mask, each iteration of the scan loop either
leaves the loop (by its condition, at a byte below 0x80, or at a read past
the packet) or leaves the cursor strictly greater than before, and the scan
ends within one evaluation of the loop condition per byte and one more. -/
theorem scan_terminates (packet : MIDIPacket) (d : MacMidiInData)
    (hlen : packet.data.length ≤ 65533) :
    (∀ s s1, scanStep packet packet.data.length s = .ok (some s1) → s.iByte < s1.iByte) ∧
    ((∃ s1, scan packet packet.data.length (packet.data.length + 1)
        { iByte := 0, data := d, foundNonFiltered := false, calls := [] } = .ok s1) ∨
      scan packet packet.data.length (packet.data.length + 1)
        { iByte := 0, data := d, foundNonFiltered := false, calls := [] } = .error .outOfBounds) :=
  ⟨fun s s1 h => scanStep_advances packet hlen s s1 h,
   scan_ends packet hlen packet.data.length _ (by simp)⟩

/-- Witness for C27: a filtered timing tick and a note-on. -/
theorem scan_terminates_witness :
    (∀ s s1, scanStep ⟨9, [0xF8, 0x90, 0x40, 0x7F]⟩
        (MIDIPacket.mk 9 [0xF8, 0x90, 0x40, 0x7F]).data.length s = .ok (some s1) →
      s.iByte < s1.iByte) ∧
    ((∃ s1, scan ⟨9, [0xF8, 0x90, 0x40, 0x7F]⟩
        (MIDIPacket.mk 9 [0xF8, 0x90, 0x40, 0x7F]).data.length
        ((MIDIPacket.mk 9 [0xF8, 0x90, 0x40, 0x7F]).data.length + 1)
        { iByte := 0, data := MacMidiInData.new 100 0, foundNonFiltered := false, calls := [] }
          = .ok s1) ∨
      scan ⟨9, [0xF8, 0x90, 0x40, 0x7F]⟩
        (MIDIPacket.mk 9 [0xF8, 0x90, 0x40, 0x7F]).data.length
        ((MIDIPacket.mk 9 [0xF8, 0x90, 0x40, 0x7F]).data.length + 1)
        { iByte := 0, data := MacMidiInData.new 100 0, foundNonFiltered := false, calls := [] }
          = .error .outOfBounds) :=
  scan_terminates ⟨9, [0xF8, 0x90, 0x40, 0x7F]⟩ (MacMidiInData.new 100 0) (by decide)

/-! ## The C wrapper: reading a message into a buffer -/

/-- A length that fits a non-negative `int` passes the cast unchanged. -/
theorem intToSizeT_small (n : Nat) (h : n < INT_LIMIT) : intToSizeT n = n := by
  unfold INT_LIMIT at h
  have hm : n % UINT = n := Nat.mod_eq_of_lt (by unfold UINT; omega)
  unfold intToSizeT
  rw [hm, if_pos (by unfold INT_LIMIT; exact h)]

/-- The wrapper on a result of `getMessage`: `*size` becomes the length of
the message, which is copied iff it is not empty and fits the capacity. -/
theorem macmidi_in_get_message_of_ok (device : MacMidiWrapper) (message : List Nat) (size : Nat)
    (ret : Nat) (v : List Nat) (api1 : MidiInApi) (out : List Output)
    (hget : device.ptr.getMessage = .ok (ret, v, api1, out))
    (hv : v.length < INT_LIMIT) (hcap : size ≤ message.length) :
    macmidi_in_get_message device message size =
      .ok { ret := ret
            message := if 0 < v.length ∧ v.length ≤ size then v ++ message.drop v.length
                       else message
            size := v.length
            device := { device with ptr := api1 }
            outputs := out } := by
  unfold macmidi_in_get_message
  rw [hget]
  simp only
  by_cases hc : 0 < v.length ∧ v.length ≤ size
  · rw [if_pos hc, if_pos hc, intToSizeT_small _ hv]
    unfold memcpy
    rw [if_pos ⟨le_refl _, by omega⟩, List.take_length]
  · rw [if_neg hc, if_neg hc]

/-- The wrapper on a message that is not empty and fits the capacity: the
number of bytes copied is the length after the cast to `int`. -/
theorem macmidi_in_get_message_copy (device : MacMidiWrapper) (message : List Nat) (size : Nat)
    (ret : Nat) (v : List Nat) (api1 : MidiInApi) (out : List Output)
    (hget : device.ptr.getMessage = .ok (ret, v, api1, out))
    (hc : 0 < v.length ∧ v.length ≤ size)
    (hfit : intToSizeT v.length ≤ v.length ∧ intToSizeT v.length ≤ message.length) :
    macmidi_in_get_message device message size =
      .ok { ret := ret
            message := v.take (intToSizeT v.length) ++ message.drop (intToSizeT v.length)
            size := v.length
            device := { device with ptr := api1 }
            outputs := out } := by
  unfold macmidi_in_get_message
  rw [hget]
  simp only
  rw [if_pos hc]
  unfold memcpy
  rw [if_pos hfit]

/-- C30 (counterexample): a message of 2^32 + 1 bytes at the front of the
queue, read into a buffer of that capacity. Its length is between 1 and the capacity, yet
`(int)v.size()` is 1 and only the first byte is copied: the rest of the
buffer keeps its content although `*size` reports the whole length. -/
theorem macmidi_in_get_message_truncates_count :
    macmidi_in_get_message
        { ptr := { MidiInApi.new 2 0 with inputData_ := { (MidiInApi.new 2 0).inputData_ with
                    queue := MidiQueue.mk 0 1 2 [⟨List.replicate 4294967297 1, 4⟩, ⟨[], 0⟩] } }
          ok := true, msg := "" }
        (List.replicate 4294967297 0) 4294967297 =
      .ok { ret := 4
            message := List.take 1 (List.replicate 4294967297 1) ++
              List.drop 1 (List.replicate 4294967297 0)
            size := 4294967297
            device :=
              { ptr := { MidiInApi.new 2 0 with inputData_ := { (MidiInApi.new 2 0).inputData_ with
                    queue := MidiQueue.mk 1 1 2 [⟨List.replicate 4294967297 1, 4⟩, ⟨[], 0⟩] } }
                ok := true, msg := "" }
            outputs := [] } ∧
    (List.take 1 (List.replicate 4294967297 1) ++ List.drop 1 (List.replicate 4294967297 0))[1]?
      = some 0 ∧
    (List.replicate 4294967297 1)[1]? = some 1 := by
  have hget := MidiInApi.getMessage_of_free
    { MidiInApi.new 2 0 with inputData_ := { (MidiInApi.new 2 0).inputData_ with
        queue := MidiQueue.mk 0 1 2 [⟨List.replicate 4294967297 1, 4⟩, ⟨[], 0⟩] } }
    0 1 2 [⟨List.replicate 4294967297 1, 4⟩, ⟨[], 0⟩] rfl rfl (by decide) rfl (by decide)
    (by decide)
  rw [if_neg (by decide)] at hget
  have hcount : intToSizeT 4294967297 = 1 := by decide
  have hlen : (List.replicate 4294967297 1 : List Nat).length = 4294967297 :=
    List.length_replicate _ _
  have hlen0 : (List.replicate 4294967297 0 : List Nat).length = 4294967297 :=
    List.length_replicate _ _
  have h := macmidi_in_get_message_copy
    { ptr := { MidiInApi.new 2 0 with inputData_ := { (MidiInApi.new 2 0).inputData_ with
                queue := MidiQueue.mk 0 1 2 [⟨List.replicate 4294967297 1, 4⟩, ⟨[], 0⟩] } }
      ok := true, msg := "" }
    (List.replicate 4294967297 0) 4294967297 4 (List.replicate 4294967297 1) _ [] hget
    (by rw [hlen]; decide) (by rw [hlen, hlen0, hcount]; decide)
  rw [hlen, hcount] at h
  refine ⟨h, ?_, ?_⟩
  · rw [List.getElem?_append_right (by rw [List.length_take, hlen]; decide),
      List.length_take, hlen,
      show 1 - min 1 4294967297 = 0 from by decide, List.getElem?_drop,
      List.getElem?_replicate, if_pos (by decide)]
  · rw [List.getElem?_replicate, if_pos (by decide)]


/-- C30 (amended): with no callback in use and a queue whose indices are
inside its ring, `macmidi_in_get_message` called with a buffer of at least
`*size` bytes, the message at the front being shorter than 2^31 bytes,
returns without error; it sets `*size` to the length of the dequeued
message (0 when the queue is empty, the buffer and the queue then being
unchanged) and copies the message to the start of the buffer iff its
length is between 1 and the capacity passed in `*size`; when the message
is longer the buffer is unchanged, yet the front index has moved on. -/
theorem macmidi_in_get_message_contract (device : MacMidiWrapper) (message : List Nat)
    (size f b C : Nat) (ring : List MidiMessage)
    (hfree : device.ptr.inputData_.usingCallback = false)
    (hq : device.ptr.inputData_.queue = MidiQueue.mk f b C ring)
    (hU : C < UINT) (hlen : ring.length = C) (hf : f < C) (hb : b < C)
    (hv : (ring.getD f MidiMessage.new).bytes.length < INT_LIMIT)
    (hcap : size ≤ message.length) :
    macmidi_in_get_message device message size =
      if f = b then
        .ok { ret := 0, message := message, size := 0, device := device, outputs := [] }
      else
        .ok { ret := (ring.getD f MidiMessage.new).timeStamp
              message :=
                if 0 < (ring.getD f MidiMessage.new).bytes.length ∧
                    (ring.getD f MidiMessage.new).bytes.length ≤ size then
                  (ring.getD f MidiMessage.new).bytes ++
                    message.drop (ring.getD f MidiMessage.new).bytes.length
                else message
              size := (ring.getD f MidiMessage.new).bytes.length
              device := { device with ptr := { device.ptr with inputData_ :=
                { device.ptr.inputData_ with queue := MidiQueue.mk ((f + 1) % C) b C ring } } }
              outputs := [] } := by
  have hget := MidiInApi.getMessage_of_free device.ptr f b C ring hfree hq hU hlen hf hb
  by_cases h : f = b
  · rw [if_pos h] at hget
    rw [if_pos h, macmidi_in_get_message_of_ok device message size 0 [] device.ptr [] hget
      (by unfold INT_LIMIT; simp) hcap]
    simp
  · rw [if_neg h] at hget
    rw [if_neg h, macmidi_in_get_message_of_ok device message size _ _ _ [] hget hv hcap]

/-- Witness for C30: a queue of capacity 3 that holds a note-on in slot 1,
read into a buffer of two bytes. -/
theorem macmidi_in_get_message_contract_witness :
    macmidi_in_get_message
        { ptr := { MidiInApi.new 3 0 with inputData_ := { (MidiInApi.new 3 0).inputData_ with
                    queue := MidiQueue.mk 1 2 3 [⟨[], 0⟩, ⟨[0x90, 0x40, 0x7F], 4⟩, ⟨[], 0⟩] } }
          ok := true, msg := "" } [0, 0] 2 =
      .ok { ret := 4, message := [0, 0], size := 3
            device :=
              { ptr := { MidiInApi.new 3 0 with inputData_ := { (MidiInApi.new 3 0).inputData_ with
                    queue := MidiQueue.mk 2 2 3 [⟨[], 0⟩, ⟨[0x90, 0x40, 0x7F], 4⟩, ⟨[], 0⟩] } }
                ok := true, msg := "" }
            outputs := [] } :=
  macmidi_in_get_message_contract
    { ptr := { MidiInApi.new 3 0 with inputData_ := { (MidiInApi.new 3 0).inputData_ with
                queue := MidiQueue.mk 1 2 3 [⟨[], 0⟩, ⟨[0x90, 0x40, 0x7F], 4⟩, ⟨[], 0⟩] } }
      ok := true, msg := "" } [0, 0] 2 1 2 3 [⟨[], 0⟩, ⟨[0x90, 0x40, 0x7F], 4⟩, ⟨[], 0⟩]
    rfl rfl (by decide) rfl (by decide) (by decide) (by decide) (by decide)

end MacMidi
